import Mathlib

/-!
# Cluster-module affinity reconciliation: diff engine and diff applier

A shallow embedding of `controllers/affinity` (`diff.go`, `current_state.go`,
`desired_state.go`, `reconciler.go`) of cluster-api-provider-vsphere, followed by
theorems about it.

Conventions of the embedding:

* a nil-able pointer or interface value is an `Option`; slices are `List`s
  (elements of `[]*ModuleInfo` are the pointed-to values, which the code
  dereferences unconditionally);
* a Go `error` is an `Option Err` (`none` is `nil`);
* a `for ... range` loop that appends to slices is a `List.foldl` whose
  accumulator holds the slices being appended to;
* calls that leave the package (session acquisition, vCenter finder, cluster
  module provider) are answered by a `World`; every answer may depend on the
  calls already made during the pass, so every sequence of outcomes is covered.
-/

namespace Affinity

/-! ## Data model -/

/-- The part of `metav1.ObjectMeta` the affinity package reads or writes. -/
structure ObjectMeta where
  Namespace : String := ""
  Name : String := ""
  Labels : List (String × String) := []
  DeletionTimestamp : Option Nat := none
  deriving DecidableEq, Repr

/-- Modelled from the spec: the `Wrapper` interface and its two variants
`kcpWrapper` and `mdWrapper`, whose declarations are not among the sources.
Spec 4.1: polymorphic over `GetName`, `GetNamespace`, `IsControlPlane`; two
variants, one per member object kind, each owning one object snapshot. -/
inductive Wrapper where
  | kcpWrapper (obj : ObjectMeta)
  | mdWrapper (obj : ObjectMeta)
  deriving DecidableEq, Repr

/-- Modelled from the spec: `Wrapper.GetName`, the name of the wrapped object. -/
def Wrapper.GetName : Wrapper → String
  | .kcpWrapper obj => obj.Name
  | .mdWrapper obj => obj.Name

/-- Modelled from the spec: `Wrapper.GetNamespace`, the namespace of the wrapped object. -/
def Wrapper.GetNamespace : Wrapper → String
  | .kcpWrapper obj => obj.Namespace
  | .mdWrapper obj => obj.Namespace

/-- Modelled from the spec: `Wrapper.IsControlPlane`, the classification of the
variant: true for the control-plane wrapper, false for the worker-pool wrapper. -/
def Wrapper.IsControlPlane : Wrapper → Bool
  | .kcpWrapper _ => true
  | .mdWrapper _ => false

/-- Modelled from the spec: `infrav1.ClusterModule`, the persisted membership
record (spec 3, TargetRef; spec 6): control-plane flag, target name, group UUID.
Its declaration (apis/v1beta1) is not among the sources. -/
structure ClusterModule where
  ControlPlane : Bool
  TargetObjectName : String
  ModuleUUID : String
  deriving DecidableEq, Repr

/-- `ModuleInfo` of current_state.go: an embedded `Wrapper` and the module UUID. -/
structure ModuleInfo where
  Wrapper : Wrapper
  ModuleUUID : String
  deriving DecidableEq, Repr

/-- Method promoted from the embedded `Wrapper`. -/
def ModuleInfo.GetName (m : ModuleInfo) : String := m.Wrapper.GetName

/-- Method promoted from the embedded `Wrapper`. -/
def ModuleInfo.GetNamespace (m : ModuleInfo) : String := m.Wrapper.GetNamespace

/-- Method promoted from the embedded `Wrapper`. -/
def ModuleInfo.IsControlPlane (m : ModuleInfo) : Bool := m.Wrapper.IsControlPlane

/-- `CurrentState` of current_state.go. -/
structure CurrentState where
  ControlPlane : Option ModuleInfo := none
  MachineDeployments : List ModuleInfo := []
  deriving DecidableEq, Repr

/-- `DesiredState` of desired_state.go. -/
structure DesiredState where
  ControlPlane : Option Wrapper := none
  MachineDeployments : List Wrapper := []
  deriving DecidableEq, Repr

/-- `Diff` of diff.go. -/
structure Diff where
  ToAdd : List Wrapper := []
  ToRemove : List ModuleInfo := []
  ToVerify : List ModuleInfo := []
  deriving DecidableEq, Repr

/-- An error value coming from a collaborator. -/
structure Err where
  msg : String
  deriving DecidableEq, Repr

/-- `diffResultItem` of diff.go: two nil-able fields. -/
structure diffResultItem where
  moduleInfo : Option ClusterModule := none
  err : Option Err := none
  deriving DecidableEq, Repr

/-- `DiffResult` of diff.go. -/
structure DiffResult where
  Items : List diffResultItem := []
  deriving DecidableEq, Repr

/-- The part of `infrav1.VSphereClusterSpec` the affinity package uses. -/
structure VSphereClusterSpec where
  ClusterModules : List ClusterModule := []
  deriving DecidableEq, Repr

/-- The part of `infrav1.VSphereCluster` the affinity package uses. -/
structure VSphereCluster where
  Namespace : String := ""
  Name : String := ""
  Labels : List (String × String) := []
  Finalizers : List String := []
  Spec : VSphereClusterSpec := {}
  deriving DecidableEq, Repr

/-! ## Lookup by name (diff.go 192-204, current_state.go 39-41) -/

/-- `getInArr`: the first entry whose name is `key`, with a found flag. -/
def getInArr : List ModuleInfo → String → Bool × Option ModuleInfo
  | [], _ => (false, none)
  | objWithMod :: arr, key =>
    if objWithMod.GetName = key then (true, some objWithMod) else getInArr arr key

/-- `findInArr`: the found flag of `getInArr`. -/
def findInArr (arr : List ModuleInfo) (key : String) : Bool :=
  (getInArr arr key).1

/-- `CurrentState.GetDeployment`. -/
def CurrentState.GetDeployment (c : CurrentState) (name : String) : Bool × Option ModuleInfo :=
  getInArr c.MachineDeployments name

/-! ## The diff engine (diff.go 150-190) -/

/-- The three slices `diff` builds, in declaration order. -/
structure diffVars where
  toAdd : List Wrapper := []
  toRemove : List ModuleInfo := []
  toVerify : List ModuleInfo := []
  deriving DecidableEq, Repr

/-- Lines 157-167: the control-plane decision. -/
def diffControlPlane (current : CurrentState) (desired : DesiredState) (v : diffVars) : diffVars :=
  match desired.ControlPlane with
  | none =>
    match current.ControlPlane with
    | some cp => { v with toRemove := v.toRemove ++ [cp] }
    | none => v
  | some w =>
    match current.ControlPlane with
    | none => { v with toAdd := v.toAdd ++ [w] }
    | some cp => { v with toVerify := v.toVerify ++ [cp] }

/-- Lines 170-175: the body of the loop over `desired.MachineDeployments`.
`getInArr` returns an entry whenever it returns found, so the middle case
never runs. -/
def diffDesiredStep (current : CurrentState) (v : diffVars) (obj : Wrapper) : diffVars :=
  match current.GetDeployment obj.GetName with
  | (false, _) => { v with toAdd := v.toAdd ++ [obj] }
  | (true, none) => v
  | (true, some objWithMod) => { v with toVerify := v.toVerify ++ [objWithMod] }

/-- Lines 180-182: the body of the loop over `current.MachineDeployments`. -/
def diffCurrentStep (v : diffVars) (objWithMod : ModuleInfo) : diffVars :=
  if !findInArr v.toVerify objWithMod.GetName then
    { v with toRemove := v.toRemove ++ [objWithMod] }
  else v

/-- The function `diff`. -/
def diff (current : CurrentState) (desired : DesiredState) : Diff :=
  let v0 : diffVars := {}
  let v1 := diffControlPlane current desired v0
  let v2 := desired.MachineDeployments.foldl (diffDesiredStep current) v1
  let v3 := current.MachineDeployments.foldl diffCurrentStep v2
  { ToAdd := v3.toAdd, ToRemove := v3.toRemove, ToVerify := v3.toVerify }

/-! ## The diff result (diff.go 42-60) -/

/-- `DiffResult.Spec`: the records of the items whose `moduleInfo` is set. -/
def DiffResult.Spec (d : DiffResult) : List ClusterModule :=
  d.Items.foldl
    (fun mods s =>
      match s.moduleInfo with
      | some m => mods ++ [m]
      | none => mods)
    []

/-- The aggregate error of `k8s.io/apimachinery/pkg/util/errors`: a non-empty
list of errors. -/
structure Aggregate where
  errs : List Err
  deriving DecidableEq, Repr

/-- `kerrors.NewAggregate` (library function): `nil` for an empty list,
otherwise the aggregate of the list, in order. -/
def NewAggregate (errlist : List Err) : Option Aggregate :=
  match errlist with
  | [] => none
  | e :: es => some { errs := e :: es }

/-- `DiffResult.Error`: the aggregate of the errors of the items whose `err` is set. -/
def DiffResult.Error (d : DiffResult) : Option Aggregate :=
  NewAggregate
    (d.Items.foldl
      (fun errList s =>
        match s.err with
        | some e => errList ++ [e]
        | none => errList)
      [])

/-! ## The outside world -/

/-- A vCenter session handle. -/
abbrev Session := Nat

/-- A compute-cluster reference. -/
abbrev ComputeCluster := Nat

/-- One call that leaves the package. -/
inductive Call where
  | fetchSessionForObject (obj : Wrapper)
  | ClusterComputeResourceOrDefault (s : Session)
  | CreateModule (s : Session) (computeCluster : ComputeCluster)
  | fetchSession
  | DeleteModule (s : Session) (moduleUUID : String)
  deriving DecidableEq, Repr

/-- The collaborators of the applier. `fetchSessionForObject` and `fetchSession`
are functions of the package whose source is not available; the finder and the
cluster-module provider are libraries. Each takes, first, the calls made so far
in the pass, so that two calls with equal arguments may be answered differently. -/
structure World where
  fetchSessionForObject : List Call → Wrapper → Except Err Session
  ClusterComputeResourceOrDefault : List Call → Session → Except Err ComputeCluster
  CreateModule : List Call → Session → ComputeCluster → Except Err String
  fetchSession : List Call → Except Err Session
  DeleteModule : List Call → Session → String → Option Err

/-- What `Apply` carries from phase to phase: the result under construction and
the calls made so far. -/
structure ApplyState where
  result : DiffResult := {}
  calls : List Call := []
  deriving DecidableEq, Repr

/-- The statement `result.Items = append(result.Items, item)`. -/
def ApplyState.appendItem (st : ApplyState) (item : diffResultItem) : ApplyState :=
  { st with result := { Items := st.result.Items ++ [item] } }

/-- Record one more call. -/
def ApplyState.call (st : ApplyState) (c : Call) : ApplyState :=
  { st with calls := st.calls ++ [c] }

/-! ## The diff applier (diff.go 62-148) -/

/-- Lines 79-85: the body of the loop of `Diff.verify`. -/
def verifyStep (st : ApplyState) (obj : ModuleInfo) : ApplyState :=
  st.appendItem
    { moduleInfo := some
        { ControlPlane := obj.IsControlPlane
          TargetObjectName := obj.GetName
          ModuleUUID := obj.ModuleUUID } }

/-- `Diff.verify`. -/
def Diff.verify (d : Diff) (st : ApplyState) : ApplyState :=
  d.ToVerify.foldl verifyStep st

/-- Lines 91-123: the body of the loop of `Diff.add`; each `continue` ends the step. -/
def addStep (W : World) (st : ApplyState) (obj : Wrapper) : ApplyState :=
  let st1 := st.call (.fetchSessionForObject obj)
  match W.fetchSessionForObject st.calls obj with
  | .error err => st1.appendItem { err := some err }
  | .ok vCenterSession =>
    let st2 := st1.call (.ClusterComputeResourceOrDefault vCenterSession)
    match W.ClusterComputeResourceOrDefault st1.calls vCenterSession with
    | .error err => st2.appendItem { err := some err }
    | .ok computeCluster =>
      let st3 := st2.call (.CreateModule vCenterSession computeCluster)
      match W.CreateModule st2.calls vCenterSession computeCluster with
      | .error err => st3.appendItem { err := some err }
      | .ok moduleUUID =>
        st3.appendItem
          { moduleInfo := some
              { ControlPlane := obj.IsControlPlane
                TargetObjectName := obj.GetName
                ModuleUUID := moduleUUID } }

/-- `Diff.add`. -/
def Diff.add (W : World) (d : Diff) (st : ApplyState) : ApplyState :=
  d.ToAdd.foldl (addStep W) st

/-- Lines 135-145: the body of the loop of `Diff.delete`. -/
def deleteStep (W : World) (vcenterSession : Session) (st : ApplyState)
    (moduleInfo : ModuleInfo) : ApplyState :=
  let st1 := st.call (.DeleteModule vcenterSession moduleInfo.ModuleUUID)
  match W.DeleteModule st.calls vcenterSession moduleInfo.ModuleUUID with
  | some err => st1.appendItem { err := some err }
  | none => st1

/-- `Diff.delete`: the state after the phase and the returned error. -/
def Diff.delete (W : World) (d : Diff) (st : ApplyState) : ApplyState × Option Err :=
  let st1 := st.call .fetchSession
  match W.fetchSession st.calls with
  | .error err => (st1, some err)
  | .ok vcenterSession => (d.ToRemove.foldl (deleteStep W vcenterSession) st1, none)

/-- `Diff.Apply`: verify, add, delete; the error `delete` returns is not looked
at and the returned error is always `nil`. The final state holds the
`DiffResult` and the calls made. -/
def Diff.Apply (W : World) (d : Diff) : ApplyState × Option Err :=
  let st0 : ApplyState := {}
  let st1 := d.verify st0
  let st2 := d.add W st1
  let st3 := (d.delete W st2).1
  (st3, none)

/-! ## The current-state resolver (current_state.go 44-69) -/

/-- Lines 48-67: the body of the loop of `reconcileCurrentState`. -/
def currentStateStep (cluster : VSphereCluster) (currentState : CurrentState)
    (mod : ClusterModule) : CurrentState :=
  let objMetadata : ObjectMeta := { Namespace := cluster.Namespace, Name := mod.TargetObjectName }
  if mod.ControlPlane then
    { currentState with
      ControlPlane := some { Wrapper := .kcpWrapper objMetadata, ModuleUUID := mod.ModuleUUID } }
  else
    { currentState with
      MachineDeployments := currentState.MachineDeployments ++
        [{ Wrapper := .mdWrapper objMetadata, ModuleUUID := mod.ModuleUUID }] }

/-- `Reconciler.reconcileCurrentState`, as a function of `ctx.VSphereCluster`. -/
def reconcileCurrentState (cluster : VSphereCluster) : CurrentState :=
  cluster.Spec.ClusterModules.foldl (currentStateStep cluster) {}

/-! ## The declarative store and the library calls of the reconciler -/

/-- Constants the package takes from other packages, whose declarations are not
among the sources: the cluster label key `clusterv1.ClusterLabelName`, the
finalizer `infrav1.ClusterAffinityFinalizer`, and the text
`vsphereCluster.GroupVersionKind()` prints. -/
structure Constants where
  ClusterLabelName : String
  ClusterAffinityFinalizer : String
  GroupVersionKind : String
  deriving DecidableEq, Repr

/-- `reconcile.Result` of controller-runtime; `RequeueAfter` is a `time.Duration`,
a number of nanoseconds. -/
structure Result where
  Requeue : Bool := false
  RequeueAfter : Nat := 0
  deriving DecidableEq, Repr

/-- `time.Second`, in nanoseconds. -/
def Second : Nat := 1000000000

/-- A query sent to the declarative store by `r.Client.List`. -/
inductive Query where
  | listKubeadmControlPlanes (inNamespace : String) (matchingLabels : List (String × String))
  | listMachineDeployments (inNamespace : String) (matchingLabels : List (String × String))
  deriving DecidableEq, Repr

/-- The declarative store behind `r.Client`, the patch helper of cluster-api and
`AffinityContext.Patch`: `Get` of the VSphereCluster by namespace and name, the
two `List` queries by namespace and labels (the items are given by their object
metadata), `patch.NewHelper` on the fetched object, and the patch of the object
against the state the helper captured. -/
structure Client where
  Get : String → String → Except Err VSphereCluster
  ListKubeadmControlPlanes : String → List (String × String) → Except Err (List ObjectMeta)
  ListMachineDeployments : String → List (String × String) → Except Err (List ObjectMeta)
  NewHelper : VSphereCluster → Option Err
  Patch : VSphereCluster → VSphereCluster → Option Err

/-- `errors.Errorf` with a constant text. -/
def Errorf (msg : String) : Err := { msg := msg }

/-- `errors.Wrapf`: the text, a colon, and the text of the wrapped error. -/
def Wrapf (err : Err) (msg : String) : Err := { msg := msg ++ ": " ++ err.msg }

/-- `(*metav1.Time).IsZero`: true for a nil pointer and for the zero time. -/
def IsZero : Option Nat → Bool
  | none => true
  | some t => t == 0

/-- `ctrlutil.AddFinalizer`: appends the finalizer unless it is already there. -/
def AddFinalizer (o : VSphereCluster) (finalizer : String) : VSphereCluster :=
  if finalizer ∈ o.Finalizers then o
  else { o with Finalizers := o.Finalizers ++ [finalizer] }

/-- `ctrlutil.RemoveFinalizer`: removes every occurrence of the finalizer. -/
def RemoveFinalizer (o : VSphereCluster) (finalizer : String) : VSphereCluster :=
  { o with Finalizers := o.Finalizers.filter (fun f => f != finalizer) }

/-! ## The desired-state resolver (desired_state.go 34-73) -/

/-- What `reconcileDesiredState` returns, and the queries it sent. -/
structure DesiredStateResult where
  ret : Except Err DesiredState
  queries : List Query

/-- Lines 53-57: the control plane of the desired state, from the items of the
control-plane query. -/
def desiredControlPlane (kcpItems : List ObjectMeta) (desiredState : DesiredState) :
    DesiredState :=
  match kcpItems with
  | [] => desiredState
  | kcp :: _ =>
    if IsZero kcp.DeletionTimestamp then
      { desiredState with ControlPlane := some (.kcpWrapper kcp) }
    else desiredState

/-- Lines 67-69: the body of the loop over the items of the worker-group query. -/
def desiredStateStep (desiredState : DesiredState) (md : ObjectMeta) : DesiredState :=
  if IsZero md.DeletionTimestamp then
    { desiredState with
      MachineDeployments := desiredState.MachineDeployments ++ [.mdWrapper md] }
  else desiredState

/-- `Reconciler.reconcileDesiredState`, as a function of `r.Client` and
`ctx.VSphereCluster`. -/
def reconcileDesiredState (k : Constants) (client : Client) (cluster : VSphereCluster) :
    DesiredStateResult :=
  match cluster.Labels.lookup k.ClusterLabelName with
  | none => { ret := .error (Errorf "missing CAPI cluster label"), queries := [] }
  | some name =>
    let labels := [(k.ClusterLabelName, name)]
    let q1 := Query.listKubeadmControlPlanes cluster.Namespace labels
    match client.ListKubeadmControlPlanes cluster.Namespace labels with
    | .error err =>
      { ret := .error (Wrapf err "failed to list control plane objects"), queries := [q1] }
    | .ok kcpItems =>
      if kcpItems.length > 1 then
        { ret := .error (Errorf
            ("multiple control plane objects found, expected 1, found " ++
              toString kcpItems.length))
          queries := [q1] }
      else
        let desiredState := desiredControlPlane kcpItems {}
        let q2 := Query.listMachineDeployments cluster.Namespace labels
        match client.ListMachineDeployments cluster.Namespace labels with
        | .error err =>
          { ret := .error (Wrapf err "failed to list machine deployment objects")
            queries := [q1, q2] }
        | .ok mdItems =>
          { ret := .ok (mdItems.foldl desiredStateStep desiredState), queries := [q1, q2] }

/-! ## The reconciler (reconciler.go 40-107) -/

/-- Modelled from the spec: `Reconciler.calculateDiff`, whose source is not
available. Spec 4.7, step 6: compute the diff of the current and the desired
state, and apply it. -/
def calculateDiff (W : World) (currentState : CurrentState) (desiredState : DesiredState) :
    ApplyState × Option Err :=
  (diff currentState desiredState).Apply W

/-- What `reconcileNormal` returns and leaves behind: the VSphereCluster as the
pass leaves it, the returned result and error, the session and provider calls
and the store queries made. -/
structure NormalOutcome where
  cluster : VSphereCluster
  result : Result
  err : Option Err
  calls : List Call
  queries : List Query

/-- `Reconciler.reconcileNormal`, as a function of `r.Client`, of
`r.calculateDiff` and of `ctx.VSphereCluster`. -/
def reconcileNormal (k : Constants) (client : Client)
    (calculateDiff : CurrentState → DesiredState → ApplyState × Option Err)
    (cluster : VSphereCluster) : NormalOutcome :=
  let cluster1 := AddFinalizer cluster k.ClusterAffinityFinalizer
  let currentState := reconcileCurrentState cluster1
  let desired := reconcileDesiredState k client cluster1
  match desired.ret with
  | .error err =>
    { cluster := cluster1, result := { RequeueAfter := 10 * Second }, err := some err
      calls := [], queries := desired.queries }
  | .ok desiredState =>
    match calculateDiff currentState desiredState with
    | (st, some err) =>
      { cluster := cluster1, result := { RequeueAfter := 10 * Second }, err := some err
        calls := st.calls, queries := desired.queries }
    | (st, none) =>
      let cluster2 : VSphereCluster :=
        { cluster1 with Spec := { ClusterModules := st.result.Spec } }
      let cluster3 :=
        if st.result.Spec.length = 0 then RemoveFinalizer cluster2 k.ClusterAffinityFinalizer
        else cluster2
      { cluster := cluster3, result := {}, err := none
        calls := st.calls, queries := desired.queries }

/-- A reconcile request: the namespace and the name of the VSphereCluster. -/
structure Request where
  Namespace : String
  Name : String
  deriving DecidableEq, Repr

/-- What `Reconcile` returns and does: the returned result and error, the objects
handed to the patch helper, in order, and the calls and queries made. -/
structure ReconcileOutcome where
  result : Result
  reterr : Option Err
  patched : List VSphereCluster
  calls : List Call
  queries : List Query

/-- `Reconciler.Reconcile`. The deferred function runs after `reconcileNormal`
has returned, patches the object, and replaces the returned error by the patch
error when there is none yet. -/
def Reconcile (k : Constants) (client : Client)
    (calculateDiff : CurrentState → DesiredState → ApplyState × Option Err)
    (req : Request) : ReconcileOutcome :=
  match client.Get req.Namespace req.Name with
  | .error err => { result := {}, reterr := some err, patched := [], calls := [], queries := [] }
  | .ok vsphereCluster =>
    match client.NewHelper vsphereCluster with
    | some err =>
      { result := {}
        reterr := some (Wrapf err
          ("failed to init patch helper for " ++ k.GroupVersionKind ++ " " ++
            vsphereCluster.Namespace ++ "/" ++ vsphereCluster.Name))
        patched := [], calls := [], queries := [] }
    | none =>
      let out := reconcileNormal k client calculateDiff vsphereCluster
      match client.Patch vsphereCluster out.cluster with
      | some err =>
        { result := out.result
          reterr := (match out.err with
            | none => some err
            | some reterr => some reterr)
          patched := [out.cluster], calls := out.calls, queries := out.queries }
      | none =>
        { result := out.result, reterr := out.err
          patched := [out.cluster], calls := out.calls, queries := out.queries }

/-! ## Vocabulary of the statements -/

/-- The entry `getInArr` returns, as an `Option`. -/
def lookup (arr : List ModuleInfo) (key : String) : Option ModuleInfo :=
  arr.find? (fun m => decide (m.GetName = key))

/-- The control-plane contribution to `Diff.ToAdd`. -/
def cpToAdd (current : CurrentState) (desired : DesiredState) : List Wrapper :=
  match desired.ControlPlane, current.ControlPlane with
  | some w, none => [w]
  | _, _ => []

/-- The control-plane contribution to `Diff.ToRemove`. -/
def cpToRemove (current : CurrentState) (desired : DesiredState) : List ModuleInfo :=
  match desired.ControlPlane, current.ControlPlane with
  | none, some cp => [cp]
  | _, _ => []

/-- The control-plane contribution to `Diff.ToVerify`. -/
def cpToVerify (current : CurrentState) (desired : DesiredState) : List ModuleInfo :=
  match desired.ControlPlane, current.ControlPlane with
  | some _, some cp => [cp]
  | _, _ => []

/-- At most one control-plane entry in a current state: the control-plane slot,
when filled, holds a control-plane wrapper and no worker group is one. -/
def CurrentState.oneControlPlane (c : CurrentState) : Bool :=
  (match c.ControlPlane with
    | some cp => cp.IsControlPlane
    | none => true) &&
  c.MachineDeployments.all (fun m => !m.IsControlPlane)

/-- At most one control-plane entry in a desired state. -/
def DesiredState.oneControlPlane (d : DesiredState) : Bool :=
  (match d.ControlPlane with
    | some w => w.IsControlPlane
    | none => true) &&
  d.MachineDeployments.all (fun w => !w.IsControlPlane)

/-- Worker-group names are unique within a current state. -/
def CurrentState.uniqueNames (c : CurrentState) : Prop :=
  (c.MachineDeployments.map ModuleInfo.GetName).Nodup

instance (c : CurrentState) : Decidable c.uniqueNames := by
  unfold CurrentState.uniqueNames; infer_instance

/-- Worker-group names are unique within a desired state. -/
def DesiredState.uniqueNames (d : DesiredState) : Prop :=
  (d.MachineDeployments.map Wrapper.GetName).Nodup

instance (d : DesiredState) : Decidable d.uniqueNames := by
  unfold DesiredState.uniqueNames; infer_instance

/-- Line 102 of reconciler.go, `ctx.VSphereCluster.Spec.ClusterModules = result.Spec()`:
the cluster as the pass leaves it for the next one. -/
def persist (cluster : VSphereCluster) (result : DiffResult) : VSphereCluster :=
  { cluster with Spec := { ClusterModules := result.Spec } }

/-- The item the verify phase emits for an entry. -/
def verifyItem (obj : ModuleInfo) : diffResultItem :=
  { moduleInfo := some
      { ControlPlane := obj.IsControlPlane
        TargetObjectName := obj.GetName
        ModuleUUID := obj.ModuleUUID } }

/-- One step of the add phase started from an empty result after the calls `calls`. -/
def addOutcome (W : World) (calls : List Call) (obj : Wrapper) : ApplyState :=
  addStep W { result := {}, calls := calls } obj

/-- The items the add phase emits for a list of entries, after the calls `calls`. -/
def addItems (W : World) : List Call → List Wrapper → List diffResultItem
  | _, [] => []
  | calls, obj :: objs =>
    (addOutcome W calls obj).result.Items ++ addItems W (addOutcome W calls obj).calls objs

/-- The calls made once the add phase has processed a list of entries. -/
def addTrace (W : World) : List Call → List Wrapper → List Call
  | calls, [] => calls
  | calls, obj :: objs => addTrace W (addOutcome W calls obj).calls objs

/-- Whether the add of `obj`, started after the calls `calls`, fails: at session
acquisition, at the compute-cluster lookup or at the create call. -/
def addFails (W : World) (calls : List Call) (obj : Wrapper) : Bool :=
  match W.fetchSessionForObject calls obj with
  | .error _ => true
  | .ok s =>
    match W.ClusterComputeResourceOrDefault (calls ++ [.fetchSessionForObject obj]) s with
    | .error _ => true
    | .ok computeCluster =>
      match W.CreateModule
        (calls ++ [.fetchSessionForObject obj] ++ [.ClusterComputeResourceOrDefault s])
        s computeCluster with
      | .error _ => true
      | .ok _ => false

/-- The answers of the provider to the successive delete calls of the remove
phase over `entries`, made with session `s` after the calls `calls`. -/
def deleteOutcomes (W : World) (s : Session) : List Call → List ModuleInfo → List (Option Err)
  | _, [] => []
  | calls, m :: ms =>
    W.DeleteModule calls s m.ModuleUUID ::
      deleteOutcomes W s (calls ++ [.DeleteModule s m.ModuleUUID]) ms

/-- The item the remove phase emits for an answer of the provider: an error item
for a failure, nothing for a success. -/
def deleteItems (outcomes : List (Option Err)) : List diffResultItem :=
  outcomes.filterMap (fun o => o.map (fun e => { err := some e }))

/-- The items of the remove phase, whatever the session acquisition answers. -/
def removeItems (W : World) (d : Diff) (calls : List Call) : List diffResultItem :=
  match W.fetchSession calls with
  | .error _ => []
  | .ok s => deleteItems (deleteOutcomes W s (calls ++ [.fetchSession]) d.ToRemove)

/-- The worker-group entry `reconcileCurrentState` builds from a record. -/
def mdInfo (cluster : VSphereCluster) (r : ClusterModule) : ModuleInfo :=
  { Wrapper := .mdWrapper { Namespace := cluster.Namespace, Name := r.TargetObjectName }
    ModuleUUID := r.ModuleUUID }

/-- The control-plane entry `reconcileCurrentState` builds from a record. -/
def kcpInfo (cluster : VSphereCluster) (r : ClusterModule) : ModuleInfo :=
  { Wrapper := .kcpWrapper { Namespace := cluster.Namespace, Name := r.TargetObjectName }
    ModuleUUID := r.ModuleUUID }

/-- The outcome of the add of `obj`, started after the calls `calls`: the error of
the first of the three calls that fails (session acquisition, compute-cluster
lookup, create), or the UUID the create call returns. -/
def addResult (W : World) (calls : List Call) (obj : Wrapper) : Except Err String :=
  match W.fetchSessionForObject calls obj with
  | .error err => .error err
  | .ok s =>
    match W.ClusterComputeResourceOrDefault (calls ++ [.fetchSessionForObject obj]) s with
    | .error err => .error err
    | .ok computeCluster =>
      W.CreateModule
        (calls ++ [.fetchSessionForObject obj] ++ [.ClusterComputeResourceOrDefault s])
        s computeCluster

/-- The calls the add of `obj` makes, started after the calls `calls`: it stops at
the first call that fails. -/
def addCallsOf (W : World) (calls : List Call) (obj : Wrapper) : List Call :=
  match W.fetchSessionForObject calls obj with
  | .error _ => [.fetchSessionForObject obj]
  | .ok s =>
    match W.ClusterComputeResourceOrDefault (calls ++ [.fetchSessionForObject obj]) s with
    | .error _ => [.fetchSessionForObject obj, .ClusterComputeResourceOrDefault s]
    | .ok computeCluster =>
      [.fetchSessionForObject obj, .ClusterComputeResourceOrDefault s,
        .CreateModule s computeCluster]

/-- The item of an entry of `ToAdd` for an outcome of its add: the error alone,
or the record with the entry's flag and name and the returned UUID. -/
def addItemOf (obj : Wrapper) : Except Err String → diffResultItem
  | .error err => { moduleInfo := none, err := some err }
  | .ok moduleUUID =>
    { moduleInfo := some
        { ControlPlane := obj.IsControlPlane
          TargetObjectName := obj.GetName
          ModuleUUID := moduleUUID }
      err := none }

/-- One item per entry, in order: the item of each entry for the outcome of its
own add, started after the calls of the entries before it. -/
def addPhase (W : World) : List Call → List Wrapper → List diffResultItem
  | _, [] => []
  | calls, obj :: objs =>
    addItemOf obj (addResult W calls obj) :: addPhase W (calls ++ addCallsOf W calls obj) objs

/-- Whether a call belongs to the add phase. -/
def Call.isAddCall : Call → Bool
  | .fetchSessionForObject _ => true
  | .ClusterComputeResourceOrDefault _ => true
  | .CreateModule _ _ => true
  | .fetchSession => false
  | .DeleteModule _ _ => false

/-- Whether a call is a session acquisition of the add phase. -/
def Call.isFetchForObject : Call → Bool
  | .fetchSessionForObject _ => true
  | _ => false

/-- A world that follows a script: the add of the `i`-th entry the add phase
processes ends as `outs[i]` says, an error at session acquisition or the UUID
returned by the create call. -/
def scriptedWorld (outs : List (Except Err String)) : World :=
  { fetchSessionForObject := fun calls _ =>
      match outs[calls.countP Call.isFetchForObject]? with
      | some (.error e) => .error e
      | _ => .ok 0
    ClusterComputeResourceOrDefault := fun _ _ => .ok 0
    CreateModule := fun calls _ _ =>
      match outs[calls.countP Call.isFetchForObject - 1]? with
      | some (.ok uuid) => .ok uuid
      | _ => .ok ""
    fetchSession := fun _ => .ok 0
    DeleteModule := fun _ _ _ => none }

/-- The record the verify phase emits for an entry. -/
def recordOf (e : ModuleInfo) : ClusterModule :=
  { ControlPlane := e.IsControlPlane
    TargetObjectName := e.GetName
    ModuleUUID := e.ModuleUUID }

/-- The first record of a list that bears the name `n`. -/
def findRecord (records : List ClusterModule) (n : String) : Option ClusterModule :=
  records.find? (fun r => decide (r.TargetObjectName = n))

/-! ## Concrete states, diffs and worlds -/

/-- A cluster whose persisted list holds the control plane `foo` and a worker
group of the same name `foo`. -/
def sameNameCluster : VSphereCluster :=
  { Namespace := "default"
    Name := "cluster"
    Spec := { ClusterModules :=
      [ { ControlPlane := true, TargetObjectName := "foo", ModuleUUID := "uuid-1" },
        { ControlPlane := false, TargetObjectName := "foo", ModuleUUID := "uuid-2" } ] } }

/-- The desired state once the worker group `foo` is gone and the control
plane `foo` is still there. -/
def sameNameDesired : DesiredState :=
  { ControlPlane := some (.kcpWrapper { Namespace := "default", Name := "foo" })
    MachineDeployments := [] }

/-- Scenario C, current side: worker groups a and b. -/
def workersAB : CurrentState :=
  { MachineDeployments :=
      [ { Wrapper := .mdWrapper { Namespace := "default", Name := "a" }, ModuleUUID := "uuid-a" },
        { Wrapper := .mdWrapper { Namespace := "default", Name := "b" }, ModuleUUID := "uuid-b" } ] }

/-- Scenario C, desired side: worker groups b and c. -/
def workersBC : DesiredState :=
  { MachineDeployments :=
      [ .mdWrapper { Namespace := "default", Name := "b" },
        .mdWrapper { Namespace := "default", Name := "c" } ] }

/-- Scenario B, current side: the control plane `foo` with module `uuid-1`,
and one worker group. -/
def fooCurrent : CurrentState :=
  { ControlPlane := some
      { Wrapper := .kcpWrapper { Namespace := "default", Name := "foo" }, ModuleUUID := "uuid-1" }
    MachineDeployments :=
      [ { Wrapper := .mdWrapper { Namespace := "default", Name := "a" }, ModuleUUID := "uuid-a" } ] }

/-- Scenario A, desired side: the control plane `foo`, and one worker group. -/
def fooDesired : DesiredState :=
  { ControlPlane := some (.kcpWrapper { Namespace := "default", Name := "foo" })
    MachineDeployments := [ .mdWrapper { Namespace := "default", Name := "b" } ] }

/-- A world in which every call succeeds. -/
def okWorld : World :=
  { fetchSessionForObject := fun _ _ => .ok 1
    ClusterComputeResourceOrDefault := fun _ _ => .ok 7
    CreateModule := fun _ _ _ => .ok "uuid-new"
    fetchSession := fun _ => .ok 1
    DeleteModule := fun _ _ _ => none }

/-- A world in which every call succeeds but the provider's delete. -/
def deleteFailsWorld : World :=
  { okWorld with DeleteModule := fun _ _ _ => some { msg := "delete failed" } }

/-- A world in which every call succeeds but the provider's create. -/
def createFailsWorld : World :=
  { okWorld with CreateModule := fun _ _ _ => .error { msg := "create failed" } }

/-- A diff with a single entry, to remove. -/
def removeOne : Diff :=
  { ToRemove :=
      [ { Wrapper := .mdWrapper { Namespace := "default", Name := "a" }, ModuleUUID := "uuid-a" } ] }

/-- A diff with one entry to verify, one to add and two to remove. -/
def fullDiff : Diff :=
  { ToVerify :=
      [ { Wrapper := .mdWrapper { Namespace := "default", Name := "b" }, ModuleUUID := "uuid-b" } ]
    ToAdd := [ .mdWrapper { Namespace := "default", Name := "c" } ]
    ToRemove :=
      [ { Wrapper := .mdWrapper { Namespace := "default", Name := "a" }, ModuleUUID := "uuid-a" },
        { Wrapper := .mdWrapper { Namespace := "default", Name := "e" }, ModuleUUID := "uuid-e" } ] }

/-- A world in which the provider's delete fails for the module `uuid-a` only. -/
def deleteOfAFailsWorld : World :=
  { okWorld with
    DeleteModule := fun _ _ uuid =>
      if uuid = "uuid-a" then some { msg := "delete failed" } else none }

/-- A cluster whose persisted list holds the worker groups a and b. -/
def twoWorkersCluster : VSphereCluster :=
  { Namespace := "default"
    Name := "cluster"
    Spec := { ClusterModules :=
      [ { ControlPlane := false, TargetObjectName := "a", ModuleUUID := "uuid-a" },
        { ControlPlane := false, TargetObjectName := "b", ModuleUUID := "uuid-b" } ] } }

/-- A desired state that keeps the worker group b only. -/
def onlyB : DesiredState :=
  { MachineDeployments := [ .mdWrapper { Namespace := "default", Name := "b" } ] }

/-- A cluster with nothing persisted yet. -/
def freshCluster : VSphereCluster :=
  { Namespace := "default", Name := "cluster" }

/-- A world in which session acquisition fails for the object named `x` and
succeeds for every other; the create call returns `uuid-first` when at most two
calls precede it and `uuid-later` otherwise. -/
def sessionOfXFailsWorld : World :=
  { okWorld with
    fetchSessionForObject := fun _ obj =>
      if obj.GetName = "x" then .error { msg := "no session for x" } else .ok 1
    CreateModule := fun calls _ _ =>
      .ok (if calls.length ≤ 2 then "uuid-first" else "uuid-later") }

/-- A diff with three entries to add, named c, x and y. -/
def addThree : Diff :=
  { ToAdd :=
      [ .mdWrapper { Namespace := "default", Name := "c" },
        .mdWrapper { Namespace := "default", Name := "x" },
        .mdWrapper { Namespace := "default", Name := "y" } ] }

/-- A world in which the provider's delete fails for the module `uuid-e` only,
with the same error as in `deleteOfAFailsWorld`. -/
def deleteOfEFailsWorld : World :=
  { okWorld with
    DeleteModule := fun _ _ uuid =>
      if uuid = "uuid-e" then some { msg := "delete failed" } else none }

/-- Scenario E with the target c: one entry to add, c, and one to remove, a. -/
def addCRemoveA : Diff :=
  { ToAdd := [ .mdWrapper { Namespace := "default", Name := "c" } ]
    ToRemove :=
      [ { Wrapper := .mdWrapper { Namespace := "default", Name := "a" }, ModuleUUID := "uuid-a" } ] }

/-- Scenario E with the target x: one entry to add, x, and one to remove, a. -/
def addXRemoveA : Diff :=
  { ToAdd := [ .mdWrapper { Namespace := "default", Name := "x" } ]
    ToRemove :=
      [ { Wrapper := .mdWrapper { Namespace := "default", Name := "a" }, ModuleUUID := "uuid-a" } ] }

/-- A cluster whose persisted list holds a worker group with an empty UUID. -/
def emptyUuidCluster : VSphereCluster :=
  { Namespace := "default"
    Name := "cluster"
    Spec := { ClusterModules :=
      [ { ControlPlane := false, TargetObjectName := "a", ModuleUUID := "" } ] } }

/-- A cluster whose persisted list holds two control-plane records and a worker group. -/
def twoControlPlanesCluster : VSphereCluster :=
  { Namespace := "default"
    Name := "cluster"
    Spec := { ClusterModules :=
      [ { ControlPlane := true, TargetObjectName := "foo", ModuleUUID := "uuid-1" },
        { ControlPlane := true, TargetObjectName := "bar", ModuleUUID := "uuid-2" },
        { ControlPlane := false, TargetObjectName := "a", ModuleUUID := "uuid-a" } ] } }

/-- A current state with two worker groups of the same name `foo`. -/
def twoFoo : CurrentState :=
  { MachineDeployments :=
      [ { Wrapper := .mdWrapper { Namespace := "default", Name := "foo" }, ModuleUUID := "uuid-1" },
        { Wrapper := .mdWrapper { Namespace := "default", Name := "foo" }, ModuleUUID := "uuid-2" } ] }

/-- Values for the constants, as cluster-api and the provider declare them. -/
def testConstants : Constants :=
  { ClusterLabelName := "cluster.x-k8s.io/cluster-name"
    ClusterAffinityFinalizer := "vspherecluster.infrastructure.cluster.x-k8s.io/affinity"
    GroupVersionKind := "infrastructure.cluster.x-k8s.io/v1beta1, Kind=VSphereCluster" }

/-- A cluster that bears the cluster label, with the control plane `foo` and the
worker group a persisted. -/
def labelledCluster : VSphereCluster :=
  { Namespace := "default"
    Name := "cluster"
    Labels := [("cluster.x-k8s.io/cluster-name", "valid-cluster")]
    Spec := { ClusterModules :=
      [ { ControlPlane := true, TargetObjectName := "foo", ModuleUUID := "uuid-1" },
        { ControlPlane := false, TargetObjectName := "a", ModuleUUID := "uuid-a" } ] } }

/-- A store with the control plane `foo`, the worker group a, and a worker group
`gone` that is pending deletion; fetching and patching succeed. -/
def testClient : Client :=
  { Get := fun _ _ => .ok labelledCluster
    ListKubeadmControlPlanes := fun _ _ => .ok [{ Namespace := "default", Name := "foo" }]
    ListMachineDeployments := fun _ _ =>
      .ok [ { Namespace := "default", Name := "a" },
            { Namespace := "default", Name := "gone", DeletionTimestamp := some 1667556000 } ]
    NewHelper := fun _ => none
    Patch := fun _ _ => none }

/-- Scenario D: a store whose control-plane query returns two objects, the
second pending deletion. -/
def twoControlPlanesClient : Client :=
  { testClient with
    ListKubeadmControlPlanes := fun _ _ =>
      .ok [ { Namespace := "default", Name := "foo-1" },
            { Namespace := "default", Name := "foo-2", DeletionTimestamp := some 1667556000 } ] }

/-- A store whose control-plane query fails. -/
def listFailsClient : Client :=
  { testClient with
    ListKubeadmControlPlanes := fun _ _ => .error { msg := "connection refused" } }

/-- A world in which the acquisition of the remove-phase session fails and every
other call succeeds. -/
def sessionFailsWorld : World :=
  { okWorld with fetchSession := fun _ => .error { msg := "no session" } }

/-- The desired state that matches the persisted list of `labelledCluster`: the
control plane `foo` and the worker group a. -/
def steadyDesired : DesiredState :=
  { ControlPlane := some (.kcpWrapper { Namespace := "default", Name := "foo" })
    MachineDeployments := [ .mdWrapper { Namespace := "default", Name := "a" } ] }

/-! # Lemmas and theorems -/

/-! ## Closed forms of the loops -/

theorem getInArr_eq_find (arr : List ModuleInfo) (key : String) :
    getInArr arr key =
      match arr.find? (fun m => decide (m.GetName = key)) with
      | some m => (true, some m)
      | none => (false, none) := by
  induction arr with
  | nil => rfl
  | cons a arr ih =>
    by_cases h : a.GetName = key
    · simp [getInArr, h]
    · simp [getInArr, h, ih]

theorem findInArr_eq_any (arr : List ModuleInfo) (key : String) :
    findInArr arr key = arr.any (fun m => decide (m.GetName = key)) := by
  induction arr with
  | nil => rfl
  | cons a arr ih =>
    by_cases h : a.GetName = key
    · simp [findInArr, getInArr, h]
    · simpa [findInArr, getInArr, h] using ih

theorem findInArr_iff (arr : List ModuleInfo) (key : String) :
    findInArr arr key = true ↔ ∃ m ∈ arr, m.GetName = key := by
  simp [findInArr_eq_any]

theorem getInArr_fst (arr : List ModuleInfo) (key : String) :
    (getInArr arr key).1 = (lookup arr key).isSome := by
  rw [getInArr_eq_find, lookup]
  cases arr.find? (fun m => decide (m.GetName = key)) <;> rfl

theorem getInArr_snd (arr : List ModuleInfo) (key : String) :
    (getInArr arr key).2 = lookup arr key := by
  rw [getInArr_eq_find, lookup]
  cases arr.find? (fun m => decide (m.GetName = key)) <;> rfl

theorem diffDesiredStep_eq (current : CurrentState) (v : diffVars) (obj : Wrapper) :
    diffDesiredStep current v obj =
      { toAdd := v.toAdd ++ (if (lookup current.MachineDeployments obj.GetName).isSome then [] else [obj])
        toRemove := v.toRemove
        toVerify := v.toVerify ++ (lookup current.MachineDeployments obj.GetName).toList } := by
  unfold diffDesiredStep CurrentState.GetDeployment
  rw [getInArr_eq_find, lookup]
  cases current.MachineDeployments.find? (fun m => decide (m.GetName = obj.GetName)) <;> simp

theorem foldl_diffDesiredStep (current : CurrentState) (l : List Wrapper) (v : diffVars) :
    l.foldl (diffDesiredStep current) v =
      { toAdd := v.toAdd ++
          l.filter (fun obj => !(lookup current.MachineDeployments obj.GetName).isSome)
        toRemove := v.toRemove
        toVerify := v.toVerify ++
          l.filterMap (fun obj => lookup current.MachineDeployments obj.GetName) } := by
  induction l generalizing v with
  | nil => simp
  | cons obj l ih =>
    rw [List.foldl_cons, ih, diffDesiredStep_eq]
    cases h : lookup current.MachineDeployments obj.GetName <;>
      simp [h, List.filter_cons, List.filterMap_cons]

theorem foldl_diffCurrentStep (l : List ModuleInfo) (v : diffVars) :
    l.foldl diffCurrentStep v =
      { toAdd := v.toAdd
        toRemove := v.toRemove ++ l.filter (fun m => !findInArr v.toVerify m.GetName)
        toVerify := v.toVerify } := by
  induction l generalizing v with
  | nil => simp
  | cons m l ih =>
    rw [List.foldl_cons, ih]
    unfold diffCurrentStep
    cases h : findInArr v.toVerify m.GetName <;> simp [h, List.filter_cons]

theorem diffControlPlane_eq (current : CurrentState) (desired : DesiredState) :
    diffControlPlane current desired {} =
      { toAdd := cpToAdd current desired
        toRemove := cpToRemove current desired
        toVerify := cpToVerify current desired } := by
  unfold diffControlPlane cpToAdd cpToRemove cpToVerify
  cases desired.ControlPlane <;> cases current.ControlPlane <;> simp

theorem diff_ToAdd (current : CurrentState) (desired : DesiredState) :
    (diff current desired).ToAdd = cpToAdd current desired ++
      desired.MachineDeployments.filter
        (fun obj => !(lookup current.MachineDeployments obj.GetName).isSome) := by
  simp [diff, diffControlPlane_eq, foldl_diffDesiredStep, foldl_diffCurrentStep]

theorem diff_ToVerify (current : CurrentState) (desired : DesiredState) :
    (diff current desired).ToVerify = cpToVerify current desired ++
      desired.MachineDeployments.filterMap
        (fun obj => lookup current.MachineDeployments obj.GetName) := by
  simp [diff, diffControlPlane_eq, foldl_diffDesiredStep, foldl_diffCurrentStep]

theorem diff_ToRemove (current : CurrentState) (desired : DesiredState) :
    (diff current desired).ToRemove = cpToRemove current desired ++
      current.MachineDeployments.filter
        (fun m => !findInArr (diff current desired).ToVerify m.GetName) := by
  simp [diff, diffControlPlane_eq, foldl_diffDesiredStep, foldl_diffCurrentStep]

/-! ## Lookup by name -/

theorem lookup_eq_some_iff (arr : List ModuleInfo) (key : String) (m : ModuleInfo) :
    lookup arr key = some m ↔
      m.GetName = key ∧ ∃ pre post, arr = pre ++ m :: post ∧ ∀ x ∈ pre, x.GetName ≠ key := by
  simp [lookup, List.find?_eq_some]

theorem lookup_eq_none_iff (arr : List ModuleInfo) (key : String) :
    lookup arr key = none ↔ ∀ x ∈ arr, x.GetName ≠ key := by
  simp [lookup]

theorem lookup_isSome_iff (arr : List ModuleInfo) (key : String) :
    (lookup arr key).isSome = true ↔ ∃ m ∈ arr, m.GetName = key := by
  rw [← getInArr_fst]
  exact findInArr_iff arr key

theorem lookup_mem {arr : List ModuleInfo} {key : String} {m : ModuleInfo}
    (h : lookup arr key = some m) : m ∈ arr :=
  List.mem_of_find?_eq_some h

theorem lookup_name {arr : List ModuleInfo} {key : String} {m : ModuleInfo}
    (h : lookup arr key = some m) : m.GetName = key := by
  have := List.find?_some h
  simpa using this

theorem oneControlPlane_workers {c : CurrentState} (h : c.oneControlPlane = true) :
    ∀ m ∈ c.MachineDeployments, m.IsControlPlane = false := by
  intro m hm
  simp only [CurrentState.oneControlPlane, Bool.and_eq_true, List.all_eq_true] at h
  simpa using h.2 m hm

theorem oneControlPlane_slot {c : CurrentState} {cp : ModuleInfo}
    (h : c.oneControlPlane = true) (hcp : c.ControlPlane = some cp) :
    cp.IsControlPlane = true := by
  simp only [CurrentState.oneControlPlane, Bool.and_eq_true, hcp] at h
  exact h.1

theorem desired_oneControlPlane_workers {d : DesiredState} (h : d.oneControlPlane = true) :
    ∀ w ∈ d.MachineDeployments, w.IsControlPlane = false := by
  intro w hw
  simp only [DesiredState.oneControlPlane, Bool.and_eq_true, List.all_eq_true] at h
  simpa using h.2 w hw

theorem desired_oneControlPlane_slot {d : DesiredState} {w : Wrapper}
    (h : d.oneControlPlane = true) (hcp : d.ControlPlane = some w) :
    w.IsControlPlane = true := by
  simp only [DesiredState.oneControlPlane, Bool.and_eq_true, hcp] at h
  exact h.1

/-! ## The diff engine -/

/-- C1: every desired worker group whose name some current worker group bears
puts the first current entry of that name (the one `GetDeployment` returns, with
its stored UUID) in `ToVerify`; every other desired worker group is in `ToAdd`. -/
theorem C1_desired_worker_verified_or_added (c : CurrentState) (d : DesiredState)
    (w : Wrapper) (hw : w ∈ d.MachineDeployments) :
    ((∃ m ∈ c.MachineDeployments, m.GetName = w.GetName) →
      ∃ pre m post, c.MachineDeployments = pre ++ m :: post ∧ m.GetName = w.GetName ∧
        (∀ x ∈ pre, x.GetName ≠ w.GetName) ∧
        c.GetDeployment w.GetName = (true, some m) ∧ m ∈ (diff c d).ToVerify) ∧
    ((¬ ∃ m ∈ c.MachineDeployments, m.GetName = w.GetName) → w ∈ (diff c d).ToAdd) := by
  constructor
  · intro hex
    have hsome := (lookup_isSome_iff c.MachineDeployments w.GetName).2 hex
    obtain ⟨m, hm⟩ := Option.isSome_iff_exists.1 hsome
    obtain ⟨hname, pre, post, hsplit, hpre⟩ := (lookup_eq_some_iff _ _ _).1 hm
    refine ⟨pre, m, post, hsplit, hname, hpre, ?_, ?_⟩
    · have h1 := getInArr_fst c.MachineDeployments w.GetName
      have h2 := getInArr_snd c.MachineDeployments w.GetName
      rw [hm] at h1 h2
      exact Prod.ext h1 h2
    · rw [diff_ToVerify]
      exact List.mem_append_right _ (List.mem_filterMap.2 ⟨w, hw, hm⟩)
  · intro hno
    have hnone : lookup c.MachineDeployments w.GetName = none := by
      rw [lookup_eq_none_iff]
      intro x hx hxn
      exact hno ⟨x, hx, hxn⟩
    rw [diff_ToAdd]
    exact List.mem_append_right _ (List.mem_filter.2 ⟨hw, by simp [hnone]⟩)

/-- Witness of C1: current workers a, b, desired workers b, c, and the desired worker b. -/
theorem C1_desired_worker_verified_or_added_witness :
    Wrapper.mdWrapper { Namespace := "default", Name := "b" } ∈ workersBC.MachineDeployments ∧
    (((∃ m ∈ workersAB.MachineDeployments,
        m.GetName = (Wrapper.mdWrapper { Namespace := "default", Name := "b" }).GetName) →
      ∃ pre m post, workersAB.MachineDeployments = pre ++ m :: post ∧
        m.GetName = (Wrapper.mdWrapper { Namespace := "default", Name := "b" }).GetName ∧
        (∀ x ∈ pre,
          x.GetName ≠ (Wrapper.mdWrapper { Namespace := "default", Name := "b" }).GetName) ∧
        workersAB.GetDeployment
          (Wrapper.mdWrapper { Namespace := "default", Name := "b" }).GetName = (true, some m) ∧
        m ∈ (diff workersAB workersBC).ToVerify) ∧
    ((¬ ∃ m ∈ workersAB.MachineDeployments,
        m.GetName = (Wrapper.mdWrapper { Namespace := "default", Name := "b" }).GetName) →
      Wrapper.mdWrapper { Namespace := "default", Name := "b" } ∈
        (diff workersAB workersBC).ToAdd)) :=
  ⟨by decide,
    C1_desired_worker_verified_or_added workersAB workersBC
      (.mdWrapper { Namespace := "default", Name := "b" }) (by decide)⟩

/-- C2 (the code at a failing input): the persisted list holds the control plane
`foo` (uuid-1) and the worker group `foo` (uuid-2); the worker group is gone from
the desired state, which keeps the control plane. Both states have at most one
control plane and unique worker names, the current worker `foo` bears the name of
no desired worker group, and yet it is not in `ToRemove`: the diff is
`ToVerify = [control plane foo]` and nothing else. -/
theorem C2_same_name_worker_not_removed :
    (reconcileCurrentState sameNameCluster).oneControlPlane = true ∧
    (reconcileCurrentState sameNameCluster).uniqueNames ∧
    sameNameDesired.oneControlPlane = true ∧
    sameNameDesired.uniqueNames ∧
    (⟨.mdWrapper { Namespace := "default", Name := "foo" }, "uuid-2"⟩ : ModuleInfo) ∈
      (reconcileCurrentState sameNameCluster).MachineDeployments ∧
    (∀ w ∈ sameNameDesired.MachineDeployments, w.GetName ≠ "foo") ∧
    (⟨.mdWrapper { Namespace := "default", Name := "foo" }, "uuid-2"⟩ : ModuleInfo) ∉
      (diff (reconcileCurrentState sameNameCluster) sameNameDesired).ToRemove ∧
    diff (reconcileCurrentState sameNameCluster) sameNameDesired =
      { ToAdd := []
        ToRemove := []
        ToVerify :=
          [⟨.kcpWrapper { Namespace := "default", Name := "foo" }, "uuid-1"⟩] } := by
  decide

/-- C3: every current worker group whose name is the name of no entry of
`ToVerify` is in `ToRemove`; and for current workers a, b and desired workers
b, c (a, b, c pairwise of different names, the two b of one name) the diff is
`ToAdd = [c]`, `ToVerify = [b]`, `ToRemove = [a]`. -/
theorem C3_unverified_current_worker_removed (c : CurrentState) (d : DesiredState) :
    (∀ m ∈ c.MachineDeployments,
      (¬ ∃ v ∈ (diff c d).ToVerify, v.GetName = m.GetName) → m ∈ (diff c d).ToRemove) ∧
    (∀ (ma mb : ModuleInfo) (wb wc : Wrapper),
      ma.GetName ≠ mb.GetName → wb.GetName = mb.GetName →
      wc.GetName ≠ ma.GetName → wc.GetName ≠ mb.GetName →
      diff { MachineDeployments := [ma, mb] } { MachineDeployments := [wb, wc] } =
        { ToAdd := [wc], ToVerify := [mb], ToRemove := [ma] }) ∧
    diff workersAB workersBC =
      { ToAdd := [.mdWrapper { Namespace := "default", Name := "c" }]
        ToVerify :=
          [⟨.mdWrapper { Namespace := "default", Name := "b" }, "uuid-b"⟩]
        ToRemove :=
          [⟨.mdWrapper { Namespace := "default", Name := "a" }, "uuid-a"⟩] } := by
  refine ⟨?_, ?_, by decide⟩
  · intro m hm hno
    rw [diff_ToRemove]
    refine List.mem_append_right _ (List.mem_filter.2 ⟨hm, ?_⟩)
    cases hf : findInArr (diff c d).ToVerify m.GetName
    · rfl
    · exact absurd ((findInArr_iff _ _).1 hf) hno
  · intro ma mb wb wc hab hb hca hcb
    have hba : ¬ mb.GetName = ma.GetName := fun h => hab h.symm
    have hac : ¬ ma.GetName = wc.GetName := fun h => hca h.symm
    have hbc : ¬ mb.GetName = wc.GetName := fun h => hcb h.symm
    simp [diff, diffControlPlane, diffDesiredStep, diffCurrentStep, findInArr,
      CurrentState.GetDeployment, getInArr, hb, hab, hba, hac, hbc]

theorem diff_ToVerify_workers_mem (c : CurrentState) (d : DesiredState) (m : ModuleInfo)
    (hm : m ∈ d.MachineDeployments.filterMap
      (fun obj => lookup c.MachineDeployments obj.GetName)) :
    m ∈ c.MachineDeployments ∧ ∃ w ∈ d.MachineDeployments, m.GetName = w.GetName := by
  obtain ⟨w, hw, hl⟩ := List.mem_filterMap.1 hm
  exact ⟨lookup_mem hl, w, hw, lookup_name hl⟩

/-- C4: the current state has a control plane `cp`, the desired state has none,
and each state has at most one control-plane entry. Then `ToRemove` contains `cp`
exactly once and `cp` is its only control-plane entry, `ToAdd` holds no
control-plane wrapper, and `ToVerify` holds no control-plane entry, so not `cp`.
With no worker groups on either side the diff is `ToRemove = [cp]` alone. -/
theorem C4_control_plane_removed (c : CurrentState) (d : DesiredState) (cp : ModuleInfo)
    (hc : c.ControlPlane = some cp) (hd : d.ControlPlane = none)
    (hck : c.oneControlPlane = true) (hdk : d.oneControlPlane = true) :
    (diff c d).ToRemove.count cp = 1 ∧
    (diff c d).ToRemove.filter (fun m => m.IsControlPlane) = [cp] ∧
    (∀ w ∈ (diff c d).ToAdd, w.IsControlPlane = false) ∧
    (∀ m ∈ (diff c d).ToVerify, m.IsControlPlane = false) ∧
    cp ∉ (diff c d).ToVerify ∧
    (c.MachineDeployments = [] → d.MachineDeployments = [] →
      diff c d = { ToAdd := [], ToRemove := [cp], ToVerify := [] }) ∧
    diff { ControlPlane := some
            ⟨.kcpWrapper { Namespace := "default", Name := "foo" }, "uuid-1"⟩ } {} =
      { ToAdd := []
        ToRemove := [⟨.kcpWrapper { Namespace := "default", Name := "foo" }, "uuid-1"⟩]
        ToVerify := [] } := by
  have hcpk : cp.IsControlPlane = true := oneControlPlane_slot hck hc
  have hworkers := oneControlPlane_workers hck
  have hA : cpToAdd c d = [] := by simp [cpToAdd, hc, hd]
  have hR : cpToRemove c d = [cp] := by simp [cpToRemove, hc, hd]
  have hV : cpToVerify c d = [] := by simp [cpToVerify, hc, hd]
  have hver : ∀ m ∈ (diff c d).ToVerify, m.IsControlPlane = false := by
    intro m hm
    rw [diff_ToVerify, hV, List.nil_append] at hm
    exact hworkers m (diff_ToVerify_workers_mem c d m hm).1
  have hfilt : ∀ (p : ModuleInfo → Bool),
      (c.MachineDeployments.filter p).filter (fun m => m.IsControlPlane) = [] := by
    intro p
    rw [List.filter_eq_nil_iff]
    intro m hm
    have := hworkers m (List.mem_of_mem_filter hm)
    simp [this]
  refine ⟨?_, ?_, ?_, hver, ?_, ?_, by decide⟩
  · rw [diff_ToRemove, hR, List.count_append]
    have h0 : List.count cp (c.MachineDeployments.filter
        (fun m => !findInArr (diff c d).ToVerify m.GetName)) = 0 := by
      rw [List.count_eq_zero]
      intro hmem
      have := hworkers cp (List.mem_of_mem_filter hmem)
      rw [hcpk] at this
      exact Bool.noConfusion this
    rw [h0]
    simp
  · rw [diff_ToRemove, hR, List.filter_append, hfilt]
    simp [hcpk]
  · intro w hw
    rw [diff_ToAdd, hA, List.nil_append] at hw
    exact desired_oneControlPlane_workers hdk w (List.mem_of_mem_filter hw)
  · intro hmem
    have := hver cp hmem
    rw [hcpk] at this
    exact Bool.noConfusion this
  · intro hcm hdm
    have e1 := diff_ToAdd c d
    have e2 := diff_ToVerify c d
    have e3 := diff_ToRemove c d
    rw [hA, hdm] at e1
    rw [hV, hdm] at e2
    rw [hR, hcm] at e3
    cases hdiff : diff c d with
    | mk a r v =>
      rw [hdiff] at e1 e2 e3
      simp only [List.filter_nil, List.filterMap_nil, List.append_nil] at e1 e2 e3
      rw [e1, e2, e3]

/-- Witness of C4: the current control plane `foo` (uuid-1) with one worker
group, and a desired state with the worker groups b and c and no control plane. -/
theorem C4_control_plane_removed_witness :
    fooCurrent.ControlPlane =
      some ⟨.kcpWrapper { Namespace := "default", Name := "foo" }, "uuid-1"⟩ ∧
    workersBC.ControlPlane = none ∧
    fooCurrent.oneControlPlane = true ∧ workersBC.oneControlPlane = true ∧
    (diff fooCurrent workersBC).ToRemove.count
      ⟨.kcpWrapper { Namespace := "default", Name := "foo" }, "uuid-1"⟩ = 1 ∧
    (diff fooCurrent workersBC).ToRemove.filter (fun m => m.IsControlPlane) =
      [⟨.kcpWrapper { Namespace := "default", Name := "foo" }, "uuid-1"⟩] ∧
    (∀ w ∈ (diff fooCurrent workersBC).ToAdd, w.IsControlPlane = false) ∧
    (∀ m ∈ (diff fooCurrent workersBC).ToVerify, m.IsControlPlane = false) ∧
    (⟨.kcpWrapper { Namespace := "default", Name := "foo" }, "uuid-1"⟩ : ModuleInfo) ∉
      (diff fooCurrent workersBC).ToVerify ∧
    (fooCurrent.MachineDeployments = [] → workersBC.MachineDeployments = [] →
      diff fooCurrent workersBC =
        { ToAdd := []
          ToRemove := [⟨.kcpWrapper { Namespace := "default", Name := "foo" }, "uuid-1"⟩]
          ToVerify := [] }) ∧
    diff { ControlPlane := some
            ⟨.kcpWrapper { Namespace := "default", Name := "foo" }, "uuid-1"⟩ } {} =
      { ToAdd := []
        ToRemove := [⟨.kcpWrapper { Namespace := "default", Name := "foo" }, "uuid-1"⟩]
        ToVerify := [] } :=
  ⟨rfl, rfl, by decide, by decide,
    C4_control_plane_removed fooCurrent workersBC
      ⟨.kcpWrapper { Namespace := "default", Name := "foo" }, "uuid-1"⟩ rfl rfl
      (by decide) (by decide)⟩

/-- C5: the desired state has a control plane `w`, the current state has none
and has at most one control-plane entry. Then `ToAdd` contains `w`, and neither
`ToRemove` nor `ToVerify` holds a control-plane entry. With no worker groups on
either side the diff is `ToAdd = [w]` alone. -/
theorem C5_control_plane_added (c : CurrentState) (d : DesiredState) (w : Wrapper)
    (hd : d.ControlPlane = some w) (hc : c.ControlPlane = none)
    (hck : c.oneControlPlane = true) :
    w ∈ (diff c d).ToAdd ∧
    (∀ m ∈ (diff c d).ToRemove, m.IsControlPlane = false) ∧
    (∀ m ∈ (diff c d).ToVerify, m.IsControlPlane = false) ∧
    (c.MachineDeployments = [] → d.MachineDeployments = [] →
      diff c d = { ToAdd := [w], ToRemove := [], ToVerify := [] }) ∧
    diff {} { ControlPlane := some (.kcpWrapper { Namespace := "default", Name := "foo" }) } =
      { ToAdd := [.kcpWrapper { Namespace := "default", Name := "foo" }]
        ToRemove := []
        ToVerify := [] } := by
  have hworkers := oneControlPlane_workers hck
  have hA : cpToAdd c d = [w] := by simp [cpToAdd, hc, hd]
  have hR : cpToRemove c d = [] := by simp [cpToRemove, hc, hd]
  have hV : cpToVerify c d = [] := by simp [cpToVerify, hc, hd]
  refine ⟨?_, ?_, ?_, ?_, by decide⟩
  · rw [diff_ToAdd, hA]
    simp
  · intro m hm
    rw [diff_ToRemove, hR, List.nil_append] at hm
    exact hworkers m (List.mem_of_mem_filter hm)
  · intro m hm
    rw [diff_ToVerify, hV, List.nil_append] at hm
    exact hworkers m (diff_ToVerify_workers_mem c d m hm).1
  · intro hcm hdm
    have e1 := diff_ToAdd c d
    have e2 := diff_ToVerify c d
    have e3 := diff_ToRemove c d
    rw [hA, hdm] at e1
    rw [hV, hdm] at e2
    rw [hR, hcm] at e3
    cases hdiff : diff c d with
    | mk a r v =>
      rw [hdiff] at e1 e2 e3
      simp only [List.filter_nil, List.filterMap_nil, List.append_nil] at e1 e2 e3
      rw [e1, e2, e3]

/-- Witness of C5: the desired control plane `foo` with one worker group,
against the current worker groups a and b and no current control plane. -/
theorem C5_control_plane_added_witness :
    fooDesired.ControlPlane = some (.kcpWrapper { Namespace := "default", Name := "foo" }) ∧
    workersAB.ControlPlane = none ∧ workersAB.oneControlPlane = true ∧
    Wrapper.kcpWrapper { Namespace := "default", Name := "foo" } ∈
      (diff workersAB fooDesired).ToAdd ∧
    (∀ m ∈ (diff workersAB fooDesired).ToRemove, m.IsControlPlane = false) ∧
    (∀ m ∈ (diff workersAB fooDesired).ToVerify, m.IsControlPlane = false) ∧
    (workersAB.MachineDeployments = [] → fooDesired.MachineDeployments = [] →
      diff workersAB fooDesired =
        { ToAdd := [.kcpWrapper { Namespace := "default", Name := "foo" }]
          ToRemove := []
          ToVerify := [] }) ∧
    diff {} { ControlPlane := some (.kcpWrapper { Namespace := "default", Name := "foo" }) } =
      { ToAdd := [.kcpWrapper { Namespace := "default", Name := "foo" }]
        ToRemove := []
        ToVerify := [] } :=
  ⟨rfl, rfl, by decide,
    C5_control_plane_added workersAB fooDesired
      (.kcpWrapper { Namespace := "default", Name := "foo" }) rfl rfl (by decide)⟩

/-! ## The diff result -/

theorem Spec_eq_filterMap (r : DiffResult) :
    r.Spec = r.Items.filterMap (fun it => it.moduleInfo) := by
  have key : ∀ (l : List diffResultItem) (acc : List ClusterModule),
      l.foldl
        (fun mods s =>
          match s.moduleInfo with
          | some m => mods ++ [m]
          | none => mods) acc = acc ++ l.filterMap (fun it => it.moduleInfo) := by
    intro l
    induction l with
    | nil => intro acc; simp
    | cons it l ih =>
      intro acc
      rw [List.foldl_cons, ih]
      cases h : it.moduleInfo <;> simp [List.filterMap_cons, h]
  simpa [DiffResult.Spec] using key r.Items []

theorem errList_eq_filterMap (l : List diffResultItem) (acc : List Err) :
    l.foldl
      (fun errList s =>
        match s.err with
        | some e => errList ++ [e]
        | none => errList) acc = acc ++ l.filterMap (fun it => it.err) := by
  induction l generalizing acc with
  | nil => simp
  | cons it l ih =>
    rw [List.foldl_cons, ih]
    cases h : it.err <;> simp [List.filterMap_cons, h]

theorem Error_eq (r : DiffResult) :
    r.Error = NewAggregate (r.Items.filterMap (fun it => it.err)) := by
  simp [DiffResult.Error, errList_eq_filterMap]

/-- C9: for a result whose items each hold either a record or an error, `Spec()`
lists the records of exactly the items that carry no error, in item order, and
no item that carries an error contributes its record. -/
theorem C9_spec_lists_error_free_items (r : DiffResult)
    (hr : ∀ it ∈ r.Items, (it.moduleInfo = none ↔ it.err ≠ none)) :
    r.Spec.map some = (r.Items.filter (fun it => it.err.isNone)).map (fun it => it.moduleInfo) ∧
    r.Spec.length = (r.Items.filter (fun it => it.err.isNone)).length ∧
    r.Spec = (r.Items.filter (fun it => it.err.isNone)).filterMap (fun it => it.moduleInfo) ∧
    (∀ it ∈ r.Items, it.err ≠ none → it.moduleInfo = none) := by
  have h1 : r.Spec.map some =
      (r.Items.filter (fun it => it.err.isNone)).map (fun it => it.moduleInfo) := by
    rw [Spec_eq_filterMap]
    have key : ∀ l : List diffResultItem,
        (∀ it ∈ l, (it.moduleInfo = none ↔ it.err ≠ none)) →
        (l.filterMap (fun it => it.moduleInfo)).map some =
          (l.filter (fun it => it.err.isNone)).map (fun it => it.moduleInfo) := by
      intro l
      induction l with
      | nil => intro _; rfl
      | cons it l ih =>
        intro h
        have hit := h it (List.mem_cons_self _ _)
        have hl := ih (fun x hx => h x (List.mem_cons_of_mem _ hx))
        cases hm : it.moduleInfo with
        | none =>
          have he : it.err ≠ none := hit.1 hm
          have he2 : it.err.isNone = false := by
            cases hx : it.err with
            | none => exact absurd hx he
            | some _ => rfl
          simp [List.filterMap_cons, List.filter_cons, hm, he2, hl]
        | some m =>
          have he : it.err = none := by
            by_contra hne
            have := hit.2 hne
            rw [hm] at this
            exact Option.noConfusion this
          simp [List.filterMap_cons, List.filter_cons, hm, he, hl]
    exact key r.Items hr
  refine ⟨h1, ?_, ?_, fun it hit he => (hr it hit).2 he⟩
  · have := congrArg List.length h1
    simpa using this
  · rw [Spec_eq_filterMap]
    have key : ∀ l : List diffResultItem,
        (∀ it ∈ l, (it.moduleInfo = none ↔ it.err ≠ none)) →
        l.filterMap (fun it => it.moduleInfo) =
          (l.filter (fun it => it.err.isNone)).filterMap (fun it => it.moduleInfo) := by
      intro l
      induction l with
      | nil => intro _; rfl
      | cons it l ih =>
        intro h
        have hit := h it (List.mem_cons_self _ _)
        have hl := ih (fun x hx => h x (List.mem_cons_of_mem _ hx))
        cases he : it.err with
        | none => simp [List.filterMap_cons, List.filter_cons, he, hl]
        | some e =>
          have hm : it.moduleInfo = none := hit.2 (by rw [he]; exact Option.noConfusion)
          simp [List.filterMap_cons, List.filter_cons, he, hm, hl]
    exact key r.Items hr

theorem NewAggregate_eq_none_iff (l : List Err) : NewAggregate l = none ↔ l = [] := by
  cases l <;> simp [NewAggregate]

theorem NewAggregate_eq_some (l : List Err) (agg : Aggregate) (h : NewAggregate l = some agg) :
    agg.errs = l := by
  cases l with
  | nil => simp [NewAggregate] at h
  | cons e es =>
    simp only [NewAggregate, Option.some.injEq] at h
    rw [← h]

/-- C10: `Error()` is nil exactly when no item carries an error; when it is not
nil, it is the aggregate of the errors of all the items that carry one, in item
order. -/
theorem C10_error_nil_iff_no_item_error (r : DiffResult) :
    (r.Error = none ↔ ∀ it ∈ r.Items, it.err = none) ∧
    (∀ agg, r.Error = some agg → agg.errs = r.Items.filterMap (fun it => it.err)) ∧
    r.Error =
      (if r.Items.all (fun it => it.err.isNone) then none
       else some { errs := r.Items.filterMap (fun it => it.err) }) := by
  have hnil : r.Items.filterMap (fun it => it.err) = [] ↔ ∀ it ∈ r.Items, it.err = none := by
    rw [List.filterMap_eq_nil_iff]
  refine ⟨?_, ?_, ?_⟩
  · rw [Error_eq, NewAggregate_eq_none_iff, hnil]
  · intro agg h
    rw [Error_eq] at h
    exact NewAggregate_eq_some _ agg h
  · rw [Error_eq]
    by_cases hall : ∀ it ∈ r.Items, it.err = none
    · have h1 : r.Items.all (fun it => it.err.isNone) = true := by
        rw [List.all_eq_true]
        intro it hit
        rw [hall it hit]
        rfl
      rw [h1, hnil.2 hall]
      rfl
    · have h1 : ¬ r.Items.all (fun it => it.err.isNone) = true := by
        rw [List.all_eq_true]
        intro h
        apply hall
        intro it hit
        have := h it hit
        cases hx : it.err with
        | none => rfl
        | some e => rw [hx] at this; exact Bool.noConfusion this
      rw [if_neg h1]
      cases hl : r.Items.filterMap (fun it => it.err) with
      | nil => exact absurd (hnil.1 hl) hall
      | cons e es => rfl

/-! ## The diff applier: closed forms of the three phases -/

theorem foldl_verifyStep (l : List ModuleInfo) (st : ApplyState) :
    l.foldl verifyStep st =
      { result := { Items := st.result.Items ++ l.map verifyItem }, calls := st.calls } := by
  induction l generalizing st with
  | nil => simp
  | cons m l ih =>
    rw [List.foldl_cons, ih]
    simp [verifyStep, verifyItem, ApplyState.appendItem]

theorem addStep_eq (W : World) (st : ApplyState) (obj : Wrapper) :
    addStep W st obj =
      { result := { Items := st.result.Items ++ (addOutcome W st.calls obj).result.Items }
        calls := (addOutcome W st.calls obj).calls } := by
  unfold addOutcome addStep
  simp only [ApplyState.call, ApplyState.appendItem]
  cases W.fetchSessionForObject st.calls obj with
  | error e => simp
  | ok s =>
    simp only
    cases W.ClusterComputeResourceOrDefault (st.calls ++ [Call.fetchSessionForObject obj]) s with
    | error e => simp
    | ok cc =>
      simp only
      cases W.CreateModule
        (st.calls ++ [Call.fetchSessionForObject obj] ++
          [Call.ClusterComputeResourceOrDefault s]) s cc with
      | error e => simp
      | ok uuid => simp

/-- One add step emits exactly one item: an error item when the add fails, a
record with the entry's flag and name otherwise. -/
theorem addOutcome_items (W : World) (calls : List Call) (obj : Wrapper) :
    (addFails W calls obj = true ∧
      ∃ e, (addOutcome W calls obj).result.Items = [{ moduleInfo := none, err := some e }]) ∨
    (addFails W calls obj = false ∧
      ∃ uuid, (addOutcome W calls obj).result.Items =
        [{ moduleInfo := some
            { ControlPlane := obj.IsControlPlane
              TargetObjectName := obj.GetName
              ModuleUUID := uuid }
           err := none }]) := by
  unfold addOutcome addStep addFails
  simp only [ApplyState.call, ApplyState.appendItem]
  cases W.fetchSessionForObject calls obj with
  | error e => exact Or.inl ⟨rfl, e, by simp⟩
  | ok s =>
    simp only
    cases W.ClusterComputeResourceOrDefault (calls ++ [Call.fetchSessionForObject obj]) s with
    | error e => exact Or.inl ⟨rfl, e, by simp⟩
    | ok cc =>
      simp only
      cases W.CreateModule
        (calls ++ [Call.fetchSessionForObject obj] ++
          [Call.ClusterComputeResourceOrDefault s]) s cc with
      | error e => exact Or.inl ⟨rfl, e, by simp⟩
      | ok uuid => exact Or.inr ⟨rfl, uuid, by simp⟩

theorem foldl_addStep (W : World) (l : List Wrapper) (st : ApplyState) :
    l.foldl (addStep W) st =
      { result := { Items := st.result.Items ++ addItems W st.calls l }
        calls := addTrace W st.calls l } := by
  induction l generalizing st with
  | nil => simp [addItems, addTrace]
  | cons obj l ih =>
    rw [List.foldl_cons, ih, addStep_eq]
    simp [addItems, addTrace]

theorem addItems_append (W : World) (l1 l2 : List Wrapper) (calls : List Call) :
    addItems W calls (l1 ++ l2) = addItems W calls l1 ++ addItems W (addTrace W calls l1) l2 := by
  induction l1 generalizing calls with
  | nil => simp [addItems, addTrace]
  | cons obj l ih => simp [addItems, addTrace, ih]

theorem addOutcome_items_length (W : World) (calls : List Call) (obj : Wrapper) :
    (addOutcome W calls obj).result.Items.length = 1 := by
  rcases addOutcome_items W calls obj with ⟨_, e, h⟩ | ⟨_, u, h⟩ <;> rw [h] <;> rfl

theorem addItems_length (W : World) (l : List Wrapper) (calls : List Call) :
    (addItems W calls l).length = l.length := by
  induction l generalizing calls with
  | nil => rfl
  | cons obj l ih =>
    simp only [addItems, List.length_append, List.length_cons, ih, addOutcome_items_length]
    omega

/-- Every record the add phase emits bears the flag and the name of one of the entries. -/
theorem addItems_record (W : World) (l : List Wrapper) (calls : List Call) (r : ClusterModule)
    (hr : r ∈ (addItems W calls l).filterMap (fun it => it.moduleInfo)) :
    ∃ o ∈ l, r.ControlPlane = o.IsControlPlane ∧ r.TargetObjectName = o.GetName := by
  induction l generalizing calls with
  | nil => simp [addItems] at hr
  | cons obj l ih =>
    simp only [addItems, List.filterMap_append, List.mem_append] at hr
    rcases hr with h | h
    · rcases addOutcome_items W calls obj with ⟨_, e, he⟩ | ⟨_, u, hu⟩
      · rw [he] at h
        simp at h
      · rw [hu] at h
        simp only [List.filterMap_cons, List.filterMap_nil, List.mem_singleton] at h
        exact ⟨obj, List.mem_cons_self _ _, by rw [h], by rw [h]⟩
    · obtain ⟨o, ho, h1, h2⟩ := ih _ h
      exact ⟨o, List.mem_cons_of_mem _ ho, h1, h2⟩

theorem foldl_deleteStep (W : World) (s : Session) (l : List ModuleInfo) (st : ApplyState) :
    l.foldl (deleteStep W s) st =
      { result := { Items := st.result.Items ++ deleteItems (deleteOutcomes W s st.calls l) }
        calls := st.calls ++ l.map (fun m => Call.DeleteModule s m.ModuleUUID) } := by
  induction l generalizing st with
  | nil => simp [deleteItems, deleteOutcomes]
  | cons m l ih =>
    rw [List.foldl_cons, ih]
    unfold deleteStep
    simp only [ApplyState.call, ApplyState.appendItem]
    cases h : W.DeleteModule st.calls s m.ModuleUUID <;>
      simp [deleteItems, deleteOutcomes, h, List.filterMap_cons]

theorem deleteItems_moduleInfo (outcomes : List (Option Err)) :
    (deleteItems outcomes).filterMap (fun it => it.moduleInfo) = [] := by
  rw [List.filterMap_eq_nil_iff]
  intro it hit
  simp only [deleteItems, List.mem_filterMap] at hit
  obtain ⟨o, _, ho⟩ := hit
  cases o with
  | none => simp at ho
  | some e =>
    simp only [Option.map_some', Option.some.injEq] at ho
    rw [← ho]

theorem deleteItems_length (outcomes : List (Option Err)) :
    (deleteItems outcomes).length = (outcomes.filter Option.isSome).length := by
  induction outcomes with
  | nil => rfl
  | cons o os ih =>
    cases o <;> simp [deleteItems, List.filterMap_cons, List.filter_cons] at ih ⊢ <;> exact ih

theorem deleteOutcomes_length (W : World) (s : Session) (l : List ModuleInfo)
    (calls : List Call) : (deleteOutcomes W s calls l).length = l.length := by
  induction l generalizing calls with
  | nil => rfl
  | cons m l ih => simp [deleteOutcomes, ih]

theorem Apply_state (W : World) (d : Diff) :
    (d.add W (d.verify {})) =
      { result := { Items := d.ToVerify.map verifyItem ++ addItems W [] d.ToAdd }
        calls := addTrace W [] d.ToAdd } := by
  simp [Diff.add, Diff.verify, foldl_verifyStep, foldl_addStep]

theorem Apply_items (W : World) (d : Diff) :
    (d.Apply W).1.result.Items =
      d.ToVerify.map verifyItem ++ addItems W [] d.ToAdd ++
        removeItems W d (addTrace W [] d.ToAdd) := by
  simp only [Diff.Apply, Apply_state, Diff.delete, removeItems, ApplyState.call]
  cases W.fetchSession (addTrace W [] d.ToAdd) with
  | error e => simp
  | ok s => simp [foldl_deleteStep]

theorem removeItems_moduleInfo (W : World) (d : Diff) (calls : List Call) :
    (removeItems W d calls).filterMap (fun it => it.moduleInfo) = [] := by
  unfold removeItems
  cases W.fetchSession calls with
  | error e => rfl
  | ok s => exact deleteItems_moduleInfo _

theorem Apply_Spec (W : World) (d : Diff) :
    (d.Apply W).1.result.Spec =
      d.ToVerify.map
          (fun obj =>
            ({ ControlPlane := obj.IsControlPlane
               TargetObjectName := obj.GetName
               ModuleUUID := obj.ModuleUUID } : ClusterModule)) ++
        (addItems W [] d.ToAdd).filterMap (fun it => it.moduleInfo) := by
  rw [Spec_eq_filterMap, Apply_items]
  simp only [List.filterMap_append, removeItems_moduleInfo, List.append_nil]
  congr 1
  induction d.ToVerify with
  | nil => rfl
  | cons m l ih => simp [List.filterMap_cons, verifyItem, ih]

theorem addItems_exactly_one (W : World) (l : List Wrapper) (calls : List Call)
    (it : diffResultItem) (hit : it ∈ addItems W calls l) :
    (it.moduleInfo = none ↔ it.err ≠ none) := by
  induction l generalizing calls with
  | nil => simp [addItems] at hit
  | cons obj l ih =>
    simp only [addItems, List.mem_append] at hit
    rcases hit with h | h
    · rcases addOutcome_items W calls obj with ⟨_, e, he⟩ | ⟨_, u, hu⟩
      · rw [he, List.mem_singleton] at h
        rw [h]
        simp
      · rw [hu, List.mem_singleton] at h
        rw [h]
        simp
    · exact ih _ h

theorem removeItems_exactly_one (W : World) (d : Diff) (calls : List Call)
    (it : diffResultItem) (hit : it ∈ removeItems W d calls) :
    (it.moduleInfo = none ↔ it.err ≠ none) := by
  unfold removeItems at hit
  cases hs : W.fetchSession calls with
  | error e => simp [hs] at hit
  | ok s =>
    simp only [hs, deleteItems, List.mem_filterMap] at hit
    obtain ⟨o, _, ho⟩ := hit
    cases o with
    | none => simp at ho
    | some e =>
      simp only [Option.map_some', Option.some.injEq] at ho
      rw [← ho]
      simp

/-- Every item `Apply` builds holds either a record or an error. -/
theorem Apply_items_exactly_one (W : World) (d : Diff) :
    ∀ it ∈ (d.Apply W).1.result.Items, (it.moduleInfo = none ↔ it.err ≠ none) := by
  intro it hit
  rw [Apply_items, List.mem_append, List.mem_append] at hit
  rcases hit with (h | h) | h
  · obtain ⟨m, _, hm⟩ := List.mem_map.1 h
    rw [← hm]
    simp [verifyItem]
  · exact addItems_exactly_one W _ _ it h
  · exact removeItems_exactly_one W d _ it h

/-- C8 (the claim as stated fails): one entry to remove and a world in which
every call succeeds; the delete is called and succeeds, and the result holds no
item at all, not one. -/
theorem C8_successful_delete_leaves_no_item :
    (removeOne.Apply okWorld).1.calls = [.fetchSession, .DeleteModule 1 "uuid-a"] ∧
    (removeOne.Apply okWorld).1.result.Items = [] ∧
    (removeOne.Apply okWorld).1.result.Items.length ≠
      removeOne.ToVerify.length + removeOne.ToAdd.length + removeOne.ToRemove.length := by
  decide

/-- C8 (amended): when the remove phase acquires its session, the result holds
one item per `ToVerify` entry, one per `ToAdd` entry and one per `ToRemove` entry
whose delete call failed; a delete that succeeds leaves no item. So the number of
items is at most the number of entries. -/
theorem C8_items_length (W : World) (d : Diff) (s : Session)
    (hs : W.fetchSession (d.add W (d.verify {})).calls = .ok s) :
    (d.Apply W).1.result.Items.length =
      d.ToVerify.length + d.ToAdd.length +
        ((deleteOutcomes W s ((d.add W (d.verify {})).calls ++ [.fetchSession])
            d.ToRemove).filter Option.isSome).length ∧
    (deleteOutcomes W s ((d.add W (d.verify {})).calls ++ [.fetchSession])
      d.ToRemove).length = d.ToRemove.length ∧
    (d.Apply W).1.result.Items.length ≤
      d.ToVerify.length + d.ToAdd.length + d.ToRemove.length := by
  rw [Apply_state] at hs ⊢
  simp only at hs ⊢
  have hlen : (d.Apply W).1.result.Items.length =
      d.ToVerify.length + d.ToAdd.length +
        ((deleteOutcomes W s (addTrace W [] d.ToAdd ++ [.fetchSession])
            d.ToRemove).filter Option.isSome).length := by
    rw [Apply_items, removeItems, hs]
    simp only [List.length_append, List.length_map, addItems_length, deleteItems_length]
  have hout := deleteOutcomes_length W s d.ToRemove (addTrace W [] d.ToAdd ++ [.fetchSession])
  refine ⟨hlen, hout, ?_⟩
  rw [hlen]
  have := List.length_filter_le Option.isSome
    (deleteOutcomes W s (addTrace W [] d.ToAdd ++ [.fetchSession]) d.ToRemove)
  omega

/-- Witness of C8 (amended): one verify, one add, two removes of which the first
fails: three items. -/
theorem C8_items_length_witness :
    deleteOfAFailsWorld.fetchSession (fullDiff.add deleteOfAFailsWorld (fullDiff.verify {})).calls
      = .ok 1 ∧
    (fullDiff.Apply deleteOfAFailsWorld).1.result.Items.length = 3 ∧
    ((fullDiff.Apply deleteOfAFailsWorld).1.result.Items.length =
      fullDiff.ToVerify.length + fullDiff.ToAdd.length +
        ((deleteOutcomes deleteOfAFailsWorld 1
            ((fullDiff.add deleteOfAFailsWorld (fullDiff.verify {})).calls ++ [.fetchSession])
            fullDiff.ToRemove).filter Option.isSome).length ∧
    (deleteOutcomes deleteOfAFailsWorld 1
      ((fullDiff.add deleteOfAFailsWorld (fullDiff.verify {})).calls ++ [.fetchSession])
      fullDiff.ToRemove).length = fullDiff.ToRemove.length ∧
    (fullDiff.Apply deleteOfAFailsWorld).1.result.Items.length ≤
      fullDiff.ToVerify.length + fullDiff.ToAdd.length + fullDiff.ToRemove.length) :=
  ⟨rfl, by decide, C8_items_length deleteOfAFailsWorld fullDiff 1 rfl⟩

/-! ## The current-state resolver -/

theorem foldl_currentStateStep (cluster : VSphereCluster) (l : List ClusterModule) :
    l.foldl (currentStateStep cluster) {} =
      { ControlPlane := (l.reverse.find? (fun r => r.ControlPlane)).map (kcpInfo cluster)
        MachineDeployments := (l.filter (fun r => !r.ControlPlane)).map (mdInfo cluster) } := by
  induction l using List.reverseRecOn with
  | nil => rfl
  | append_singleton l x ih =>
    rw [List.foldl_append, List.foldl_cons, List.foldl_nil, ih]
    unfold currentStateStep
    cases hx : x.ControlPlane <;>
      simp [hx, List.filter_append, List.filter_cons, List.find?_cons, mdInfo, kcpInfo]

theorem reconcileCurrentState_eq (cluster : VSphereCluster) :
    reconcileCurrentState cluster =
      { ControlPlane :=
          (cluster.Spec.ClusterModules.reverse.find? (fun r => r.ControlPlane)).map
            (kcpInfo cluster)
        MachineDeployments :=
          (cluster.Spec.ClusterModules.filter (fun r => !r.ControlPlane)).map
            (mdInfo cluster) } :=
  foldl_currentStateStep cluster _

theorem reconcileCurrentState_oneControlPlane (cluster : VSphereCluster) :
    (reconcileCurrentState cluster).oneControlPlane = true := by
  rw [reconcileCurrentState_eq]
  simp only [CurrentState.oneControlPlane, Bool.and_eq_true, List.all_eq_true]
  constructor
  · cases cluster.Spec.ClusterModules.reverse.find? (fun r => r.ControlPlane) <;> rfl
  · intro m hm
    obtain ⟨r, _, hr⟩ := List.mem_map.1 hm
    rw [← hr]
    rfl

/-! ## A failed add and the next pass -/

theorem nodup_map_split {α β : Type} (f : α → β) (pre post : List α) (w : α)
    (h : ((pre ++ w :: post).map f).Nodup) : ∀ o ∈ pre ++ post, f o ≠ f w := by
  rw [List.map_append, List.map_cons, List.nodup_middle, List.nodup_cons] at h
  intro o ho heq
  apply h.1
  rw [← heq, ← List.map_append]
  exact List.mem_map_of_mem f ho

theorem diff_ToAdd_nodup (c : CurrentState) (d : DesiredState)
    (hdk : d.oneControlPlane = true) (hdu : d.uniqueNames) :
    ((diff c d).ToAdd.map (fun o => (o.GetName, o.IsControlPlane))).Nodup := by
  have hworkers := desired_oneControlPlane_workers hdk
  have hfil : ((d.MachineDeployments.filter
      (fun obj => !(lookup c.MachineDeployments obj.GetName).isSome)).map
        (fun o => (o.GetName, o.IsControlPlane))).Nodup := by
    apply List.Nodup.of_map Prod.fst
    rw [List.map_map]
    exact List.Nodup.sublist (List.Sublist.map _ (List.filter_sublist _)) hdu
  rw [diff_ToAdd, List.map_append]
  unfold cpToAdd
  cases hd : d.ControlPlane with
  | none => simpa using hfil
  | some w0 =>
    cases hc : c.ControlPlane with
    | some cp => simpa using hfil
    | none =>
      have hk : w0.IsControlPlane = true := desired_oneControlPlane_slot hdk hd
      simp only [List.map_cons, List.map_nil, List.singleton_append, List.nodup_cons]
      refine ⟨?_, hfil⟩
      intro hmem
      obtain ⟨o, ho, heq⟩ := List.mem_map.1 hmem
      have hof := hworkers o (List.mem_of_mem_filter ho)
      have h2 : o.IsControlPlane = w0.IsControlPlane := congrArg Prod.snd heq
      rw [hof, hk] at h2
      exact Bool.noConfusion h2

/-- An entry of `ToVerify` and an entry of `ToAdd` never agree on both the name
and the control-plane flag. -/
theorem verify_add_disjoint (c : CurrentState) (d : DesiredState)
    (hck : c.oneControlPlane = true) (hdk : d.oneControlPlane = true)
    (m : ModuleInfo) (hm : m ∈ (diff c d).ToVerify) (w : Wrapper) (hw : w ∈ (diff c d).ToAdd) :
    ¬ (m.GetName = w.GetName ∧ m.IsControlPlane = w.IsControlPlane) := by
  rintro ⟨hname, hkind⟩
  rw [diff_ToVerify, List.mem_append] at hm
  rw [diff_ToAdd, List.mem_append] at hw
  have hcw := oneControlPlane_workers hck
  have hdw := desired_oneControlPlane_workers hdk
  rcases hm with hm | hm
  · -- the verified control plane
    unfold cpToVerify at hm
    cases hd : d.ControlPlane with
    | none => simp [hd] at hm
    | some w0 =>
      cases hc : c.ControlPlane with
      | none => simp [hd, hc] at hm
      | some cp =>
        simp only [hd, hc, List.mem_singleton] at hm
        have hmk : m.IsControlPlane = true := by
          rw [hm]; exact oneControlPlane_slot hck hc
        rcases hw with hw | hw
        · simp [cpToAdd, hd, hc] at hw
        · have := hdw w (List.mem_of_mem_filter hw)
          rw [hmk, this] at hkind
          exact Bool.noConfusion hkind
  · obtain ⟨hmc, _⟩ := diff_ToVerify_workers_mem c d m hm
    have hmk := hcw m hmc
    rcases hw with hw | hw
    · unfold cpToAdd at hw
      cases hd : d.ControlPlane with
      | none => simp [hd] at hw
      | some w0 =>
        cases hc : c.ControlPlane with
        | some cp => simp [hd, hc] at hw
        | none =>
          simp only [hd, hc, List.mem_singleton] at hw
          have hwk : w.IsControlPlane = true := by
            rw [hw]; exact desired_oneControlPlane_slot hdk hd
          rw [hmk, hwk] at hkind
          exact Bool.noConfusion hkind
    · have hf := (List.mem_filter.1 hw).2
      have hnone : lookup c.MachineDeployments w.GetName = none := by
        cases hl : lookup c.MachineDeployments w.GetName with
        | none => rfl
        | some x => simp [hl] at hf
      exact (lookup_eq_none_iff _ _).1 hnone m hmc hname

theorem persist_modules (cluster : VSphereCluster) (result : DiffResult) :
    (persist cluster result).Spec.ClusterModules = result.Spec := rfl

theorem mdInfo_persist (cluster : VSphereCluster) (result : DiffResult) :
    mdInfo (persist cluster result) = mdInfo cluster := rfl

theorem calls_before_add (W : World) (d : Diff) (pre : List Wrapper) :
    (pre.foldl (addStep W) (d.verify {})).calls = addTrace W [] pre := by
  simp [Diff.verify, foldl_verifyStep, foldl_addStep]

/-- The item of a failed add stands right after the items of the verify phase
and of the adds before it, and is an error item. -/
theorem failed_add_item (W : World) (d : Diff) (pre post : List Wrapper) (w : Wrapper)
    (hsplit : d.ToAdd = pre ++ w :: post)
    (hfail : addFails W (addTrace W [] pre) w = true) :
    ∃ e, (d.Apply W).1.result.Items[d.ToVerify.length + pre.length]? =
      some { moduleInfo := none, err := some e } := by
  rcases addOutcome_items W (addTrace W [] pre) w with ⟨_, e, he⟩ | ⟨hok, _⟩
  · refine ⟨e, ?_⟩
    rw [Apply_items, hsplit, addItems_append]
    simp only [addItems, he]
    have hlen : (d.ToVerify.map verifyItem ++ addItems W [] pre).length =
        d.ToVerify.length + pre.length := by
      simp [addItems_length]
    rw [show d.ToVerify.map verifyItem ++
          (addItems W [] pre ++
            ([({ moduleInfo := none, err := some e } : diffResultItem)] ++
              addItems W (addOutcome W (addTrace W [] pre) w).calls post)) ++
          removeItems W d (addTrace W [] (pre ++ w :: post)) =
        (d.ToVerify.map verifyItem ++ addItems W [] pre) ++
          (({ moduleInfo := none, err := some e } : diffResultItem) ::
            (addItems W (addOutcome W (addTrace W [] pre) w).calls post ++
              removeItems W d (addTrace W [] (pre ++ w :: post)))) by simp]
    rw [List.getElem?_append_right (by rw [hlen]), hlen]
    simp
  · rw [hfail] at hok
    exact Bool.noConfusion hok

/-- With a failed add, every record of `Spec()` comes from a verified entry or
from another entry of `ToAdd`. -/
theorem Spec_mem_of_failed_add (W : World) (d : Diff) (pre post : List Wrapper) (w : Wrapper)
    (hsplit : d.ToAdd = pre ++ w :: post)
    (hfail : addFails W (addTrace W [] pre) w = true)
    (r : ClusterModule) (hr : r ∈ (d.Apply W).1.result.Spec) :
    (∃ m ∈ d.ToVerify, r.ControlPlane = m.IsControlPlane ∧ r.TargetObjectName = m.GetName) ∨
    (∃ o ∈ pre ++ post, r.ControlPlane = o.IsControlPlane ∧ r.TargetObjectName = o.GetName) := by
  rw [Apply_Spec, hsplit, addItems_append, List.mem_append] at hr
  rcases hr with hr | hr
  · obtain ⟨m, hm, hmr⟩ := List.mem_map.1 hr
    exact Or.inl ⟨m, hm, by rw [← hmr], by rw [← hmr]⟩
  · right
    simp only [addItems, List.filterMap_append, List.mem_append] at hr
    rcases hr with hr | hr | hr
    · obtain ⟨o, ho, h1, h2⟩ := addItems_record W pre [] r hr
      exact ⟨o, List.mem_append_left _ ho, h1, h2⟩
    · rcases addOutcome_items W (addTrace W [] pre) w with ⟨_, e, he⟩ | ⟨hok, _⟩
      · rw [he] at hr
        simp at hr
      · rw [hfail] at hok
        exact Bool.noConfusion hok
    · obtain ⟨o, ho, h1, h2⟩ := addItems_record W post _ r hr
      exact ⟨o, List.mem_append_right _ ho, h1, h2⟩

/-- C7: a pass starts from the persisted list of `cluster` and a desired state
with at most one control plane and unique worker names; the add of the entry `w`
of `ToAdd` fails (session acquisition, compute-cluster lookup or create call).
Then the item for `w` is an error item, `Spec()` holds no record with the name and
the control-plane flag of `w`, and the next pass, started from that `Spec()` with
the same desired state, has `w` in `ToAdd` again. -/
theorem C7_failed_add_retried (W : World) (cluster : VSphereCluster) (d : DesiredState)
    (hdk : d.oneControlPlane = true) (hdu : d.uniqueNames)
    (pre post : List Wrapper) (w : Wrapper)
    (hsplit : (diff (reconcileCurrentState cluster) d).ToAdd = pre ++ w :: post)
    (hfail : addFails W
      (pre.foldl (addStep W) ((diff (reconcileCurrentState cluster) d).verify {})).calls w
        = true) :
    (∃ e, ((diff (reconcileCurrentState cluster) d).Apply W).1.result.Items[
        (diff (reconcileCurrentState cluster) d).ToVerify.length + pre.length]? =
      some { moduleInfo := none, err := some e }) ∧
    (∀ r ∈ ((diff (reconcileCurrentState cluster) d).Apply W).1.result.Spec,
      ¬ (r.TargetObjectName = w.GetName ∧ r.ControlPlane = w.IsControlPlane)) ∧
    w ∈ (diff
      (reconcileCurrentState
        (persist cluster ((diff (reconcileCurrentState cluster) d).Apply W).1.result))
      d).ToAdd := by
  rw [calls_before_add] at hfail
  have hck := reconcileCurrentState_oneControlPlane cluster
  have hcw := oneControlPlane_workers hck
  have hdw := desired_oneControlPlane_workers hdk
  have hwmem : w ∈ (diff (reconcileCurrentState cluster) d).ToAdd := by
    rw [hsplit]; simp
  have hsub : ∀ o ∈ pre ++ post, o ∈ (diff (reconcileCurrentState cluster) d).ToAdd := by
    intro o ho
    rw [hsplit]
    rcases List.mem_append.1 ho with h | h
    · exact List.mem_append_left _ h
    · exact List.mem_append_right _ (List.mem_cons_of_mem _ h)
  have hnd := diff_ToAdd_nodup (reconcileCurrentState cluster) d hdk hdu
  rw [hsplit] at hnd
  have hothers := nodup_map_split (fun o : Wrapper => (o.GetName, o.IsControlPlane)) pre post w hnd
  have hsrc := Spec_mem_of_failed_add W (diff (reconcileCurrentState cluster) d) pre post w
    hsplit hfail
  -- no record for `w`
  have hno : ∀ r ∈ ((diff (reconcileCurrentState cluster) d).Apply W).1.result.Spec,
      ¬ (r.TargetObjectName = w.GetName ∧ r.ControlPlane = w.IsControlPlane) := by
    rintro r hr ⟨hname, hkind⟩
    rcases hsrc r hr with ⟨m, hm, h1, h2⟩ | ⟨o, ho, h1, h2⟩
    · exact verify_add_disjoint _ d hck hdk m hm w hwmem
        ⟨by rw [← h2, hname], by rw [← h1, hkind]⟩
    · apply hothers o ho
      show (o.GetName, o.IsControlPlane) = (w.GetName, w.IsControlPlane)
      rw [← h1, ← h2, hname, hkind]
  refine ⟨failed_add_item W _ pre post w hsplit hfail, hno, ?_⟩
  -- the next pass
  rw [diff_ToAdd] at hwmem ⊢
  rw [reconcileCurrentState_eq]
  simp only [persist_modules, mdInfo_persist]
  rcases List.mem_append.1 hwmem with hcp | hwk
  · -- `w` is the desired control plane and there was no current one
    apply List.mem_append_left
    unfold cpToAdd at hcp ⊢
    cases hd : d.ControlPlane with
    | none => simp [hd] at hcp
    | some w0 =>
      cases hc : (reconcileCurrentState cluster).ControlPlane with
      | some cp => simp [hd, hc] at hcp
      | none =>
        simp only [hd, hc, List.mem_singleton] at hcp
        have hwkind : w.IsControlPlane = true := by
          rw [hcp]; exact desired_oneControlPlane_slot hdk hd
        have hnone : List.find? (fun r => r.ControlPlane)
            ((diff (reconcileCurrentState cluster) d).Apply W).1.result.Spec.reverse = none := by
          rw [List.find?_eq_none]
          intro r hr hrk
          have hr2 := List.mem_reverse.1 hr
          rcases hsrc r hr2 with ⟨m, hm, h1, _⟩ | ⟨o, ho, h1, h2⟩
          · rw [diff_ToVerify] at hm
            have hv : cpToVerify (reconcileCurrentState cluster) d = [] := by
              simp [cpToVerify, hd, hc]
            rw [hv, List.nil_append] at hm
            have := hcw m (diff_ToVerify_workers_mem _ d m hm).1
            rw [← h1, hrk] at this
            exact Bool.noConfusion this
          · have hoadd := hsub o ho
            rw [diff_ToAdd] at hoadd
            rcases List.mem_append.1 hoadd with hoc | how
            · simp only [cpToAdd, hd, hc, List.mem_singleton] at hoc
              apply hothers o ho
              show (o.GetName, o.IsControlPlane) = (w.GetName, w.IsControlPlane)
              rw [hoc, hcp]
            · have := hdw o (List.mem_of_mem_filter how)
              rw [← h1, hrk] at this
              exact Bool.noConfusion this
        simp [hnone, hcp]
  · -- `w` is a desired worker group that no current worker group names
    apply List.mem_append_right
    have hwd := List.mem_of_mem_filter hwk
    refine List.mem_filter.2 ⟨hwd, ?_⟩
    have hnone : lookup
        ((((diff (reconcileCurrentState cluster) d).Apply W).1.result.Spec.filter
          (fun r => !r.ControlPlane)).map (mdInfo cluster)) w.GetName = none := by
      rw [lookup_eq_none_iff]
      intro x hx hxn
      obtain ⟨r, hr, hrx⟩ := List.mem_map.1 hx
      have hrs := List.mem_of_mem_filter hr
      have hrk : r.ControlPlane = false := by
        have := (List.mem_filter.1 hr).2
        simpa using this
      apply hno r hrs
      refine ⟨?_, ?_⟩
      · rw [← hxn, ← hrx]; rfl
      · rw [hrk, hdw w hwd]
    simp [hnone]

/-- Witness of C7: nothing persisted, the desired control plane `foo` and worker
group b, and a world in which the provider's create fails; the add of b (the
second entry of `ToAdd`) fails. -/
theorem C7_failed_add_retried_witness :
    fooDesired.oneControlPlane = true ∧ fooDesired.uniqueNames ∧
    (diff (reconcileCurrentState freshCluster) fooDesired).ToAdd =
      [.kcpWrapper { Namespace := "default", Name := "foo" }] ++
        .mdWrapper { Namespace := "default", Name := "b" } :: [] ∧
    addFails createFailsWorld
      (([.kcpWrapper { Namespace := "default", Name := "foo" }] : List Wrapper).foldl
        (addStep createFailsWorld)
        ((diff (reconcileCurrentState freshCluster) fooDesired).verify {})).calls
      (.mdWrapper { Namespace := "default", Name := "b" }) = true ∧
    ((∃ e, ((diff (reconcileCurrentState freshCluster) fooDesired).Apply
          createFailsWorld).1.result.Items[
        (diff (reconcileCurrentState freshCluster) fooDesired).ToVerify.length +
          ([.kcpWrapper { Namespace := "default", Name := "foo" }] : List Wrapper).length]? =
      some { moduleInfo := none, err := some e }) ∧
    (∀ r ∈ ((diff (reconcileCurrentState freshCluster) fooDesired).Apply
          createFailsWorld).1.result.Spec,
      ¬ (r.TargetObjectName = (Wrapper.mdWrapper { Namespace := "default", Name := "b" }).GetName ∧
        r.ControlPlane =
          (Wrapper.mdWrapper { Namespace := "default", Name := "b" }).IsControlPlane)) ∧
    Wrapper.mdWrapper { Namespace := "default", Name := "b" } ∈ (diff
      (reconcileCurrentState
        (persist freshCluster
          ((diff (reconcileCurrentState freshCluster) fooDesired).Apply
            createFailsWorld).1.result))
      fooDesired).ToAdd) :=
  ⟨by decide, by decide, by decide, by decide,
    C7_failed_add_retried createFailsWorld freshCluster fooDesired (by decide) (by decide)
      [.kcpWrapper { Namespace := "default", Name := "foo" }] []
      (.mdWrapper { Namespace := "default", Name := "b" }) (by decide) (by decide)⟩

/-! ## A failed removal and the next pass -/

/-- C6 (the code at a failing input): the persisted list holds the worker
groups a (uuid-a) and b (uuid-b), the desired state keeps b only, and the
provider's delete fails. The pass puts a in `ToRemove`, calls the delete for
uuid-a, which fails, and records an error item without the record; `Spec()` is
the record of b alone. The next pass, started from that list with the same
desired state, has an empty `ToRemove`: the removal of a is not tried again and
its record has left the persisted list although its delete failed. -/
theorem C6_failed_removal_not_retried :
    (diff (reconcileCurrentState twoWorkersCluster) onlyB).ToRemove =
      [⟨.mdWrapper { Namespace := "default", Name := "a" }, "uuid-a"⟩] ∧
    ((diff (reconcileCurrentState twoWorkersCluster) onlyB).Apply deleteFailsWorld).1.calls =
      [.fetchSession, .DeleteModule 1 "uuid-a"] ∧
    ((diff (reconcileCurrentState twoWorkersCluster) onlyB).Apply
        deleteFailsWorld).1.result.Items =
      [ { moduleInfo := some
            { ControlPlane := false, TargetObjectName := "b", ModuleUUID := "uuid-b" } },
        { err := some { msg := "delete failed" } } ] ∧
    ((diff (reconcileCurrentState twoWorkersCluster) onlyB).Apply
        deleteFailsWorld).1.result.Spec =
      [{ ControlPlane := false, TargetObjectName := "b", ModuleUUID := "uuid-b" }] ∧
    diff
      (reconcileCurrentState
        (persist twoWorkersCluster
          ((diff (reconcileCurrentState twoWorkersCluster) onlyB).Apply
            deleteFailsWorld).1.result))
      onlyB =
      { ToAdd := []
        ToRemove := []
        ToVerify := [⟨.mdWrapper { Namespace := "default", Name := "b" }, "uuid-b"⟩] } := by
  decide

/-- Witness of C9: the result `Apply` builds for one verify, one add and two
removes of which the first fails. -/
theorem C9_spec_lists_error_free_items_witness :
    (∀ it ∈ (fullDiff.Apply deleteOfAFailsWorld).1.result.Items,
      (it.moduleInfo = none ↔ it.err ≠ none)) ∧
    (fullDiff.Apply deleteOfAFailsWorld).1.result.Items =
      [ { moduleInfo := some
            { ControlPlane := false, TargetObjectName := "b", ModuleUUID := "uuid-b" } },
        { moduleInfo := some
            { ControlPlane := false, TargetObjectName := "c", ModuleUUID := "uuid-new" } },
        { err := some { msg := "delete failed" } } ] ∧
    (fullDiff.Apply deleteOfAFailsWorld).1.result.Spec =
      [ { ControlPlane := false, TargetObjectName := "b", ModuleUUID := "uuid-b" },
        { ControlPlane := false, TargetObjectName := "c", ModuleUUID := "uuid-new" } ] ∧
    ((fullDiff.Apply deleteOfAFailsWorld).1.result.Spec.map some =
      ((fullDiff.Apply deleteOfAFailsWorld).1.result.Items.filter
        (fun it => it.err.isNone)).map (fun it => it.moduleInfo) ∧
    (fullDiff.Apply deleteOfAFailsWorld).1.result.Spec.length =
      ((fullDiff.Apply deleteOfAFailsWorld).1.result.Items.filter
        (fun it => it.err.isNone)).length ∧
    (fullDiff.Apply deleteOfAFailsWorld).1.result.Spec =
      ((fullDiff.Apply deleteOfAFailsWorld).1.result.Items.filter
        (fun it => it.err.isNone)).filterMap (fun it => it.moduleInfo) ∧
    (∀ it ∈ (fullDiff.Apply deleteOfAFailsWorld).1.result.Items,
      it.err ≠ none → it.moduleInfo = none)) :=
  ⟨Apply_items_exactly_one deleteOfAFailsWorld fullDiff, by decide, by decide,
    C9_spec_lists_error_free_items (fullDiff.Apply deleteOfAFailsWorld).1.result
      (Apply_items_exactly_one deleteOfAFailsWorld fullDiff)⟩

/-! ## The add phase, entry by entry -/

theorem addOutcome_eq (W : World) (calls : List Call) (obj : Wrapper) :
    addOutcome W calls obj =
      { result := { Items := [addItemOf obj (addResult W calls obj)] }
        calls := calls ++ addCallsOf W calls obj } := by
  unfold addOutcome addStep addResult addCallsOf
  simp only [ApplyState.call, ApplyState.appendItem]
  cases W.fetchSessionForObject calls obj with
  | error e => simp [addItemOf]
  | ok s =>
    simp only
    cases W.ClusterComputeResourceOrDefault (calls ++ [Call.fetchSessionForObject obj]) s with
    | error e => simp [addItemOf]
    | ok cc =>
      simp only
      cases W.CreateModule
        (calls ++ [Call.fetchSessionForObject obj] ++
          [Call.ClusterComputeResourceOrDefault s]) s cc with
      | error e => simp [addItemOf]
      | ok uuid => simp [addItemOf]

theorem addItems_eq_addPhase (W : World) (l : List Wrapper) (calls : List Call) :
    addItems W calls l = addPhase W calls l := by
  induction l generalizing calls with
  | nil => rfl
  | cons obj l ih => simp [addItems, addPhase, addOutcome_eq, ih]

theorem addTrace_cons (W : World) (obj : Wrapper) (l : List Wrapper) (calls : List Call) :
    addTrace W calls (obj :: l) = addTrace W (calls ++ addCallsOf W calls obj) l := by
  simp [addTrace, addOutcome_eq]

theorem addTrace_append (W : World) (l1 l2 : List Wrapper) (calls : List Call) :
    addTrace W calls (l1 ++ l2) = addTrace W (addTrace W calls l1) l2 := by
  induction l1 generalizing calls with
  | nil => rfl
  | cons obj l ih => simp [addTrace, ih]

theorem addFails_eq (W : World) (calls : List Call) (obj : Wrapper) :
    addFails W calls obj = true ↔ ∃ e, addResult W calls obj = .error e := by
  unfold addFails addResult
  cases W.fetchSessionForObject calls obj with
  | error e => simp
  | ok s =>
    simp only
    cases W.ClusterComputeResourceOrDefault (calls ++ [Call.fetchSessionForObject obj]) s with
    | error e => simp
    | ok cc =>
      simp only
      cases W.CreateModule
        (calls ++ [Call.fetchSessionForObject obj] ++
          [Call.ClusterComputeResourceOrDefault s]) s cc with
      | error e => simp
      | ok uuid => simp

theorem addCallsOf_isAddCall (W : World) (calls : List Call) (obj : Wrapper) :
    ∀ c ∈ addCallsOf W calls obj, c.isAddCall = true := by
  unfold addCallsOf
  cases W.fetchSessionForObject calls obj with
  | error e => simp [Call.isAddCall]
  | ok s =>
    simp only
    cases W.ClusterComputeResourceOrDefault (calls ++ [Call.fetchSessionForObject obj]) s with
    | error e => simp [Call.isAddCall]
    | ok cc => simp [Call.isAddCall]

/-- The calls of the add phase come after the calls made before it and are all
calls of the add phase. -/
theorem addTrace_calls (W : World) (l : List Wrapper) (calls : List Call) :
    ∃ cs, addTrace W calls l = calls ++ cs ∧ ∀ c ∈ cs, c.isAddCall = true := by
  induction l generalizing calls with
  | nil => exact ⟨[], by simp [addTrace], by simp⟩
  | cons obj l ih =>
    obtain ⟨cs, hcs, hall⟩ := ih (calls ++ addCallsOf W calls obj)
    refine ⟨addCallsOf W calls obj ++ cs, ?_, ?_⟩
    · rw [addTrace_cons, hcs, List.append_assoc]
    · intro c hc
      rcases List.mem_append.1 hc with h | h
      · exact addCallsOf_isAddCall W calls obj c h
      · exact hall c h

theorem addPhase_length (W : World) (l : List Wrapper) (calls : List Call) :
    (addPhase W calls l).length = l.length := by
  rw [← addItems_eq_addPhase, addItems_length]

theorem addPhase_append (W : World) (l1 l2 : List Wrapper) (calls : List Call) :
    addPhase W calls (l1 ++ l2) = addPhase W calls l1 ++ addPhase W (addTrace W calls l1) l2 := by
  rw [← addItems_eq_addPhase, addItems_append, addItems_eq_addPhase, addItems_eq_addPhase]

/-- The item at the place of an entry of the add phase is the item of that entry
for the outcome of its own add. -/
theorem addPhase_at (W : World) (pre post : List Wrapper) (w : Wrapper) (calls : List Call) :
    (addPhase W calls (pre ++ w :: post))[pre.length]? =
      some (addItemOf w (addResult W (addTrace W calls pre) w)) := by
  rw [addPhase_append, List.getElem?_append_right (by rw [addPhase_length])]
  simp [addPhase_length, addPhase]

/-! ## The three phases of `Apply` -/

/-- C12: every item of a result of `Apply` holds exactly one of a record and an
error: a record and no error, or an error and no record, whatever the session and
provider calls answer. -/
theorem C12_item_record_xor_error (W : World) (d : Diff) :
    ∀ it ∈ (d.Apply W).1.result.Items,
      (it.moduleInfo ≠ none ∧ it.err = none) ∨ (it.moduleInfo = none ∧ it.err ≠ none) := by
  intro it hit
  have h := Apply_items_exactly_one W d it hit
  by_cases hm : it.moduleInfo = none
  · exact Or.inr ⟨hm, h.1 hm⟩
  · refine Or.inl ⟨hm, ?_⟩
    by_contra he
    exact hm (h.2 he)

/-- Witness of C12: the error item of the failed delete, in the result for one
verify, one add and two removes of which the first fails. -/
theorem C12_item_record_xor_error_witness :
    ({ err := some { msg := "delete failed" } } : diffResultItem) ∈
      (fullDiff.Apply deleteOfAFailsWorld).1.result.Items ∧
    ((({ err := some { msg := "delete failed" } } : diffResultItem).moduleInfo ≠ none ∧
        ({ err := some { msg := "delete failed" } } : diffResultItem).err = none) ∨
      (({ err := some { msg := "delete failed" } } : diffResultItem).moduleInfo = none ∧
        ({ err := some { msg := "delete failed" } } : diffResultItem).err ≠ none)) :=
  ⟨by decide,
    C12_item_record_xor_error deleteOfAFailsWorld fullDiff
      { err := some { msg := "delete failed" } } (by decide)⟩

/-- C14: the verify phase appends, for every entry of `ToVerify` in order, one
item without error whose record is the entry's flag, name and UUID, and makes no
call. For an entry that `reconcileCurrentState` built from a persisted record,
that record is the one re-emitted, unchanged; every entry of `ToVerify` of a
diff over such a current state is of that kind. -/
theorem C14_verify_passthrough (d : Diff) (st : ApplyState) :
    (d.verify st).result.Items =
      st.result.Items ++ d.ToVerify.map (fun e =>
        ({ moduleInfo := some
            { ControlPlane := e.IsControlPlane
              TargetObjectName := e.GetName
              ModuleUUID := e.ModuleUUID }
           err := none } : diffResultItem)) ∧
    (d.verify st).calls = st.calls ∧
    (∀ (cluster : VSphereCluster) (e : ModuleInfo),
      (e ∈ (reconcileCurrentState cluster).MachineDeployments ∨
        (reconcileCurrentState cluster).ControlPlane = some e) →
      ∃ r ∈ cluster.Spec.ClusterModules,
        ({ ControlPlane := e.IsControlPlane
           TargetObjectName := e.GetName
           ModuleUUID := e.ModuleUUID } : ClusterModule) = r) ∧
    (∀ (cluster : VSphereCluster) (desired : DesiredState),
      ∀ e ∈ (diff (reconcileCurrentState cluster) desired).ToVerify,
        ∃ r ∈ cluster.Spec.ClusterModules,
          verifyItem e = { moduleInfo := some r, err := none }) := by
  have hsrc : ∀ (cluster : VSphereCluster) (e : ModuleInfo),
      (e ∈ (reconcileCurrentState cluster).MachineDeployments ∨
        (reconcileCurrentState cluster).ControlPlane = some e) →
      ∃ r ∈ cluster.Spec.ClusterModules,
        ({ ControlPlane := e.IsControlPlane
           TargetObjectName := e.GetName
           ModuleUUID := e.ModuleUUID } : ClusterModule) = r := by
    intro cluster e he
    rw [reconcileCurrentState_eq] at he
    rcases he with he | he
    · obtain ⟨r, hr, hre⟩ := List.mem_map.1 he
      have hk : r.ControlPlane = false := by
        have := (List.mem_filter.1 hr).2
        simpa using this
      refine ⟨r, List.mem_of_mem_filter hr, ?_⟩
      rw [← hre]
      cases r
      simp only at hk
      simp [mdInfo, ModuleInfo.IsControlPlane, ModuleInfo.GetName, Wrapper.IsControlPlane,
        Wrapper.GetName, hk]
    · simp only [Option.map_eq_some'] at he
      obtain ⟨r, hr, hre⟩ := he
      have hmem := List.mem_of_find?_eq_some hr
      have hk : r.ControlPlane = true := by
        have := List.find?_some hr
        simpa using this
      refine ⟨r, List.mem_reverse.1 hmem, ?_⟩
      rw [← hre]
      cases r
      simp only at hk
      simp [kcpInfo, ModuleInfo.IsControlPlane, ModuleInfo.GetName, Wrapper.IsControlPlane,
        Wrapper.GetName, hk]
  refine ⟨?_, ?_, hsrc, ?_⟩
  · simp [Diff.verify, foldl_verifyStep, verifyItem]
  · simp [Diff.verify, foldl_verifyStep]
  · intro cluster desired e he
    have horig : e ∈ (reconcileCurrentState cluster).MachineDeployments ∨
        (reconcileCurrentState cluster).ControlPlane = some e := by
      rw [diff_ToVerify, List.mem_append] at he
      rcases he with h | h
      · right
        unfold cpToVerify at h
        cases hd : desired.ControlPlane with
        | none => simp [hd] at h
        | some w0 =>
          cases hc : (reconcileCurrentState cluster).ControlPlane with
          | none => simp [hd, hc] at h
          | some cp =>
            simp only [hd, hc, List.mem_singleton] at h
            rw [h]
      · exact Or.inl (diff_ToVerify_workers_mem _ desired e h).1
    obtain ⟨r, hr, hre⟩ := hsrc cluster e horig
    exact ⟨r, hr, by rw [← hre]; rfl⟩

/-- C15: the add phase appends one item per entry of `ToAdd`, in order. The
item at the place of an entry is decided by the outcome of that entry's own
add: an error item with the error of the first failing call (session
acquisition, compute-cluster lookup or create), or else the record with the
entry's name, its control-plane flag and the UUID its create call returned;
the failure of one entry changes the item of no other. -/
theorem C15_add_failures_isolated (W : World) (d : Diff) (st : ApplyState) :
    (d.add W st).result.Items = st.result.Items ++ addPhase W st.calls d.ToAdd ∧
    (addPhase W st.calls d.ToAdd).length = d.ToAdd.length ∧
    (∀ (pre post : List Wrapper) (w : Wrapper), d.ToAdd = pre ++ w :: post →
      ∃ it, (d.add W st).result.Items[st.result.Items.length + pre.length]? = some it ∧
        (∀ e, addResult W (pre.foldl (addStep W) st).calls w = .error e →
          it = { moduleInfo := none, err := some e }) ∧
        (∀ uuid, addResult W (pre.foldl (addStep W) st).calls w = .ok uuid →
          it = { moduleInfo := some
                  { ControlPlane := w.IsControlPlane
                    TargetObjectName := w.GetName
                    ModuleUUID := uuid }
                 err := none })) ∧
    (addThree.add sessionOfXFailsWorld {}).result.Items =
      [ { moduleInfo := some
            { ControlPlane := false, TargetObjectName := "c", ModuleUUID := "uuid-first" } },
        { err := some { msg := "no session for x" } },
        { moduleInfo := some
            { ControlPlane := false, TargetObjectName := "y", ModuleUUID := "uuid-later" } } ] := by
  have hitems : (d.add W st).result.Items = st.result.Items ++ addPhase W st.calls d.ToAdd := by
    simp [Diff.add, foldl_addStep, addItems_eq_addPhase]
  refine ⟨hitems, addPhase_length W _ _, ?_, by decide⟩
  intro pre post w hsplit
  refine ⟨addItemOf w (addResult W (addTrace W st.calls pre) w), ?_, ?_, ?_⟩
  · rw [hitems, hsplit, List.getElem?_append_right (Nat.le_add_right _ _),
      Nat.add_sub_cancel_left]
    exact addPhase_at W pre post w st.calls
  · intro e he
    simp only [foldl_addStep] at he
    rw [he]
    rfl
  · intro uuid hu
    simp only [foldl_addStep] at hu
    rw [hu]
    rfl

/-- C16: once the remove phase has acquired its session `s`, it calls the
provider's delete once per entry of `ToRemove`, with that entry's UUID, in the
order of `ToRemove`, whatever the earlier deletes answered; it appends one error
item per failing delete, in order, nothing for a delete that succeeds, and
returns no error. -/
theorem C16_delete_once_per_entry (W : World) (d : Diff) (st : ApplyState) (s : Session)
    (hs : W.fetchSession st.calls = .ok s) :
    (d.delete W st).1.calls =
      st.calls ++ [.fetchSession] ++ d.ToRemove.map (fun m => Call.DeleteModule s m.ModuleUUID) ∧
    (deleteOutcomes W s (st.calls ++ [.fetchSession]) d.ToRemove).length = d.ToRemove.length ∧
    (d.delete W st).1.result.Items =
      st.result.Items ++
        (deleteOutcomes W s (st.calls ++ [.fetchSession]) d.ToRemove).filterMap
          (fun o => o.map (fun e => ({ moduleInfo := none, err := some e } : diffResultItem))) ∧
    ((d.delete W st).1.result.Items.length = st.result.Items.length +
      ((deleteOutcomes W s (st.calls ++ [.fetchSession]) d.ToRemove).filter
        Option.isSome).length) ∧
    (d.delete W st).1.result.Spec = st.result.Spec ∧
    (d.delete W st).2 = none := by
  have hst : d.delete W st =
      ({ result := { Items := st.result.Items ++
            deleteItems (deleteOutcomes W s (st.calls ++ [.fetchSession]) d.ToRemove) }
         calls := st.calls ++ [.fetchSession] ++
            d.ToRemove.map (fun m => Call.DeleteModule s m.ModuleUUID) }, none) := by
    simp [Diff.delete, hs, foldl_deleteStep, ApplyState.call]
  rw [hst]
  refine ⟨rfl, deleteOutcomes_length W s _ _, rfl, ?_, ?_, rfl⟩
  · simp only [List.length_append, deleteItems_length]
  · simp only [Spec_eq_filterMap, List.filterMap_append, deleteItems_moduleInfo,
      List.append_nil]

/-- Witness of C16: two removes of which the first fails, after one verify and
one add. -/
theorem C16_delete_once_per_entry_witness :
    deleteOfAFailsWorld.fetchSession
      (fullDiff.add deleteOfAFailsWorld (fullDiff.verify {})).calls = .ok 1 ∧
    (fullDiff.delete deleteOfAFailsWorld
        (fullDiff.add deleteOfAFailsWorld (fullDiff.verify {}))).1.calls =
      [ .fetchSessionForObject (.mdWrapper { Namespace := "default", Name := "c" }),
        .ClusterComputeResourceOrDefault 1, .CreateModule 1 7, .fetchSession,
        .DeleteModule 1 "uuid-a", .DeleteModule 1 "uuid-e" ] ∧
    ((fullDiff.delete deleteOfAFailsWorld
        (fullDiff.add deleteOfAFailsWorld (fullDiff.verify {}))).1.calls =
      (fullDiff.add deleteOfAFailsWorld (fullDiff.verify {})).calls ++ [.fetchSession] ++
        fullDiff.ToRemove.map (fun m => Call.DeleteModule 1 m.ModuleUUID) ∧
    (deleteOutcomes deleteOfAFailsWorld 1
      ((fullDiff.add deleteOfAFailsWorld (fullDiff.verify {})).calls ++ [.fetchSession])
      fullDiff.ToRemove).length = fullDiff.ToRemove.length ∧
    (fullDiff.delete deleteOfAFailsWorld
        (fullDiff.add deleteOfAFailsWorld (fullDiff.verify {}))).1.result.Items =
      (fullDiff.add deleteOfAFailsWorld (fullDiff.verify {})).result.Items ++
        (deleteOutcomes deleteOfAFailsWorld 1
          ((fullDiff.add deleteOfAFailsWorld (fullDiff.verify {})).calls ++ [.fetchSession])
          fullDiff.ToRemove).filterMap
          (fun o => o.map (fun e => ({ moduleInfo := none, err := some e } : diffResultItem))) ∧
    ((fullDiff.delete deleteOfAFailsWorld
        (fullDiff.add deleteOfAFailsWorld (fullDiff.verify {}))).1.result.Items.length =
      (fullDiff.add deleteOfAFailsWorld (fullDiff.verify {})).result.Items.length +
      ((deleteOutcomes deleteOfAFailsWorld 1
        ((fullDiff.add deleteOfAFailsWorld (fullDiff.verify {})).calls ++ [.fetchSession])
        fullDiff.ToRemove).filter Option.isSome).length) ∧
    (fullDiff.delete deleteOfAFailsWorld
        (fullDiff.add deleteOfAFailsWorld (fullDiff.verify {}))).1.result.Spec =
      (fullDiff.add deleteOfAFailsWorld (fullDiff.verify {})).result.Spec ∧
    (fullDiff.delete deleteOfAFailsWorld
        (fullDiff.add deleteOfAFailsWorld (fullDiff.verify {}))).2 = none) :=
  ⟨rfl, by decide,
    C16_delete_once_per_entry deleteOfAFailsWorld fullDiff
      (fullDiff.add deleteOfAFailsWorld (fullDiff.verify {})) 1 rfl⟩

theorem Apply_items_phases (W : World) (d : Diff) :
    (d.Apply W).1.result.Items =
      d.ToVerify.map verifyItem ++ addPhase W [] d.ToAdd ++
        removeItems W d (d.add W (d.verify {})).calls := by
  rw [Apply_items, addItems_eq_addPhase, Apply_state]

theorem Apply_calls (W : World) (d : Diff) :
    (d.Apply W).1.calls =
      (d.add W (d.verify {})).calls ++ [.fetchSession] ++
        (match W.fetchSession (d.add W (d.verify {})).calls with
          | .error _ => []
          | .ok s => d.ToRemove.map (fun m => Call.DeleteModule s m.ModuleUUID)) := by
  simp only [Diff.Apply, Diff.delete, ApplyState.call]
  cases W.fetchSession (d.add W (d.verify {})).calls with
  | error e => simp
  | ok s => simp [foldl_deleteStep]

/-- The item of an entry of `ToAdd` in the result of `Apply`. -/
theorem Apply_item_of_add (W : World) (d : Diff) (pre post : List Wrapper) (w : Wrapper)
    (hsplit : d.ToAdd = pre ++ w :: post) :
    (d.Apply W).1.result.Items[d.ToVerify.length + pre.length]? =
      some (addItemOf w (addResult W (pre.foldl (addStep W) (d.verify {})).calls w)) := by
  rw [Apply_items_phases, List.append_assoc,
    List.getElem?_append_right (by rw [List.length_map]; exact Nat.le_add_right _ _),
    List.length_map, Nat.add_sub_cancel_left,
    List.getElem?_append_left (by rw [addPhase_length, hsplit]; simp),
    hsplit, addPhase_at, calls_before_add]

/-- C13: `Apply` is verify, then add, then delete, and returns no error. The
items of the result are the items of the verify phase, one per entry of
`ToVerify` in order, then the items of the add phase, one per entry of `ToAdd`
in order, then the items of the remove phase, in the order of `ToRemove`; the
calls of the add phase all come before the acquisition of the remove-phase
session, and the delete calls all come after it. -/
theorem C13_phases_in_order (W : World) (d : Diff) :
    (d.Apply W).2 = none ∧
    (d.Apply W).1 = (d.delete W (d.add W (d.verify {}))).1 ∧
    (d.Apply W).1.result.Items =
      d.ToVerify.map verifyItem ++ addPhase W [] d.ToAdd ++
        removeItems W d (d.add W (d.verify {})).calls ∧
    (d.ToVerify.map verifyItem).length = d.ToVerify.length ∧
    (addPhase W [] d.ToAdd).length = d.ToAdd.length ∧
    (∀ i, i < d.ToVerify.length →
      (d.Apply W).1.result.Items[i]? = (d.ToVerify[i]?).map verifyItem) ∧
    (∀ (pre post : List Wrapper) (w : Wrapper), d.ToAdd = pre ++ w :: post →
      (d.Apply W).1.result.Items[d.ToVerify.length + pre.length]? =
        some (addItemOf w (addResult W (pre.foldl (addStep W) (d.verify {})).calls w))) ∧
    (∀ s, W.fetchSession (d.add W (d.verify {})).calls = .ok s →
      (d.Apply W).1.result.Items.drop (d.ToVerify.length + d.ToAdd.length) =
        deleteItems
          (deleteOutcomes W s ((d.add W (d.verify {})).calls ++ [.fetchSession]) d.ToRemove)) ∧
    (∃ addcs delcs, (d.Apply W).1.calls = addcs ++ [.fetchSession] ++ delcs ∧
      (∀ c ∈ addcs, c.isAddCall = true) ∧
      (∀ c ∈ delcs, ∃ s, ∃ m ∈ d.ToRemove, c = .DeleteModule s m.ModuleUUID)) := by
  refine ⟨rfl, rfl, Apply_items_phases W d, List.length_map _ _, addPhase_length W _ _,
    ?_, ?_, ?_, ?_⟩
  · intro i hi
    rw [Apply_items_phases, List.append_assoc,
      List.getElem?_append_left (by rw [List.length_map]; exact hi), List.getElem?_map]
  · intro pre post w hsplit
    exact Apply_item_of_add W d pre post w hsplit
  · intro s hs
    rw [Apply_items_phases]
    have hlen : (d.ToVerify.map verifyItem ++ addPhase W [] d.ToAdd).length =
        d.ToVerify.length + d.ToAdd.length := by
      simp [addPhase_length]
    rw [List.drop_left' hlen]
    simp [removeItems, hs]
  · obtain ⟨cs, hcs, hall⟩ := addTrace_calls W d.ToAdd []
    rw [List.nil_append] at hcs
    refine ⟨cs,
      (match W.fetchSession (d.add W (d.verify {})).calls with
        | .error _ => []
        | .ok s => d.ToRemove.map (fun m => Call.DeleteModule s m.ModuleUUID)),
      ?_, hall, ?_⟩
    · rw [Apply_calls, Apply_state]
      simp only [hcs]
    · intro c hc
      cases hs : W.fetchSession (d.add W (d.verify {})).calls with
      | error e => simp [hs] at hc
      | ok s =>
        simp only [hs, List.mem_map] at hc
        obtain ⟨m, hm, hmc⟩ := hc
        exact ⟨s, m, hm, hmc.symm⟩

/-- C11 (the claim as stated fails): an error item holds the error and nothing
of the entry. The same diff run in a world where the delete of uuid-a fails and
in a world where the delete of uuid-e fails gives one and the same result; and a
failing add of c and a failing add of x, each with a succeeding remove, give one
and the same result, whose `Error()` is the provider's error alone. -/
theorem C11_error_item_has_no_identity :
    deleteOutcomes deleteOfAFailsWorld 1
        ((fullDiff.add deleteOfAFailsWorld (fullDiff.verify {})).calls ++ [.fetchSession])
        fullDiff.ToRemove = [some { msg := "delete failed" }, none] ∧
    deleteOutcomes deleteOfEFailsWorld 1
        ((fullDiff.add deleteOfEFailsWorld (fullDiff.verify {})).calls ++ [.fetchSession])
        fullDiff.ToRemove = [none, some { msg := "delete failed" }] ∧
    (fullDiff.Apply deleteOfAFailsWorld).1.result =
      (fullDiff.Apply deleteOfEFailsWorld).1.result ∧
    (fullDiff.Apply deleteOfAFailsWorld).1.result.Items.filter (fun it => it.err.isSome) =
      [{ moduleInfo := none, err := some { msg := "delete failed" } }] ∧
    addCRemoveA.ToAdd ≠ addXRemoveA.ToAdd ∧
    (addCRemoveA.Apply createFailsWorld).1.result =
      (addXRemoveA.Apply createFailsWorld).1.result ∧
    (addCRemoveA.Apply createFailsWorld).1.result.Items =
      [{ moduleInfo := none, err := some { msg := "create failed" } }] ∧
    (addCRemoveA.Apply createFailsWorld).1.result.Error =
      some { errs := [{ msg := "create failed" }] } ∧
    (addXRemoveA.Apply createFailsWorld).1.result.Error =
      some { errs := [{ msg := "create failed" }] } := by
  decide

/-- C11 (amended): in a result of `Apply`, an item that carries an error holds
the error of the failing call and no record; the errors of the items are those of
the failed adds, in the order of `ToAdd`, followed by those of the failed
deletes, and `Error()`, when not nil, aggregates exactly them. The item of a
failed add stands at the place of its entry. With one failing add and one
succeeding remove, `Error()` is not nil and holds the error of the failed add
alone, and `Spec()` omits the failed add. -/
theorem C11_error_items_hold_error_only (W : World) (d : Diff) :
    (∀ it ∈ (d.Apply W).1.result.Items, it.err ≠ none → it.moduleInfo = none) ∧
    (d.Apply W).1.result.Items.filterMap (fun it => it.err) =
      (addPhase W [] d.ToAdd).filterMap (fun it => it.err) ++
        (removeItems W d (d.add W (d.verify {})).calls).filterMap (fun it => it.err) ∧
    (∀ agg, (d.Apply W).1.result.Error = some agg →
      agg.errs = (addPhase W [] d.ToAdd).filterMap (fun it => it.err) ++
        (removeItems W d (d.add W (d.verify {})).calls).filterMap (fun it => it.err)) ∧
    (∀ (pre post : List Wrapper) (w : Wrapper) (e : Err), d.ToAdd = pre ++ w :: post →
      addResult W (pre.foldl (addStep W) (d.verify {})).calls w = .error e →
      (d.Apply W).1.result.Items[d.ToVerify.length + pre.length]? =
        some { moduleInfo := none, err := some e }) ∧
    ((addCRemoveA.Apply createFailsWorld).1.calls =
        [ .fetchSessionForObject (.mdWrapper { Namespace := "default", Name := "c" }),
          .ClusterComputeResourceOrDefault 1, .CreateModule 1 7, .fetchSession,
          .DeleteModule 1 "uuid-a" ] ∧
      (addCRemoveA.Apply createFailsWorld).1.result.Error =
        some { errs := [{ msg := "create failed" }] } ∧
      (addCRemoveA.Apply createFailsWorld).1.result.Spec = []) := by
  have herrs : (d.Apply W).1.result.Items.filterMap (fun it => it.err) =
      (addPhase W [] d.ToAdd).filterMap (fun it => it.err) ++
        (removeItems W d (d.add W (d.verify {})).calls).filterMap (fun it => it.err) := by
    rw [Apply_items_phases, List.filterMap_append, List.filterMap_append]
    have hv : (d.ToVerify.map verifyItem).filterMap (fun it => it.err) = [] := by
      rw [List.filterMap_eq_nil_iff]
      intro it hit
      obtain ⟨m, _, hm⟩ := List.mem_map.1 hit
      rw [← hm]
      rfl
    rw [hv, List.nil_append]
  refine ⟨fun it hit he => (Apply_items_exactly_one W d it hit).2 he, herrs, ?_, ?_, by decide⟩
  · intro agg hagg
    rw [Error_eq] at hagg
    rw [NewAggregate_eq_some _ agg hagg, herrs]
  · intro pre post w e hsplit he
    rw [Apply_item_of_add W d pre post w hsplit, he]
    rfl

/-! ## Invariants of a pass -/

/-- Every entry of a current state built by `reconcileCurrentState` bears the
flag, the name and the UUID of a persisted record. -/
theorem reconcileCurrentState_entry_record (cluster : VSphereCluster) (e : ModuleInfo)
    (he : e ∈ (reconcileCurrentState cluster).MachineDeployments ∨
      (reconcileCurrentState cluster).ControlPlane = some e) :
    ∃ r ∈ cluster.Spec.ClusterModules,
      r.ControlPlane = e.IsControlPlane ∧ r.TargetObjectName = e.GetName ∧
        r.ModuleUUID = e.ModuleUUID := by
  rw [reconcileCurrentState_eq] at he
  rcases he with he | he
  · obtain ⟨r, hr, hre⟩ := List.mem_map.1 he
    have hk : r.ControlPlane = false := by
      have := (List.mem_filter.1 hr).2
      simpa using this
    refine ⟨r, List.mem_of_mem_filter hr, ?_, ?_, ?_⟩ <;> rw [← hre]
    · rw [hk]; rfl
    · rfl
    · rfl
  · simp only [Option.map_eq_some'] at he
    obtain ⟨r, hr, hre⟩ := he
    have hmem := List.mem_of_find?_eq_some hr
    have hk : r.ControlPlane = true := by
      have := List.find?_some hr
      simpa using this
    refine ⟨r, List.mem_reverse.1 hmem, ?_, ?_, ?_⟩ <;> rw [← hre]
    · rw [hk]; rfl
    · rfl
    · rfl

theorem diff_ToRemove_origin (c : CurrentState) (d : DesiredState) (m : ModuleInfo)
    (hm : m ∈ (diff c d).ToRemove) : c.ControlPlane = some m ∨ m ∈ c.MachineDeployments := by
  rw [diff_ToRemove, List.mem_append] at hm
  rcases hm with h | h
  · left
    unfold cpToRemove at h
    cases hd : d.ControlPlane with
    | some w0 => simp [hd] at h
    | none =>
      cases hc : c.ControlPlane with
      | none => simp [hd, hc] at h
      | some cp =>
        simp only [hd, hc, List.mem_singleton] at h
        rw [h]
  · exact Or.inr (List.mem_of_mem_filter h)

/-- C17 (the claim as stated fails): a persisted worker-group record with an
empty UUID, and nothing desired; the entry built from it is in `ToRemove` and
its UUID is empty. -/
theorem C17_empty_uuid_in_ToRemove :
    (diff (reconcileCurrentState emptyUuidCluster) {}).ToRemove =
      [⟨.mdWrapper { Namespace := "default", Name := "a" }, ""⟩] ∧
    ¬ (∀ m ∈ (diff (reconcileCurrentState emptyUuidCluster) {}).ToRemove, m.ModuleUUID ≠ "") := by
  decide

/-- C17 (amended): every entry of `ToRemove` originated from the current state:
it is its control plane or one of its worker groups, and it bears the flag, the
name and the UUID of a persisted record; so its UUID is not empty when no
persisted record has an empty UUID. -/
theorem C17_removed_entries_from_current (cluster : VSphereCluster) (d : DesiredState) :
    ∀ m ∈ (diff (reconcileCurrentState cluster) d).ToRemove,
      ((reconcileCurrentState cluster).ControlPlane = some m ∨
        m ∈ (reconcileCurrentState cluster).MachineDeployments) ∧
      (∃ r ∈ cluster.Spec.ClusterModules,
        r.ControlPlane = m.IsControlPlane ∧ r.TargetObjectName = m.GetName ∧
          r.ModuleUUID = m.ModuleUUID) ∧
      ((∀ r ∈ cluster.Spec.ClusterModules, r.ModuleUUID ≠ "") → m.ModuleUUID ≠ "") := by
  intro m hm
  have horig := diff_ToRemove_origin _ d m hm
  obtain ⟨r, hr, h1, h2, h3⟩ := reconcileCurrentState_entry_record cluster m horig.symm
  exact ⟨horig, ⟨r, hr, h1, h2, h3⟩, fun hne => by rw [← h3]; exact hne r hr⟩

/-- Witness of C17 (amended): the persisted worker groups a and b, of which only
b is desired; the entry a is removed and bears the UUID uuid-a. -/
theorem C17_removed_entries_from_current_witness :
    (⟨.mdWrapper { Namespace := "default", Name := "a" }, "uuid-a"⟩ : ModuleInfo) ∈
      (diff (reconcileCurrentState twoWorkersCluster) onlyB).ToRemove ∧
    (∀ r ∈ twoWorkersCluster.Spec.ClusterModules, r.ModuleUUID ≠ "") ∧
    (((reconcileCurrentState twoWorkersCluster).ControlPlane =
        some ⟨.mdWrapper { Namespace := "default", Name := "a" }, "uuid-a"⟩ ∨
      (⟨.mdWrapper { Namespace := "default", Name := "a" }, "uuid-a"⟩ : ModuleInfo) ∈
        (reconcileCurrentState twoWorkersCluster).MachineDeployments) ∧
    (∃ r ∈ twoWorkersCluster.Spec.ClusterModules,
      r.ControlPlane =
          (⟨.mdWrapper { Namespace := "default", Name := "a" }, "uuid-a"⟩ :
            ModuleInfo).IsControlPlane ∧
        r.TargetObjectName =
          (⟨.mdWrapper { Namespace := "default", Name := "a" }, "uuid-a"⟩ :
            ModuleInfo).GetName ∧
        r.ModuleUUID =
          (⟨.mdWrapper { Namespace := "default", Name := "a" }, "uuid-a"⟩ :
            ModuleInfo).ModuleUUID) ∧
    ((∀ r ∈ twoWorkersCluster.Spec.ClusterModules, r.ModuleUUID ≠ "") →
      (⟨.mdWrapper { Namespace := "default", Name := "a" }, "uuid-a"⟩ :
        ModuleInfo).ModuleUUID ≠ "")) :=
  ⟨by decide, by decide,
    C17_removed_entries_from_current twoWorkersCluster onlyB
      ⟨.mdWrapper { Namespace := "default", Name := "a" }, "uuid-a"⟩ (by decide)⟩

theorem filter_append_length_le {α : Type} (p : α → Bool) (l1 l2 : List α)
    (h : ∀ x ∈ l2, p x = false) : ((l1 ++ l2).filter p).length ≤ l1.length := by
  have h2 : l2.filter p = [] := by
    rw [List.filter_eq_nil_iff]
    intro x hx
    simp [h x hx]
  rw [List.filter_append, h2, List.append_nil]
  exact List.length_filter_le p l1

/-- The add phase emits at most as many control-plane records as there are
control-plane entries. -/
theorem addPhase_controlPlane_records (W : World) (l : List Wrapper) (calls : List Call) :
    (((addPhase W calls l).filterMap (fun it => it.moduleInfo)).filter
        (fun r => r.ControlPlane)).length ≤
      (l.filter (fun o => o.IsControlPlane)).length := by
  induction l generalizing calls with
  | nil => simp [addPhase]
  | cons obj l ih =>
    have := ih (calls ++ addCallsOf W calls obj)
    simp only [addPhase]
    cases addResult W calls obj with
    | error e =>
      cases hk : obj.IsControlPlane <;>
        simp [addItemOf, List.filterMap_cons, List.filter_cons, hk] <;> omega
    | ok uuid =>
      cases hk : obj.IsControlPlane <;>
        simp [addItemOf, List.filterMap_cons, List.filter_cons, hk] <;> omega

/-- C18: a pass starts from any persisted list and a desired state whose control
plane, if any, is a control-plane wrapper and whose worker groups are worker
wrappers. The current state then has at most one control-plane entry (its
control-plane slot; no worker group is one), and the list the pass writes,
`Spec()` of the applied diff, holds at most one record with `ControlPlane = true`,
whatever the session and provider calls answer. -/
theorem C18_at_most_one_control_plane (W : World) (cluster : VSphereCluster)
    (d : DesiredState) (hd : d.oneControlPlane = true) :
    (reconcileCurrentState cluster).oneControlPlane = true ∧
    (((reconcileCurrentState cluster).ControlPlane.toList ++
        (reconcileCurrentState cluster).MachineDeployments).filter
          (fun e => e.IsControlPlane)).length ≤ 1 ∧
    (((diff (reconcileCurrentState cluster) d).Apply W).1.result.Spec.filter
        (fun r => r.ControlPlane)).length ≤ 1 := by
  have hck := reconcileCurrentState_oneControlPlane cluster
  have hcw := oneControlPlane_workers hck
  have hdw := desired_oneControlPlane_workers hd
  refine ⟨hck, ?_, ?_⟩
  · refine Nat.le_trans (filter_append_length_le _ _ _ hcw) ?_
    cases (reconcileCurrentState cluster).ControlPlane <;> simp
  · rw [Apply_Spec, addItems_eq_addPhase, List.filter_append, List.length_append]
    have h1 : ((List.map
        (fun obj => ({ ControlPlane := obj.IsControlPlane
                       TargetObjectName := obj.GetName
                       ModuleUUID := obj.ModuleUUID } : ClusterModule))
        (diff (reconcileCurrentState cluster) d).ToVerify).filter
          (fun r => r.ControlPlane)).length ≤
        (cpToVerify (reconcileCurrentState cluster) d).length := by
      rw [List.filter_map, List.length_map, diff_ToVerify]
      apply filter_append_length_le
      intro m hm
      exact hcw m (diff_ToVerify_workers_mem _ d m hm).1
    have h2 := addPhase_controlPlane_records W (diff (reconcileCurrentState cluster) d).ToAdd []
    have h3 : ((diff (reconcileCurrentState cluster) d).ToAdd.filter
        (fun o => o.IsControlPlane)).length ≤
        (cpToAdd (reconcileCurrentState cluster) d).length := by
      rw [diff_ToAdd]
      apply filter_append_length_le
      intro o ho
      exact hdw o (List.mem_of_mem_filter ho)
    have h4 : (cpToVerify (reconcileCurrentState cluster) d).length +
        (cpToAdd (reconcileCurrentState cluster) d).length ≤ 1 := by
      unfold cpToVerify cpToAdd
      cases d.ControlPlane <;> cases (reconcileCurrentState cluster).ControlPlane <;> simp
    omega

/-- Witness of C18: a persisted list with two control-plane records and a worker
group, the desired control plane `foo` with the worker group b, every call
succeeding. -/
theorem C18_at_most_one_control_plane_witness :
    fooDesired.oneControlPlane = true ∧
    ((diff (reconcileCurrentState twoControlPlanesCluster) fooDesired).Apply
        okWorld).1.result.Spec =
      [ { ControlPlane := true, TargetObjectName := "bar", ModuleUUID := "uuid-2" },
        { ControlPlane := false, TargetObjectName := "b", ModuleUUID := "uuid-new" } ] ∧
    ((reconcileCurrentState twoControlPlanesCluster).oneControlPlane = true ∧
    (((reconcileCurrentState twoControlPlanesCluster).ControlPlane.toList ++
        (reconcileCurrentState twoControlPlanesCluster).MachineDeployments).filter
          (fun e => e.IsControlPlane)).length ≤ 1 ∧
    (((diff (reconcileCurrentState twoControlPlanesCluster) fooDesired).Apply
        okWorld).1.result.Spec.filter (fun r => r.ControlPlane)).length ≤ 1) :=
  ⟨by decide, by decide,
    C18_at_most_one_control_plane okWorld twoControlPlanesCluster fooDesired (by decide)⟩

/-! ## Lookup by name and the current state, as the tests read them -/

/-- C19 (the claim as stated fails): two worker groups named `foo`; the name
occurs twice, not once, and the lookup reports it found, with the first of the
two entries. -/
theorem C19_duplicate_name_is_found :
    (twoFoo.MachineDeployments.map ModuleInfo.GetName).count "foo" = 2 ∧
    twoFoo.GetDeployment "foo" =
      (true, some ⟨.mdWrapper { Namespace := "default", Name := "foo" }, "uuid-1"⟩) ∧
    ¬ ((twoFoo.GetDeployment "foo").1 = true ↔
        (twoFoo.MachineDeployments.map ModuleInfo.GetName).count "foo" = 1) := by
  decide

/-- C19 (amended): `GetDeployment` reports the name found exactly when it occurs
at least once among the names of the worker groups, and then returns the first
entry of that name (hence its UUID); otherwise it returns not found and no entry.
When the names are unique, found is the same as occurring exactly once. -/
theorem C19_lookup_finds_first (c : CurrentState) (n : String) :
    ((c.GetDeployment n).1 = true ↔
      1 ≤ (c.MachineDeployments.map ModuleInfo.GetName).count n) ∧
    ((c.GetDeployment n).1 = true →
      ∃ pre m post, c.MachineDeployments = pre ++ m :: post ∧ m.GetName = n ∧
        (∀ x ∈ pre, x.GetName ≠ n) ∧ c.GetDeployment n = (true, some m)) ∧
    ((c.GetDeployment n).1 = false → c.GetDeployment n = (false, none)) ∧
    (c.uniqueNames →
      ((c.GetDeployment n).1 = true ↔
        (c.MachineDeployments.map ModuleInfo.GetName).count n = 1)) := by
  have hfound : (c.GetDeployment n).1 = true ↔
      1 ≤ (c.MachineDeployments.map ModuleInfo.GetName).count n := by
    rw [List.one_le_count_iff, List.mem_map]
    exact findInArr_iff c.MachineDeployments n
  refine ⟨hfound, ?_, ?_, ?_⟩
  · intro h
    have hsome : (lookup c.MachineDeployments n).isSome = true := by
      rw [← getInArr_fst]; exact h
    obtain ⟨m, hm⟩ := Option.isSome_iff_exists.1 hsome
    obtain ⟨hname, pre, post, hsplit, hpre⟩ := (lookup_eq_some_iff _ _ _).1 hm
    refine ⟨pre, m, post, hsplit, hname, hpre, ?_⟩
    have h1 := getInArr_fst c.MachineDeployments n
    have h2 := getInArr_snd c.MachineDeployments n
    rw [hm] at h1 h2
    exact Prod.ext h1 h2
  · intro h
    have h1 := getInArr_fst c.MachineDeployments n
    have h2 := getInArr_snd c.MachineDeployments n
    have hnone : lookup c.MachineDeployments n = none := by
      cases hl : lookup c.MachineDeployments n with
      | none => rfl
      | some m =>
        rw [hl] at h1
        have : (c.GetDeployment n).1 = true := h1
        rw [h] at this
        exact Bool.noConfusion this
    rw [hnone] at h2
    exact Prod.ext h h2
  · intro hu
    have hle := List.nodup_iff_count_le_one.1 hu n
    rw [hfound]
    omega

/-- C20: `reconcileCurrentState` is a function of the persisted list. Its worker
groups are the records with `ControlPlane = false`, in list order and in equal
number, each with the record's name and UUID, `IsControlPlane() = false` and the
cluster's namespace. When the list holds one control-plane record, the control
plane has that record's name and UUID, `IsControlPlane() = true` and the
cluster's namespace; when it holds none, there is no control plane. -/
theorem C20_current_state_from_persisted_list (cluster : VSphereCluster) :
    (reconcileCurrentState cluster).MachineDeployments.map
        (fun e => (e.GetName, e.ModuleUUID, e.IsControlPlane, e.GetNamespace)) =
      (cluster.Spec.ClusterModules.filter (fun r => !r.ControlPlane)).map
        (fun r => (r.TargetObjectName, r.ModuleUUID, false, cluster.Namespace)) ∧
    (reconcileCurrentState cluster).MachineDeployments.length =
      (cluster.Spec.ClusterModules.filter (fun r => !r.ControlPlane)).length ∧
    (∀ r, cluster.Spec.ClusterModules.filter (fun r => r.ControlPlane) = [r] →
      ∃ cp, (reconcileCurrentState cluster).ControlPlane = some cp ∧
        cp.GetName = r.TargetObjectName ∧ cp.ModuleUUID = r.ModuleUUID ∧
        cp.IsControlPlane = true ∧ cp.GetNamespace = cluster.Namespace) ∧
    (cluster.Spec.ClusterModules.filter (fun r => r.ControlPlane) = [] →
      (reconcileCurrentState cluster).ControlPlane = none) ∧
    reconcileCurrentState twoWorkersCluster =
      { ControlPlane := none
        MachineDeployments :=
          [ ⟨.mdWrapper { Namespace := "default", Name := "a" }, "uuid-a"⟩,
            ⟨.mdWrapper { Namespace := "default", Name := "b" }, "uuid-b"⟩ ] } ∧
    reconcileCurrentState sameNameCluster =
      { ControlPlane := some ⟨.kcpWrapper { Namespace := "default", Name := "foo" }, "uuid-1"⟩
        MachineDeployments :=
          [ ⟨.mdWrapper { Namespace := "default", Name := "foo" }, "uuid-2"⟩ ] } := by
  have hfind : cluster.Spec.ClusterModules.reverse.find? (fun r => r.ControlPlane) =
      ((cluster.Spec.ClusterModules.filter (fun r => r.ControlPlane)).reverse).head? := by
    rw [← List.filter_reverse, List.filter_head?]
  rw [reconcileCurrentState_eq]
  refine ⟨?_, ?_, ?_, ?_, by decide, by decide⟩
  · simp only [List.map_map]
    rfl
  · simp
  · intro r hr
    refine ⟨kcpInfo cluster r, ?_, rfl, rfl, rfl, rfl⟩
    simp only [hfind, hr]
    rfl
  · intro hnil
    simp only [hfind, hnil]
    rfl

/-! ## Every pattern of add outcomes occurs in some world -/

theorem addCallsOf_countP (W : World) (calls : List Call) (obj : Wrapper) :
    (calls ++ addCallsOf W calls obj).countP Call.isFetchForObject =
      calls.countP Call.isFetchForObject + 1 := by
  rw [List.countP_append]
  unfold addCallsOf
  cases W.fetchSessionForObject calls obj with
  | error e => simp [Call.isFetchForObject]
  | ok s =>
    simp only
    cases W.ClusterComputeResourceOrDefault (calls ++ [Call.fetchSessionForObject obj]) s with
    | error e => simp [Call.isFetchForObject, List.countP_cons]
    | ok cc => simp [Call.isFetchForObject, List.countP_cons]

theorem scriptedWorld_addResult (outs : List (Except Err String)) (calls : List Call)
    (obj : Wrapper) (o : Except Err String)
    (ho : outs[calls.countP Call.isFetchForObject]? = some o) :
    addResult (scriptedWorld outs) calls obj = o := by
  unfold addResult
  cases o with
  | error e => simp [scriptedWorld, ho]
  | ok uuid =>
    simp [scriptedWorld, ho, List.countP_append, List.countP_cons, Call.isFetchForObject]

theorem scriptedWorld_addPhase (l : List Wrapper) :
    ∀ (outs pre : List (Except Err String)) (calls : List Call),
      outs.length = l.length → calls.countP Call.isFetchForObject = pre.length →
      addPhase (scriptedWorld (pre ++ outs)) calls l = List.zipWith addItemOf l outs := by
  induction l with
  | nil => intro outs pre calls _ _; simp [addPhase]
  | cons obj l ih =>
    intro outs pre calls hlen hcount
    cases outs with
    | nil => simp at hlen
    | cons o outs =>
      have ho : (pre ++ o :: outs)[calls.countP Call.isFetchForObject]? = some o := by
        rw [hcount, List.getElem?_append_right (Nat.le_refl _)]
        simp
      have hnext := ih outs (pre ++ [o])
        (calls ++ addCallsOf (scriptedWorld (pre ++ o :: outs)) calls obj)
        (by simpa using hlen)
        (by rw [addCallsOf_countP, hcount]; simp)
      rw [List.append_assoc, List.singleton_append] at hnext
      simp only [addPhase, List.zipWith_cons_cons]
      rw [scriptedWorld_addResult _ calls obj o ho, hnext]

/-- For every list of entries and every list of outcomes, one per entry, there is
a world in which the add phase meets exactly these outcomes. -/
theorem addPhase_every_pattern (l : List Wrapper) (outs : List (Except Err String))
    (hlen : outs.length = l.length) :
    ∃ W, addPhase W [] l = List.zipWith addItemOf l outs :=
  ⟨scriptedWorld outs, by
    have := scriptedWorld_addPhase l outs [] [] hlen rfl
    simpa using this⟩

/-! ## The desired-state resolver -/

theorem foldl_desiredStateStep (l : List ObjectMeta) (ds : DesiredState) :
    l.foldl desiredStateStep ds =
      { ControlPlane := ds.ControlPlane
        MachineDeployments := ds.MachineDeployments ++
          (l.filter (fun md => IsZero md.DeletionTimestamp)).map Wrapper.mdWrapper } := by
  induction l generalizing ds with
  | nil => simp
  | cons md l ih =>
    rw [List.foldl_cons, ih]
    unfold desiredStateStep
    cases h : IsZero md.DeletionTimestamp <;> simp [h, List.filter_cons]

/-- C21: the cluster label is present and the control-plane query returns more
than one object, pending deletion or not. Then `reconcileDesiredState` returns
an error and no desired state, the worker-group query is not sent, and nothing
of what the store would answer to it has a part in the outcome. -/
theorem C21_more_than_one_control_plane (k : Constants) (client : Client)
    (cluster : VSphereCluster) (name : String) (kcpItems : List ObjectMeta)
    (hl : cluster.Labels.lookup k.ClusterLabelName = some name)
    (hq : client.ListKubeadmControlPlanes cluster.Namespace [(k.ClusterLabelName, name)] =
      .ok kcpItems)
    (hn : 1 < kcpItems.length) :
    (reconcileDesiredState k client cluster).ret =
      .error (Errorf ("multiple control plane objects found, expected 1, found " ++
        toString kcpItems.length)) ∧
    (∀ d, (reconcileDesiredState k client cluster).ret ≠ .ok d) ∧
    (reconcileDesiredState k client cluster).queries =
      [.listKubeadmControlPlanes cluster.Namespace [(k.ClusterLabelName, name)]] ∧
    (∀ answer : String → List (String × String) → Except Err (List ObjectMeta),
      reconcileDesiredState k { client with ListMachineDeployments := answer } cluster =
        reconcileDesiredState k client cluster) := by
  have hret : reconcileDesiredState k client cluster =
      { ret := .error (Errorf ("multiple control plane objects found, expected 1, found " ++
          toString kcpItems.length))
        queries := [.listKubeadmControlPlanes cluster.Namespace [(k.ClusterLabelName, name)]] } := by
    simp [reconcileDesiredState, hl, hq, hn]
  refine ⟨by rw [hret], ?_, by rw [hret], ?_⟩
  · intro d hd
    rw [hret] at hd
    exact Except.noConfusion hd
  · intro answer
    rw [hret]
    simp [reconcileDesiredState, hl, hq, hn]

/-- Witness of C21: scenario D, two control-plane objects for the cluster label,
one of them pending deletion. -/
theorem C21_more_than_one_control_plane_witness :
    labelledCluster.Labels.lookup testConstants.ClusterLabelName = some "valid-cluster" ∧
    (reconcileDesiredState testConstants twoControlPlanesClient labelledCluster).ret =
      .error (Errorf ("multiple control plane objects found, expected 1, found " ++
        toString ([ { Namespace := "default", Name := "foo-1" },
            { Namespace := "default", Name := "foo-2", DeletionTimestamp := some 1667556000 } ] :
          List ObjectMeta).length)) ∧
    (∀ d, (reconcileDesiredState testConstants twoControlPlanesClient labelledCluster).ret ≠
      .ok d) ∧
    (reconcileDesiredState testConstants twoControlPlanesClient labelledCluster).queries =
      [.listKubeadmControlPlanes labelledCluster.Namespace
        [(testConstants.ClusterLabelName, "valid-cluster")]] ∧
    (∀ answer : String → List (String × String) → Except Err (List ObjectMeta),
      reconcileDesiredState testConstants
          { twoControlPlanesClient with ListMachineDeployments := answer } labelledCluster =
        reconcileDesiredState testConstants twoControlPlanesClient labelledCluster) :=
  ⟨by decide,
    C21_more_than_one_control_plane testConstants twoControlPlanesClient labelledCluster
      "valid-cluster"
      [ { Namespace := "default", Name := "foo-1" },
        { Namespace := "default", Name := "foo-2", DeletionTimestamp := some 1667556000 } ]
      (by decide) rfl (by decide)⟩

/-- C22: the cluster label is present, both queries succeed and the
control-plane query returns at most one object. Then `reconcileDesiredState`
succeeds; the worker groups of the desired state are the returned worker-group
objects whose deletion timestamp is zero, in returned order; the control plane
is the returned control-plane object when its deletion timestamp is zero, and is
absent when none was returned or the one returned is pending deletion. -/
theorem C22_pending_deletion_excluded (k : Constants) (client : Client)
    (cluster : VSphereCluster) (name : String) (kcpItems mdItems : List ObjectMeta)
    (hl : cluster.Labels.lookup k.ClusterLabelName = some name)
    (hq1 : client.ListKubeadmControlPlanes cluster.Namespace [(k.ClusterLabelName, name)] =
      .ok kcpItems)
    (hq2 : client.ListMachineDeployments cluster.Namespace [(k.ClusterLabelName, name)] =
      .ok mdItems)
    (hn : kcpItems.length ≤ 1) :
    ∃ d, (reconcileDesiredState k client cluster).ret = .ok d ∧
      d.MachineDeployments =
        (mdItems.filter (fun md => IsZero md.DeletionTimestamp)).map Wrapper.mdWrapper ∧
      (kcpItems = [] → d.ControlPlane = none) ∧
      (∀ kcp, kcpItems = [kcp] → IsZero kcp.DeletionTimestamp = true →
        d.ControlPlane = some (.kcpWrapper kcp)) ∧
      (∀ kcp, kcpItems = [kcp] → IsZero kcp.DeletionTimestamp = false →
        d.ControlPlane = none) ∧
      d.oneControlPlane = true := by
  have hn2 : ¬ kcpItems.length > 1 := by omega
  refine ⟨_, by simp [reconcileDesiredState, hl, hq1, hq2, hn2]; rfl, ?_, ?_, ?_, ?_, ?_⟩
  · simp [foldl_desiredStateStep, desiredControlPlane]
    cases kcpItems with
    | nil => rfl
    | cons kcp rest => simp only; split <;> rfl
  · intro h
    simp [foldl_desiredStateStep, desiredControlPlane, h]
  · intro kcp h hz
    simp [foldl_desiredStateStep, desiredControlPlane, h, hz]
  · intro kcp h hz
    simp [foldl_desiredStateStep, desiredControlPlane, h, hz]
  · simp only [foldl_desiredStateStep, DesiredState.oneControlPlane, Bool.and_eq_true,
      List.all_eq_true]
    constructor
    · unfold desiredControlPlane
      cases kcpItems with
      | nil => rfl
      | cons kcp rest =>
        cases hz : IsZero kcp.DeletionTimestamp <;> simp [hz, Wrapper.IsControlPlane]
    · intro w hw
      have hnil : (desiredControlPlane kcpItems {}).MachineDeployments = [] := by
        unfold desiredControlPlane
        cases kcpItems with
        | nil => rfl
        | cons kcp rest => simp only; split <;> rfl
      rw [hnil, List.nil_append] at hw
      obtain ⟨md, _, hmd⟩ := List.mem_map.1 hw
      rw [← hmd]
      rfl

/-- Witness of C22: one control plane, one worker group alive and one pending
deletion. -/
theorem C22_pending_deletion_excluded_witness :
    (reconcileDesiredState testConstants testClient labelledCluster).ret =
      .ok { ControlPlane := some (.kcpWrapper { Namespace := "default", Name := "foo" })
            MachineDeployments := [.mdWrapper { Namespace := "default", Name := "a" }] } ∧
    ∃ d, (reconcileDesiredState testConstants testClient labelledCluster).ret = .ok d ∧
      d.MachineDeployments =
        (([ { Namespace := "default", Name := "a" },
            { Namespace := "default", Name := "gone", DeletionTimestamp := some 1667556000 } ] :
          List ObjectMeta).filter (fun md => IsZero md.DeletionTimestamp)).map
            Wrapper.mdWrapper ∧
      (([{ Namespace := "default", Name := "foo" }] : List ObjectMeta) = [] →
        d.ControlPlane = none) ∧
      (∀ kcp, ([{ Namespace := "default", Name := "foo" }] : List ObjectMeta) = [kcp] →
        IsZero kcp.DeletionTimestamp = true → d.ControlPlane = some (.kcpWrapper kcp)) ∧
      (∀ kcp, ([{ Namespace := "default", Name := "foo" }] : List ObjectMeta) = [kcp] →
        IsZero kcp.DeletionTimestamp = false → d.ControlPlane = none) ∧
      d.oneControlPlane = true :=
  ⟨rfl,
    C22_pending_deletion_excluded testConstants testClient labelledCluster "valid-cluster"
      [{ Namespace := "default", Name := "foo" }]
      [ { Namespace := "default", Name := "a" },
        { Namespace := "default", Name := "gone", DeletionTimestamp := some 1667556000 } ]
      (by decide) rfl rfl (by decide)⟩

/-! ## The reconciler -/

theorem reconcileDesiredState_AddFinalizer (k : Constants) (client : Client)
    (cluster : VSphereCluster) (finalizer : String) :
    reconcileDesiredState k client (AddFinalizer cluster finalizer) =
      reconcileDesiredState k client cluster := by
  unfold AddFinalizer
  split <;> rfl

theorem reconcileCurrentState_AddFinalizer (cluster : VSphereCluster) (finalizer : String) :
    reconcileCurrentState (AddFinalizer cluster finalizer) = reconcileCurrentState cluster := by
  unfold AddFinalizer
  split <;> rfl

theorem AddFinalizer_mem (cluster : VSphereCluster) (finalizer : String) :
    finalizer ∈ (AddFinalizer cluster finalizer).Finalizers := by
  unfold AddFinalizer
  split
  · assumption
  · simp

theorem AddFinalizer_eq (cluster : VSphereCluster) (finalizer : String) :
    AddFinalizer cluster finalizer =
      { cluster with Finalizers := (AddFinalizer cluster finalizer).Finalizers } := by
  unfold AddFinalizer
  split <;> rfl

/-- The outcome of `reconcileNormal` when the desired state cannot be resolved. -/
theorem reconcileNormal_of_error (k : Constants) (client : Client)
    (calcA : CurrentState → DesiredState → ApplyState × Option Err)
    (cluster : VSphereCluster) (e : Err)
    (h : (reconcileDesiredState k client cluster).ret = .error e) :
    reconcileNormal k client calcA cluster =
      { cluster := AddFinalizer cluster k.ClusterAffinityFinalizer
        result := { RequeueAfter := 10 * Second }
        err := some e
        calls := []
        queries := (reconcileDesiredState k client cluster).queries } := by
  unfold reconcileNormal
  simp only [reconcileDesiredState_AddFinalizer, h]

/-- The outcome of `reconcileNormal` when the desired state is resolved and
`calculateDiff` returns no error. -/
theorem reconcileNormal_of_ok (k : Constants) (client : Client)
    (calcA : CurrentState → DesiredState → ApplyState × Option Err)
    (cluster : VSphereCluster) (d : DesiredState) (st : ApplyState)
    (h : (reconcileDesiredState k client cluster).ret = .ok d)
    (hc : calcA (reconcileCurrentState cluster) d = (st, none)) :
    reconcileNormal k client calcA cluster =
      { cluster :=
          if st.result.Spec.length = 0 then
            RemoveFinalizer
              { AddFinalizer cluster k.ClusterAffinityFinalizer with
                Spec := { ClusterModules := st.result.Spec } }
              k.ClusterAffinityFinalizer
          else
            { AddFinalizer cluster k.ClusterAffinityFinalizer with
              Spec := { ClusterModules := st.result.Spec } }
        result := {}
        err := none
        calls := st.calls
        queries := (reconcileDesiredState k client cluster).queries } := by
  unfold reconcileNormal
  simp only [reconcileDesiredState_AddFinalizer, reconcileCurrentState_AddFinalizer, h, hc]

/-- C23: `reconcileDesiredState` fails with the error `e`. Then `reconcileNormal`
returns `e` with `RequeueAfter` of ten seconds; no session or provider call is
made and the outcome does not depend on `calculateDiff`, which is not run; the
VSphereCluster is the one before the pass with the affinity finalizer set, and
nothing else of it has changed: its list of cluster modules is the one before
the pass. -/
theorem C23_desired_state_failure (k : Constants) (client : Client)
    (calcA : CurrentState → DesiredState → ApplyState × Option Err)
    (cluster : VSphereCluster) (e : Err)
    (h : (reconcileDesiredState k client cluster).ret = .error e) :
    (reconcileNormal k client calcA cluster).err = some e ∧
    (reconcileNormal k client calcA cluster).result =
      { Requeue := false, RequeueAfter := 10 * 1000000000 } ∧
    (reconcileNormal k client calcA cluster).calls = [] ∧
    (∀ calcB : CurrentState → DesiredState → ApplyState × Option Err,
      reconcileNormal k client calcB cluster = reconcileNormal k client calcA cluster) ∧
    k.ClusterAffinityFinalizer ∈ (reconcileNormal k client calcA cluster).cluster.Finalizers ∧
    (reconcileNormal k client calcA cluster).cluster =
      { cluster with Finalizers := (reconcileNormal k client calcA cluster).cluster.Finalizers } ∧
    (reconcileNormal k client calcA cluster).cluster.Finalizers =
      (if k.ClusterAffinityFinalizer ∈ cluster.Finalizers then cluster.Finalizers
       else cluster.Finalizers ++ [k.ClusterAffinityFinalizer]) ∧
    (reconcileNormal k client calcA cluster).cluster.Spec.ClusterModules =
      cluster.Spec.ClusterModules := by
  have hout := reconcileNormal_of_error k client calcA cluster e h
  refine ⟨by rw [hout], by rw [hout]; rfl, by rw [hout], ?_, ?_, ?_, ?_, ?_⟩
  · intro calcB
    rw [hout, reconcileNormal_of_error k client calcB cluster e h]
  · rw [hout]
    exact AddFinalizer_mem cluster _
  · rw [hout]
    exact AddFinalizer_eq cluster _
  · rw [hout]
    simp only [AddFinalizer]
    split <;> rfl
  · rw [hout]
    simp only [AddFinalizer]
    split <;> rfl

/-- Witness of C23: the control-plane query fails. -/
theorem C23_desired_state_failure_witness :
    (reconcileDesiredState testConstants listFailsClient labelledCluster).ret =
      .error { msg := "failed to list control plane objects: connection refused" } ∧
    (reconcileNormal testConstants listFailsClient (calculateDiff okWorld) labelledCluster).err =
      some { msg := "failed to list control plane objects: connection refused" } ∧
    (reconcileNormal testConstants listFailsClient (calculateDiff okWorld) labelledCluster).result
      = { Requeue := false, RequeueAfter := 10 * 1000000000 } ∧
    (reconcileNormal testConstants listFailsClient (calculateDiff okWorld) labelledCluster).calls
      = [] ∧
    (∀ calcB : CurrentState → DesiredState → ApplyState × Option Err,
      reconcileNormal testConstants listFailsClient calcB labelledCluster =
        reconcileNormal testConstants listFailsClient (calculateDiff okWorld) labelledCluster) ∧
    testConstants.ClusterAffinityFinalizer ∈
      (reconcileNormal testConstants listFailsClient (calculateDiff okWorld)
        labelledCluster).cluster.Finalizers ∧
    (reconcileNormal testConstants listFailsClient (calculateDiff okWorld)
        labelledCluster).cluster =
      { labelledCluster with
        Finalizers := (reconcileNormal testConstants listFailsClient (calculateDiff okWorld)
          labelledCluster).cluster.Finalizers } ∧
    (reconcileNormal testConstants listFailsClient (calculateDiff okWorld)
        labelledCluster).cluster.Finalizers =
      (if testConstants.ClusterAffinityFinalizer ∈ labelledCluster.Finalizers then
        labelledCluster.Finalizers
       else labelledCluster.Finalizers ++ [testConstants.ClusterAffinityFinalizer]) ∧
    (reconcileNormal testConstants listFailsClient (calculateDiff okWorld)
        labelledCluster).cluster.Spec.ClusterModules =
      labelledCluster.Spec.ClusterModules :=
  ⟨rfl,
    C23_desired_state_failure testConstants listFailsClient (calculateDiff okWorld)
      labelledCluster { msg := "failed to list control plane objects: connection refused" } rfl⟩

/-- C24: the desired state `d` is resolved and `calculateDiff` returns the result
`st` of the applied diff and no error. Then `reconcileNormal` overwrites the list
of cluster modules with `Spec()` of that result, whatever the list was before;
the affinity finalizer is present afterwards exactly when that list is not
empty; and `reconcileNormal` returns no error and an empty result, whether or
not items of the result carry errors. -/
theorem C24_spec_overwritten (k : Constants) (client : Client)
    (calcA : CurrentState → DesiredState → ApplyState × Option Err)
    (cluster : VSphereCluster) (d : DesiredState) (st : ApplyState)
    (h : (reconcileDesiredState k client cluster).ret = .ok d)
    (hc : calcA (reconcileCurrentState cluster) d = (st, none)) :
    (reconcileNormal k client calcA cluster).cluster.Spec.ClusterModules = st.result.Spec ∧
    (k.ClusterAffinityFinalizer ∈ (reconcileNormal k client calcA cluster).cluster.Finalizers ↔
      st.result.Spec ≠ []) ∧
    (reconcileNormal k client calcA cluster).err = none ∧
    (reconcileNormal k client calcA cluster).result = { Requeue := false, RequeueAfter := 0 } ∧
    (reconcileNormal k client calcA cluster).calls = st.calls ∧
    (reconcileNormal k client calcA cluster).cluster =
      { cluster with
        Spec := { ClusterModules := st.result.Spec }
        Finalizers := (reconcileNormal k client calcA cluster).cluster.Finalizers } := by
  rw [reconcileNormal_of_ok k client calcA cluster d st h hc]
  refine ⟨?_, ?_, rfl, rfl, rfl, ?_⟩
  · simp only
    split <;> rfl
  · simp only
    by_cases hz : st.result.Spec.length = 0
    · have hnil : st.result.Spec = [] := List.length_eq_zero.1 hz
      simp [hz, hnil, RemoveFinalizer]
    · have hne : st.result.Spec ≠ [] := fun hnil => hz (by rw [hnil]; rfl)
      simp only [hz, if_false, hne, ne_eq, not_false_eq_true, iff_true]
      exact AddFinalizer_mem cluster _
  · simp only
    split
    · simp only [RemoveFinalizer, AddFinalizer]
      split <;> rfl
    · simp only [AddFinalizer]
      split <;> rfl

/-- Witness of C24: the persisted control plane `foo` and worker group a, the
desired control plane `foo` and worker group a, and a world in which every create
fails; with only `foo` persisted, the add of a fails, the list is the record of
`foo` alone and no error is returned. -/
theorem C24_spec_overwritten_witness :
    (reconcileDesiredState testConstants testClient labelledCluster).ret = .ok steadyDesired ∧
    (reconcileNormal testConstants testClient (calculateDiff createFailsWorld)
      { labelledCluster with Spec := { ClusterModules :=
          [{ ControlPlane := true, TargetObjectName := "foo", ModuleUUID := "uuid-1" }] } }
      ).cluster.Spec.ClusterModules =
      [{ ControlPlane := true, TargetObjectName := "foo", ModuleUUID := "uuid-1" }] ∧
    (reconcileNormal testConstants testClient (calculateDiff createFailsWorld)
      { labelledCluster with Spec := { ClusterModules :=
          [{ ControlPlane := true, TargetObjectName := "foo", ModuleUUID := "uuid-1" }] } }
      ).err = none ∧
    (reconcileNormal testConstants testClient (calculateDiff createFailsWorld)
        labelledCluster).cluster.Spec.ClusterModules =
      ((diff (reconcileCurrentState labelledCluster) steadyDesired).Apply
        createFailsWorld).1.result.Spec :=
  ⟨rfl, by decide, by decide,
    (C24_spec_overwritten testConstants testClient (calculateDiff createFailsWorld)
      labelledCluster steadyDesired
      ((diff (reconcileCurrentState labelledCluster) steadyDesired).Apply createFailsWorld).1
      rfl rfl).1⟩

/-- C25: when the fetch of the VSphereCluster fails, `Reconcile` returns the
fetch error and patches nothing. Once the object is fetched and the patch helper
opened, the object `reconcileNormal` leaves is patched exactly once, whatever
`reconcileNormal` returned (success, desired-state failure, apply errors); the
returned result is that of `reconcileNormal`; the returned error is that of
`reconcileNormal` when it returned one, and otherwise the error of the patch, if
any. -/
theorem C25_patched_exactly_once (k : Constants) (client : Client)
    (calcA : CurrentState → DesiredState → ApplyState × Option Err) (req : Request) :
    (∀ e, client.Get req.Namespace req.Name = .error e →
      (Reconcile k client calcA req).patched = [] ∧
      (Reconcile k client calcA req).reterr = some e ∧
      (Reconcile k client calcA req).result = { Requeue := false, RequeueAfter := 0 }) ∧
    (∀ c, client.Get req.Namespace req.Name = .ok c → client.NewHelper c = none →
      (Reconcile k client calcA req).patched = [(reconcileNormal k client calcA c).cluster] ∧
      (Reconcile k client calcA req).patched.length = 1 ∧
      (Reconcile k client calcA req).result = (reconcileNormal k client calcA c).result ∧
      (∀ e, (reconcileNormal k client calcA c).err = some e →
        (Reconcile k client calcA req).reterr = some e) ∧
      ((reconcileNormal k client calcA c).err = none →
        (Reconcile k client calcA req).reterr =
          client.Patch c (reconcileNormal k client calcA c).cluster)) := by
  constructor
  · intro e he
    simp [Reconcile, he]
  · intro c hc hh
    unfold Reconcile
    simp only [hc, hh]
    cases hp : client.Patch c (reconcileNormal k client calcA c).cluster with
    | none =>
      refine ⟨rfl, rfl, rfl, fun e he => he, fun he => he⟩
    | some perr =>
      refine ⟨rfl, rfl, rfl, ?_, ?_⟩
      · intro e he
        simp only [he]
      · intro he
        simp only [he]

/-! ## The remove phase without a session -/

/-- Every record of `Spec()` bears the flag and the name of an entry of
`ToVerify` or of an entry of `ToAdd`. -/
theorem Spec_mem_source (W : World) (d : Diff) (r : ClusterModule)
    (hr : r ∈ (d.Apply W).1.result.Spec) :
    (∃ m ∈ d.ToVerify, r.ControlPlane = m.IsControlPlane ∧ r.TargetObjectName = m.GetName ∧
      r.ModuleUUID = m.ModuleUUID) ∨
    (∃ o ∈ d.ToAdd, r.ControlPlane = o.IsControlPlane ∧ r.TargetObjectName = o.GetName) := by
  rw [Apply_Spec, List.mem_append] at hr
  rcases hr with hr | hr
  · obtain ⟨m, hm, hmr⟩ := List.mem_map.1 hr
    exact Or.inl ⟨m, hm, by rw [← hmr], by rw [← hmr], by rw [← hmr]⟩
  · exact Or.inr (addItems_record W d.ToAdd [] r hr)

/-- An entry of `ToRemove` agrees on both the name and the control-plane flag
with no entry of `ToVerify` and with no entry of `ToAdd`. -/
theorem remove_disjoint (c : CurrentState) (d : DesiredState)
    (hck : c.oneControlPlane = true) (hdk : d.oneControlPlane = true)
    (m : ModuleInfo) (hm : m ∈ (diff c d).ToRemove) :
    (∀ v ∈ (diff c d).ToVerify,
      ¬ (v.IsControlPlane = m.IsControlPlane ∧ v.GetName = m.GetName)) ∧
    (∀ o ∈ (diff c d).ToAdd,
      ¬ (o.IsControlPlane = m.IsControlPlane ∧ o.GetName = m.GetName)) := by
  have hcw := oneControlPlane_workers hck
  have hdw := desired_oneControlPlane_workers hdk
  rw [diff_ToRemove, List.mem_append] at hm
  rcases hm with hm | hm
  · -- the removed control plane: the desired state has none
    unfold cpToRemove at hm
    cases hd : d.ControlPlane with
    | some w0 => simp [hd] at hm
    | none =>
      cases hc : c.ControlPlane with
      | none => simp [hd, hc] at hm
      | some cp =>
        simp only [hd, hc, List.mem_singleton] at hm
        have hmk : m.IsControlPlane = true := by rw [hm]; exact oneControlPlane_slot hck hc
        constructor
        · intro v hv ⟨hk, _⟩
          rw [diff_ToVerify] at hv
          have hV : cpToVerify c d = [] := by simp [cpToVerify, hd]
          rw [hV, List.nil_append] at hv
          have := hcw v (diff_ToVerify_workers_mem c d v hv).1
          rw [hk, hmk] at this
          exact Bool.noConfusion this
        · intro o ho ⟨hk, _⟩
          rw [diff_ToAdd] at ho
          have hA : cpToAdd c d = [] := by simp [cpToAdd, hd]
          rw [hA, List.nil_append] at ho
          have := hdw o (List.mem_of_mem_filter ho)
          rw [hk, hmk] at this
          exact Bool.noConfusion this
  · have hmc := List.mem_of_mem_filter hm
    have hmk := hcw m hmc
    have hnot : findInArr (diff c d).ToVerify m.GetName = false := by
      have := (List.mem_filter.1 hm).2
      simpa using this
    constructor
    · intro v hv ⟨_, hn⟩
      have : findInArr (diff c d).ToVerify m.GetName = true :=
        (findInArr_iff _ _).2 ⟨v, hv, hn⟩
      rw [hnot] at this
      exact Bool.noConfusion this
    · intro o ho ⟨hk, hn⟩
      rw [diff_ToAdd, List.mem_append] at ho
      rcases ho with ho | ho
      · unfold cpToAdd at ho
        cases hd : d.ControlPlane with
        | none => simp [hd] at ho
        | some w0 =>
          cases hc : c.ControlPlane with
          | some cp => simp [hd, hc] at ho
          | none =>
            simp only [hd, hc, List.mem_singleton] at ho
            have hok : o.IsControlPlane = true := by
              rw [ho]; exact desired_oneControlPlane_slot hdk hd
            rw [hok, hmk] at hk
            exact Bool.noConfusion hk
      · have hf := (List.mem_filter.1 ho).2
        have hnone : lookup c.MachineDeployments o.GetName = none := by
          cases hl : lookup c.MachineDeployments o.GetName with
          | none => rfl
          | some x => simp [hl] at hf
        exact (lookup_eq_none_iff _ _).1 hnone m hmc hn.symm

/-- C26: the acquisition of the remove-phase session fails with the error `e`.
Then `Apply` makes no delete call, appends no item for an entry of `ToRemove`,
and returns no error although `delete` returned `e`; `Error()` and `Spec()` are
those of the verify and add phases alone. For the diff of a pass (current state
from a persisted list, desired state with at most one control plane), no record
of `Spec()` bears the name and the flag of an entry of `ToRemove`: the entry
leaves the persisted list and its module has not been deleted. -/
theorem C26_session_failure_drops_removals (W : World) (d : Diff) (e : Err)
    (hs : W.fetchSession (d.add W (d.verify {})).calls = .error e) :
    (d.Apply W).1.calls = (d.add W (d.verify {})).calls ++ [.fetchSession] ∧
    (∀ c ∈ (d.Apply W).1.calls, ∀ s uuid, c ≠ .DeleteModule s uuid) ∧
    (d.Apply W).1.result = (d.add W (d.verify {})).result ∧
    (d.Apply W).1.result.Items.length = d.ToVerify.length + d.ToAdd.length ∧
    (d.delete W (d.add W (d.verify {}))).2 = some e ∧
    (d.Apply W).2 = none ∧
    (d.Apply W).1.result.Error = (d.add W (d.verify {})).result.Error ∧
    (d.Apply W).1.result.Spec = (d.add W (d.verify {})).result.Spec ∧
    (∀ (cluster : VSphereCluster) (desired : DesiredState),
      desired.oneControlPlane = true → d = diff (reconcileCurrentState cluster) desired →
      ∀ m ∈ d.ToRemove, ∀ r ∈ (d.Apply W).1.result.Spec,
        ¬ (r.ControlPlane = m.IsControlPlane ∧ r.TargetObjectName = m.GetName)) := by
  have hdel : d.delete W (d.add W (d.verify {})) =
      ((d.add W (d.verify {})).call .fetchSession, some e) := by
    simp [Diff.delete, hs]
  have hstate : (d.Apply W).1 = (d.add W (d.verify {})).call .fetchSession := by
    show (d.delete W (d.add W (d.verify {}))).1 = _
    rw [hdel]
  have hcalls : (d.Apply W).1.calls = (d.add W (d.verify {})).calls ++ [.fetchSession] := by
    rw [hstate]; rfl
  have hres : (d.Apply W).1.result = (d.add W (d.verify {})).result := by
    rw [hstate]; rfl
  refine ⟨hcalls, ?_, hres, ?_, by rw [hdel], rfl, by rw [hres], by rw [hres], ?_⟩
  · intro c hc s uuid hcd
    rw [hcalls, Apply_state] at hc
    obtain ⟨cs, hcs, hall⟩ := addTrace_calls W d.ToAdd []
    rw [List.nil_append] at hcs
    simp only [hcs, List.mem_append, List.mem_singleton] at hc
    rcases hc with hc | hc
    · have := hall c hc
      rw [hcd] at this
      exact Bool.noConfusion this
    · rw [hcd] at hc
      exact Call.noConfusion hc
  · rw [hres, Apply_state]
    simp [addItems_length]
  · intro cluster desired hdk hd m hm r hr ⟨hk, hn⟩
    have hck := reconcileCurrentState_oneControlPlane cluster
    rw [hd] at hm hr
    obtain ⟨hv, ha⟩ := remove_disjoint _ desired hck hdk m hm
    rcases Spec_mem_source W _ r hr with ⟨v, hvm, h1, h2, _⟩ | ⟨o, hom, h1, h2⟩
    · exact hv v hvm ⟨by rw [← h1, hk], by rw [← h2, hn]⟩
    · exact ha o hom ⟨by rw [← h1, hk], by rw [← h2, hn]⟩

/-- Witness of C26: the persisted worker groups a and b, of which only b is
desired, and no session for the remove phase: a leaves the list, no delete call
is made, and `Error()` is nil. -/
theorem C26_session_failure_drops_removals_witness :
    sessionFailsWorld.fetchSession
      ((diff (reconcileCurrentState twoWorkersCluster) onlyB).add sessionFailsWorld
        ((diff (reconcileCurrentState twoWorkersCluster) onlyB).verify {})).calls =
      .error { msg := "no session" } ∧
    (diff (reconcileCurrentState twoWorkersCluster) onlyB).ToRemove =
      [⟨.mdWrapper { Namespace := "default", Name := "a" }, "uuid-a"⟩] ∧
    ((diff (reconcileCurrentState twoWorkersCluster) onlyB).Apply sessionFailsWorld).1.calls =
      [.fetchSession] ∧
    ((diff (reconcileCurrentState twoWorkersCluster) onlyB).Apply
        sessionFailsWorld).1.result.Error = none ∧
    ((diff (reconcileCurrentState twoWorkersCluster) onlyB).Apply
        sessionFailsWorld).1.result.Spec =
      [{ ControlPlane := false, TargetObjectName := "b", ModuleUUID := "uuid-b" }] ∧
    ((diff (reconcileCurrentState twoWorkersCluster) onlyB).Apply sessionFailsWorld).2 = none ∧
    ((diff (reconcileCurrentState twoWorkersCluster) onlyB).Apply sessionFailsWorld).1.result =
      ((diff (reconcileCurrentState twoWorkersCluster) onlyB).add sessionFailsWorld
        ((diff (reconcileCurrentState twoWorkersCluster) onlyB).verify {})).result :=
  ⟨rfl, by decide, by decide, by decide, by decide, rfl,
    (C26_session_failure_drops_removals sessionFailsWorld
      (diff (reconcileCurrentState twoWorkersCluster) onlyB) { msg := "no session" } rfl).2.2.1⟩

/-! ## Several control-plane records in the persisted list -/

theorem diff_ToVerify_origin (c : CurrentState) (d : DesiredState) (m : ModuleInfo)
    (hm : m ∈ (diff c d).ToVerify) : c.ControlPlane = some m ∨ m ∈ c.MachineDeployments := by
  rw [diff_ToVerify, List.mem_append] at hm
  rcases hm with h | h
  · left
    unfold cpToVerify at h
    cases hd : d.ControlPlane with
    | none => simp [hd] at h
    | some w0 =>
      cases hc : c.ControlPlane with
      | none => simp [hd, hc] at h
      | some cp =>
        simp only [hd, hc, List.mem_singleton] at h
        rw [h]
  · exact Or.inr (diff_ToVerify_workers_mem c d m h).1

theorem reconcileCurrentState_ControlPlane (cluster : VSphereCluster) :
    (reconcileCurrentState cluster).ControlPlane =
      ((cluster.Spec.ClusterModules.filter (fun r => r.ControlPlane)).getLast?).map
        (kcpInfo cluster) := by
  rw [reconcileCurrentState_eq, ← List.head?_reverse, ← List.filter_reverse, List.filter_head?]

/-- C27: `last` is the last record of the persisted list with
`ControlPlane = true`. Then the control plane of the current state is built from
`last`; and for every other control-plane record `r` of the list, no entry of the
current state bears the flag, the name and the UUID of `r`, so none of
`ToVerify` or `ToRemove` of a diff computed from it does, and `r` is not in the
list the pass writes back, whatever the calls answer, when the desired state has
at most one control plane. -/
theorem C27_only_last_control_plane_kept (cluster : VSphereCluster) (last : ClusterModule)
    (hlast : (cluster.Spec.ClusterModules.filter (fun r => r.ControlPlane)).getLast? =
      some last) :
    (reconcileCurrentState cluster).ControlPlane =
      some { Wrapper := .kcpWrapper
               { Namespace := cluster.Namespace, Name := last.TargetObjectName }
             ModuleUUID := last.ModuleUUID } ∧
    (∀ r ∈ cluster.Spec.ClusterModules, r.ControlPlane = true → r ≠ last →
      (∀ e, ((reconcileCurrentState cluster).ControlPlane = some e ∨
          e ∈ (reconcileCurrentState cluster).MachineDeployments) →
        ¬ (e.IsControlPlane = r.ControlPlane ∧ e.GetName = r.TargetObjectName ∧
          e.ModuleUUID = r.ModuleUUID)) ∧
      (∀ d : DesiredState,
        (∀ e ∈ (diff (reconcileCurrentState cluster) d).ToVerify,
          ¬ (e.IsControlPlane = r.ControlPlane ∧ e.GetName = r.TargetObjectName ∧
            e.ModuleUUID = r.ModuleUUID)) ∧
        (∀ e ∈ (diff (reconcileCurrentState cluster) d).ToRemove,
          ¬ (e.IsControlPlane = r.ControlPlane ∧ e.GetName = r.TargetObjectName ∧
            e.ModuleUUID = r.ModuleUUID)) ∧
        (d.oneControlPlane = true → ∀ W : World,
          r ∉ ((diff (reconcileCurrentState cluster) d).Apply W).1.result.Spec))) := by
  have hcp : (reconcileCurrentState cluster).ControlPlane = some (kcpInfo cluster last) := by
    rw [reconcileCurrentState_ControlPlane, hlast]
    rfl
  have hlastk : last.ControlPlane = true := by
    have hmem := List.mem_of_getLast?_eq_some hlast
    have := (List.mem_filter.1 hmem).2
    simpa using this
  have hcw := oneControlPlane_workers (reconcileCurrentState_oneControlPlane cluster)
  refine ⟨hcp, ?_⟩
  intro r _ hrk hne
  have hstate : ∀ e, ((reconcileCurrentState cluster).ControlPlane = some e ∨
      e ∈ (reconcileCurrentState cluster).MachineDeployments) →
      ¬ (e.IsControlPlane = r.ControlPlane ∧ e.GetName = r.TargetObjectName ∧
        e.ModuleUUID = r.ModuleUUID) := by
    rintro e he ⟨hk, hn, hu⟩
    rcases he with he | he
    · rw [hcp] at he
      have hee : kcpInfo cluster last = e := Option.some.inj he
      apply hne
      rw [← hee] at hn hu
      cases r
      cases last
      simp only at hrk hlastk
      simp only [kcpInfo, ModuleInfo.GetName, Wrapper.GetName] at hn hu
      simp only [ClusterModule.mk.injEq]
      exact ⟨by rw [hrk, hlastk], hn.symm, hu.symm⟩
    · have := hcw e he
      rw [hk, hrk] at this
      exact Bool.noConfusion this
  refine ⟨hstate, ?_⟩
  intro d
  refine ⟨fun e he => hstate e (diff_ToVerify_origin _ d e he),
    fun e he => hstate e (diff_ToRemove_origin _ d e he), ?_⟩
  intro hdk W hr
  rcases Spec_mem_source W _ r hr with ⟨v, hv, h1, h2, h3⟩ | ⟨o, ho, h1, _⟩
  · exact hstate v (diff_ToVerify_origin _ d v hv) ⟨h1.symm, h2.symm, h3.symm⟩
  · rw [diff_ToAdd] at ho
    have hA : cpToAdd (reconcileCurrentState cluster) d = [] := by
      unfold cpToAdd
      rw [hcp]
      cases d.ControlPlane <;> rfl
    rw [hA, List.nil_append] at ho
    have := desired_oneControlPlane_workers hdk o (List.mem_of_mem_filter ho)
    rw [← h1, hrk] at this
    exact Bool.noConfusion this

/-- Witness of C27: the persisted control-plane records `foo` and `bar` and the
worker group a; `bar` is the last. -/
theorem C27_only_last_control_plane_kept_witness :
    (twoControlPlanesCluster.Spec.ClusterModules.filter (fun r => r.ControlPlane)).getLast? =
      some { ControlPlane := true, TargetObjectName := "bar", ModuleUUID := "uuid-2" } ∧
    reconcileCurrentState twoControlPlanesCluster =
      { ControlPlane := some ⟨.kcpWrapper { Namespace := "default", Name := "bar" }, "uuid-2"⟩
        MachineDeployments := [⟨.mdWrapper { Namespace := "default", Name := "a" }, "uuid-a"⟩] } ∧
    ((diff (reconcileCurrentState twoControlPlanesCluster) fooDesired).Apply
        okWorld).1.result.Spec =
      [ { ControlPlane := true, TargetObjectName := "bar", ModuleUUID := "uuid-2" },
        { ControlPlane := false, TargetObjectName := "b", ModuleUUID := "uuid-new" } ] ∧
    (reconcileCurrentState twoControlPlanesCluster).ControlPlane =
      some { Wrapper := .kcpWrapper
               { Namespace := twoControlPlanesCluster.Namespace, Name := "bar" }
             ModuleUUID := "uuid-2" } :=
  ⟨by decide, by decide, by decide,
    (C27_only_last_control_plane_kept twoControlPlanesCluster
      { ControlPlane := true, TargetObjectName := "bar", ModuleUUID := "uuid-2" }
      (by decide)).1⟩

/-! ## A pass at steady state -/

theorem recordOf_mdInfo (cluster : VSphereCluster) (r : ClusterModule)
    (hr : r.ControlPlane = false) : recordOf (mdInfo cluster r) = r := by
  cases r
  simp only at hr
  simp [recordOf, mdInfo, ModuleInfo.IsControlPlane, ModuleInfo.GetName,
    Wrapper.IsControlPlane, Wrapper.GetName, hr]

theorem recordOf_kcpInfo (cluster : VSphereCluster) (r : ClusterModule)
    (hr : r.ControlPlane = true) : recordOf (kcpInfo cluster r) = r := by
  cases r
  simp only at hr
  simp [recordOf, kcpInfo, ModuleInfo.IsControlPlane, ModuleInfo.GetName,
    Wrapper.IsControlPlane, Wrapper.GetName, hr]

theorem lookup_mdInfo (cluster : VSphereCluster) (rs : List ClusterModule) (n : String) :
    lookup (rs.map (mdInfo cluster)) n = (findRecord rs n).map (mdInfo cluster) := by
  unfold lookup findRecord
  rw [List.find?_map]
  rfl

theorem findRecord_some_of_mem (rs : List ClusterModule) (n : String)
    (h : n ∈ rs.map (fun r => r.TargetObjectName)) :
    ∃ r, findRecord rs n = some r ∧ r ∈ rs ∧ r.TargetObjectName = n := by
  obtain ⟨r0, hr0, hn0⟩ := List.mem_map.1 h
  cases hf : findRecord rs n with
  | none =>
    unfold findRecord at hf
    rw [List.find?_eq_none] at hf
    have := hf r0 hr0
    simp [hn0] at this
  | some r =>
    refine ⟨r, rfl, List.mem_of_find?_eq_some hf, ?_⟩
    have := List.find?_some hf
    simpa using this

/-- The records the verify phase re-emits for the desired worker groups. -/
theorem verified_workers_records (cluster : VSphereCluster) (rs : List ClusterModule)
    (hrs : ∀ r ∈ rs, r.ControlPlane = false) (ws : List Wrapper) :
    (ws.filterMap (fun w => lookup (rs.map (mdInfo cluster)) w.GetName)).map recordOf =
      ws.filterMap (fun w => findRecord rs w.GetName) := by
  induction ws with
  | nil => rfl
  | cons w ws ih =>
    simp only [List.filterMap_cons, lookup_mdInfo]
    cases hf : findRecord rs w.GetName with
    | none =>
      simp only [Option.map_none']
      simpa [lookup_mdInfo] using ih
    | some r =>
      have hmem : r ∈ rs := List.mem_of_find?_eq_some hf
      simp only [Option.map_some', List.map_cons, recordOf_mdInfo cluster r (hrs r hmem)]
      congr 1
      simpa [lookup_mdInfo] using ih

theorem steady_workers_names (rs : List ClusterModule) (ws : List Wrapper)
    (hsub : ∀ w ∈ ws, w.GetName ∈ rs.map (fun r => r.TargetObjectName)) :
    (ws.filterMap (fun w => findRecord rs w.GetName)).map (fun r => r.TargetObjectName) =
      ws.map Wrapper.GetName := by
  induction ws with
  | nil => rfl
  | cons w ws ih =>
    obtain ⟨r, hf, _, hn⟩ := findRecord_some_of_mem rs w.GetName (hsub w (List.mem_cons_self _ _))
    simp only [List.filterMap_cons, hf, List.map_cons, hn]
    congr 1
    exact ih (fun x hx => hsub x (List.mem_cons_of_mem _ hx))

/-- At steady state the re-emitted worker records are the persisted worker
records, in the order of the desired worker groups. -/
theorem steady_workers_perm (rs : List ClusterModule) (ws : List Wrapper)
    (hrs : (rs.map (fun r => r.TargetObjectName)).Nodup)
    (hws : (ws.map Wrapper.GetName).Nodup)
    (hsame : ∀ n, n ∈ ws.map Wrapper.GetName ↔ n ∈ rs.map (fun r => r.TargetObjectName)) :
    (ws.filterMap (fun w => findRecord rs w.GetName)).Perm rs := by
  have hsub : ∀ w ∈ ws, w.GetName ∈ rs.map (fun r => r.TargetObjectName) :=
    fun w hw => (hsame _).1 (List.mem_map_of_mem _ hw)
  have hnames := steady_workers_names rs ws hsub
  have hnd1 : (ws.filterMap (fun w => findRecord rs w.GetName)).Nodup := by
    apply List.Nodup.of_map (fun r => r.TargetObjectName)
    rw [hnames]
    exact hws
  have hnd2 : rs.Nodup := List.Nodup.of_map _ hrs
  rw [List.perm_ext_iff_of_nodup hnd1 hnd2]
  intro r
  constructor
  · intro hr
    obtain ⟨w, _, hf⟩ := List.mem_filterMap.1 hr
    exact List.mem_of_find?_eq_some hf
  · intro hr
    have hn : r.TargetObjectName ∈ ws.map Wrapper.GetName :=
      (hsame _).2 (List.mem_map_of_mem (fun r => r.TargetObjectName) hr)
    obtain ⟨w, hw, hwn⟩ := List.mem_map.1 hn
    obtain ⟨r2, hf, hr2, hn2⟩ := findRecord_some_of_mem rs w.GetName (hsub w hw)
    have heq : r2 = r := List.inj_on_of_nodup_map hrs hr2 hr (by rw [hn2, hwn])
    rw [heq] at hf
    exact List.mem_filterMap.2 ⟨w, hw, hf⟩

/-- A diff with nothing to add and nothing to remove: `Apply` acquires the
remove-phase session and makes no other call; the items are those of the verify
phase. -/
theorem Apply_verify_only (W : World) (d : Diff) (ha : d.ToAdd = []) (hr : d.ToRemove = []) :
    (d.Apply W).1.calls = [.fetchSession] ∧
    (d.Apply W).1.result.Items = d.ToVerify.map verifyItem ∧
    (d.Apply W).1.result.Error = none ∧
    (d.Apply W).1.result.Spec = d.ToVerify.map recordOf := by
  have hstate := Apply_state W d
  rw [ha] at hstate
  simp only [addItems, addTrace, List.append_nil] at hstate
  have hitems : (d.Apply W).1.result.Items = d.ToVerify.map verifyItem := by
    rw [Apply_items_phases, hstate, ha]
    simp only [addPhase, removeItems, hr, deleteOutcomes, deleteItems]
    cases W.fetchSession [] <;> simp
  refine ⟨?_, hitems, ?_, ?_⟩
  · rw [Apply_calls, hstate, hr]
    cases W.fetchSession [] <;> simp
  · rw [Error_eq, hitems, NewAggregate_eq_none_iff, List.filterMap_eq_nil_iff]
    intro it hit
    obtain ⟨m, _, hm⟩ := List.mem_map.1 hit
    rw [← hm]
    rfl
  · rw [Apply_Spec, ha]
    simp only [addItems, List.filterMap_nil, List.append_nil]
    rfl

/-- C28: the persisted list has at most one control-plane record and unique
worker names; the desired state has a control plane exactly when the list has a
control-plane record, and its worker names are unique and are those of the list.
Then the diff has nothing to add and nothing to remove; `Apply` acquires the
remove-phase session and makes no other call, so no create and no delete;
`Error()` is nil; and `Spec()` is the control-plane record, if any, followed by
the worker records in the order of the desired worker groups: a permutation of
the persisted list, every record unchanged. -/
theorem C28_steady_state (W : World) (cluster : VSphereCluster) (d : DesiredState)
    (hcp : (cluster.Spec.ClusterModules.filter (fun r => r.ControlPlane)).length ≤ 1)
    (hnames : ((cluster.Spec.ClusterModules.filter (fun r => !r.ControlPlane)).map
      (fun r => r.TargetObjectName)).Nodup)
    (hdcp : d.ControlPlane.isSome = cluster.Spec.ClusterModules.any (fun r => r.ControlPlane))
    (hdu : d.uniqueNames)
    (hsame : ∀ n, n ∈ d.MachineDeployments.map Wrapper.GetName ↔
      n ∈ (cluster.Spec.ClusterModules.filter (fun r => !r.ControlPlane)).map
        (fun r => r.TargetObjectName)) :
    (diff (reconcileCurrentState cluster) d).ToAdd = [] ∧
    (diff (reconcileCurrentState cluster) d).ToRemove = [] ∧
    ((diff (reconcileCurrentState cluster) d).Apply W).1.calls = [.fetchSession] ∧
    ((diff (reconcileCurrentState cluster) d).Apply W).1.result.Error = none ∧
    ((diff (reconcileCurrentState cluster) d).Apply W).1.result.Spec =
      cluster.Spec.ClusterModules.filter (fun r => r.ControlPlane) ++
        d.MachineDeployments.filterMap (fun w =>
          findRecord (cluster.Spec.ClusterModules.filter (fun r => !r.ControlPlane))
            w.GetName) ∧
    (d.MachineDeployments.filterMap (fun w =>
        findRecord (cluster.Spec.ClusterModules.filter (fun r => !r.ControlPlane))
          w.GetName)).map (fun r => r.TargetObjectName) =
      d.MachineDeployments.map Wrapper.GetName ∧
    (((diff (reconcileCurrentState cluster) d).Apply W).1.result.Spec).Perm
      cluster.Spec.ClusterModules ∧
    ((persist cluster ((diff (reconcileCurrentState cluster) d).Apply W).1.result
      ).Spec.ClusterModules).Perm cluster.Spec.ClusterModules := by
  have hMD : (reconcileCurrentState cluster).MachineDeployments =
      (cluster.Spec.ClusterModules.filter (fun r => !r.ControlPlane)).map (mdInfo cluster) := by
    rw [reconcileCurrentState_eq]
  have hCP := reconcileCurrentState_ControlPlane cluster
  have hwk : ∀ r ∈ cluster.Spec.ClusterModules.filter (fun r => !r.ControlPlane),
      r.ControlPlane = false := by
    intro r hr
    have := (List.mem_filter.1 hr).2
    simpa using this
  have hsub : ∀ w ∈ d.MachineDeployments,
      w.GetName ∈ (cluster.Spec.ClusterModules.filter (fun r => !r.ControlPlane)).map
        (fun r => r.TargetObjectName) :=
    fun w hw => (hsame _).1 (List.mem_map_of_mem _ hw)
  -- every desired worker group is found in the current state
  have hfound : ∀ w ∈ d.MachineDeployments,
      (lookup (reconcileCurrentState cluster).MachineDeployments w.GetName).isSome = true := by
    intro w hw
    obtain ⟨r, hf, _, _⟩ := findRecord_some_of_mem _ _ (hsub w hw)
    rw [hMD, lookup_mdInfo, hf]
    rfl
  -- the control-plane part of the three lists
  have hcases : (d.ControlPlane = none ∧
        cluster.Spec.ClusterModules.filter (fun r => r.ControlPlane) = [] ∧
        (reconcileCurrentState cluster).ControlPlane = none) ∨
      (∃ w last, d.ControlPlane = some w ∧
        cluster.Spec.ClusterModules.filter (fun r => r.ControlPlane) = [last] ∧
        (reconcileCurrentState cluster).ControlPlane = some (kcpInfo cluster last)) := by
    cases hd : d.ControlPlane with
    | none =>
      left
      rw [hd] at hdcp
      have hnil : cluster.Spec.ClusterModules.filter (fun r => r.ControlPlane) = [] := by
        rw [List.filter_eq_nil_iff]
        intro r hr hk
        have : cluster.Spec.ClusterModules.any (fun r => r.ControlPlane) = true :=
          List.any_eq_true.2 ⟨r, hr, hk⟩
        rw [← hdcp] at this
        exact Bool.noConfusion this
      exact ⟨rfl, hnil, by rw [hCP, hnil]; rfl⟩
    | some w =>
      right
      rw [hd] at hdcp
      obtain ⟨r, hr, hk⟩ := List.any_eq_true.1 hdcp.symm
      have hmem : r ∈ cluster.Spec.ClusterModules.filter (fun r => r.ControlPlane) :=
        List.mem_filter.2 ⟨hr, hk⟩
      have hlen : (cluster.Spec.ClusterModules.filter (fun r => r.ControlPlane)).length = 1 := by
        have := List.length_pos_of_mem hmem
        omega
      obtain ⟨last, hl⟩ := List.length_eq_one.1 hlen
      exact ⟨w, last, rfl, hl, by rw [hCP, hl]; rfl⟩
  have hA : cpToAdd (reconcileCurrentState cluster) d = [] := by
    unfold cpToAdd
    rcases hcases with ⟨h1, _, h3⟩ | ⟨w, last, h1, _, h3⟩ <;> rw [h1, h3]
  have hR : cpToRemove (reconcileCurrentState cluster) d = [] := by
    unfold cpToRemove
    rcases hcases with ⟨h1, _, h3⟩ | ⟨w, last, h1, _, h3⟩ <;> rw [h1, h3]
  have hV : (cpToVerify (reconcileCurrentState cluster) d).map recordOf =
      cluster.Spec.ClusterModules.filter (fun r => r.ControlPlane) := by
    unfold cpToVerify
    rcases hcases with ⟨h1, h2, h3⟩ | ⟨w, last, h1, h2, h3⟩
    · rw [h1, h3, h2]
      rfl
    · rw [h1, h3, h2]
      have hk : last.ControlPlane = true := by
        have hm : last ∈ cluster.Spec.ClusterModules.filter (fun r => r.ControlPlane) := by
          rw [h2]; simp
        have := (List.mem_filter.1 hm).2
        simpa using this
      simp [recordOf_kcpInfo cluster last hk]
  have hadd : (diff (reconcileCurrentState cluster) d).ToAdd = [] := by
    rw [diff_ToAdd, hA, List.nil_append, List.filter_eq_nil_iff]
    intro w hw
    simp [hfound w hw]
  have hrem : (diff (reconcileCurrentState cluster) d).ToRemove = [] := by
    rw [diff_ToRemove, hR, List.nil_append, List.filter_eq_nil_iff]
    intro m hm
    have hfind : findInArr (diff (reconcileCurrentState cluster) d).ToVerify m.GetName = true := by
      rw [findInArr_iff]
      rw [hMD] at hm
      obtain ⟨r, hr, hrm⟩ := List.mem_map.1 hm
      have hn : r.TargetObjectName ∈ d.MachineDeployments.map Wrapper.GetName :=
        (hsame _).2 (List.mem_map_of_mem (fun r => r.TargetObjectName) hr)
      obtain ⟨w, hw, hwn⟩ := List.mem_map.1 hn
      obtain ⟨v, hv⟩ := Option.isSome_iff_exists.1 (hfound w hw)
      refine ⟨v, ?_, ?_⟩
      · rw [diff_ToVerify]
        exact List.mem_append_right _ (List.mem_filterMap.2 ⟨w, hw, hv⟩)
      · rw [lookup_name hv, hwn, ← hrm]
        rfl
    simp [hfind]
  obtain ⟨hcalls, _, herr, hspec⟩ := Apply_verify_only W _ hadd hrem
  have hspec2 : ((diff (reconcileCurrentState cluster) d).Apply W).1.result.Spec =
      cluster.Spec.ClusterModules.filter (fun r => r.ControlPlane) ++
        d.MachineDeployments.filterMap (fun w =>
          findRecord (cluster.Spec.ClusterModules.filter (fun r => !r.ControlPlane))
            w.GetName) := by
    rw [hspec, diff_ToVerify, List.map_append, hV, hMD,
      verified_workers_records cluster _ hwk]
  have hperm : (((diff (reconcileCurrentState cluster) d).Apply W).1.result.Spec).Perm
      cluster.Spec.ClusterModules := by
    rw [hspec2]
    exact ((List.Perm.refl _).append (steady_workers_perm _ _ hnames hdu hsame)).trans
      (List.filter_append_perm (fun r => r.ControlPlane) cluster.Spec.ClusterModules)
  exact ⟨hadd, hrem, hcalls, herr, hspec2, steady_workers_names _ _ hsub, hperm, hperm⟩

/-- Witness of C28: the persisted control plane `foo` and worker group a, and
the desired state that matches them. -/
theorem C28_steady_state_witness :
    (labelledCluster.Spec.ClusterModules.filter (fun r => r.ControlPlane)).length ≤ 1 ∧
    ((labelledCluster.Spec.ClusterModules.filter (fun r => !r.ControlPlane)).map
      (fun r => r.TargetObjectName)).Nodup ∧
    steadyDesired.ControlPlane.isSome =
      labelledCluster.Spec.ClusterModules.any (fun r => r.ControlPlane) ∧
    steadyDesired.uniqueNames ∧
    ((diff (reconcileCurrentState labelledCluster) steadyDesired).Apply okWorld).1.result.Spec =
      [ { ControlPlane := true, TargetObjectName := "foo", ModuleUUID := "uuid-1" },
        { ControlPlane := false, TargetObjectName := "a", ModuleUUID := "uuid-a" } ] ∧
    (diff (reconcileCurrentState labelledCluster) steadyDesired).ToAdd = [] ∧
    (diff (reconcileCurrentState labelledCluster) steadyDesired).ToRemove = [] ∧
    ((diff (reconcileCurrentState labelledCluster) steadyDesired).Apply okWorld).1.calls =
      [.fetchSession] ∧
    ((diff (reconcileCurrentState labelledCluster) steadyDesired).Apply
      okWorld).1.result.Error = none :=
  ⟨by decide, by decide, by decide, by decide, by decide,
    (C28_steady_state okWorld labelledCluster steadyDesired (by decide) (by decide)
      (by decide) (by decide) (by
        intro n
        simp [steadyDesired, labelledCluster, Wrapper.GetName])).1,
    (by decide), (by decide), (by decide)⟩

end Affinity
